import Mathlib

/-!
# flow-dps-rosetta: the error mapping at the API boundary, the validation
of transaction hashes, the conversion of events, the script generator and
the conversions of package `convert`

A shallow embedding of `api/errors.go` (package `api`) together with the
failure structs of package `failure` it converts, of `Validator.Transaction`
(package `validator`), of `New` and `Converter.EventToOperation` (package
`converter`), of the generator of package `scripts` with its template
`getBalance`, and of `ParseCadenceArgument`, `PathsToBytes` and
`BytesToPaths` (package `convert`), and theorems about what they return.

Conventions of the embedding:

* a Go `error` is the sequence of error values that `errors.As` inspects
  (the error itself, then what unwrapping yields), each value described by
  the text of its `Error()` method and by the failure struct it holds, if any;
* `errors.As(err, &target)` is the search for the first value of the target's
  type in that sequence;
* a `map[string]interface{}` is a finite-support function from keys to boxed
  values, a `nil` map being `none`;
* the HTTP status variables of package `api` and the error definitions of
  package `configuration` are declared elsewhere and are taken as parameters
  (`StatusCodes`, `Definitions`), and so are the constants of package `dps`
  (`DpsConstants`);
* a call that may index a slice out of range returns an outcome that says
  whether it aborts (`DecodeOutcome`, `IdentifierOutcome`,
  `TransactionOutcome`);
* the payload of an event is given by what `json.Decode` makes of it;
* a function that returns a value and an error returns `Except.ok` for a
  value with a nil error and `Except.error` for an error, with which the
  functions embedded here return a nil or empty value;
* the pattern of `ParseCadenceArgument` is embedded as its leftmost match,
  and the functions of `strconv`, `encoding/hex`, `math/big`, `text/template`
  and `ledger` that are called are embedded from their sources.
-/

namespace Rosetta

/-! ## Values -/

/-- A Go value boxed into `interface{}`, which is what a details map stores.
`zero` stands for the zero value of a struct field whose Go type is declared
in a file that is not embedded here. -/
inductive GoValue where
  | string (s : String)
  | int (n : Int)
  | bytes (b : List Nat)
  | zero
  deriving DecidableEq, Repr

/-- The lower-case hexadecimal digit of a nibble. -/
def hexDigit (n : Nat) : Char :=
  "0123456789abcdef".toList.getD n '0'

/-- The lower-case hexadecimal encoding of a byte string
(`hex.EncodeToString`). -/
def hexEncode (bs : List (Fin 256)) : String :=
  String.mk (bs.flatMap fun b => [hexDigit (b.val / 16), hexDigit (b.val % 16)])

/-- The type `flow.Address`: an array of eight bytes. -/
structure Address where
  bytes : List (Fin 256)
  size : bytes.length = 8
  deriving DecidableEq

/-- The method `Address.Hex`: the sixteen hexadecimal digits of the address. -/
def Address.Hex (a : Address) : String :=
  hexEncode a.bytes

/-- The zero value of `flow.Address`. -/
def Address.zero : Address :=
  ⟨List.replicate 8 0, rfl⟩

/-! ## Package `failure` -/

namespace failure

/-- The type `failure.Description`: a text and a list of fields. `Fields`
holds the key/value pairs in the order in which `Fields.Iterate` hands them
to its callback. -/
structure Description where
  Text : String
  Fields : List (String × GoValue)
  deriving DecidableEq

/-- The zero value of `failure.Description`. -/
def Description.zero : Description :=
  ⟨"", []⟩

structure InvalidNetwork where
  Description : Description
  HaveNetwork : GoValue
  WantNetwork : GoValue
  deriving DecidableEq

structure InvalidBlockchain where
  Description : Description
  HaveBlockchain : GoValue
  WantBlockchain : GoValue
  deriving DecidableEq

structure InvalidAccount where
  Description : Description
  Address : GoValue
  deriving DecidableEq

structure InvalidCurrency where
  Description : Description
  Symbol : GoValue
  Decimals : GoValue
  deriving DecidableEq

/-- The struct of `failure/invalid_block.go`. -/
structure InvalidBlock where
  Description : Description
  deriving DecidableEq

structure InvalidTransaction where
  Description : Description
  Hash : String
  deriving DecidableEq

structure UnknownCurrency where
  Description : Description
  Symbol : GoValue
  Decimals : GoValue
  deriving DecidableEq

structure UnknownBlock where
  Description : Description
  Index : GoValue
  Hash : GoValue
  deriving DecidableEq

structure UnknownTransaction where
  Description : Description
  Hash : GoValue
  deriving DecidableEq

structure InvalidIntent where
  Description : Description
  deriving DecidableEq

structure InvalidAuthorizers where
  Description : Description
  Have : GoValue
  Want : GoValue
  deriving DecidableEq

structure InvalidSignatures where
  Description : Description
  Have : GoValue
  Want : GoValue
  deriving DecidableEq

structure InvalidPayer where
  Description : Description
  Have : Address
  Want : Address
  deriving DecidableEq

/-- The struct of `failure/invalid_proposer.go`. -/
structure InvalidProposer where
  Description : Description
  Have : Address
  Want : Address
  deriving DecidableEq

structure InvalidScript where
  Description : Description
  Script : GoValue
  deriving DecidableEq

structure InvalidArguments where
  Description : Description
  Have : GoValue
  Want : GoValue
  deriving DecidableEq

/-- The struct of `failure/invalid_amount.go`. -/
structure InvalidAmount where
  Description : Description
  Amount : String
  deriving DecidableEq

structure InvalidReceiver where
  Description : Description
  Receiver : GoValue
  deriving DecidableEq

structure InvalidSignature where
  Description : Description
  deriving DecidableEq

structure InvalidKey where
  Description : Description
  Height : GoValue
  Address : Address
  Index : GoValue
  deriving DecidableEq

structure InvalidPayload where
  Description : Description
  Encoding : GoValue
  deriving DecidableEq

/-- The struct of `failure/invalid_block_hash.go`. -/
structure InvalidBlockHash where
  Description : Description
  WantLength : Int
  HaveLength : Int
  deriving DecidableEq

structure InvalidAccountAddress where
  Description : Description
  WantLength : GoValue
  HaveLength : GoValue
  deriving DecidableEq

structure InvalidTransactionHash where
  Description : Description
  WantLength : GoValue
  HaveLength : GoValue
  deriving DecidableEq

structure IncompleteBlock where
  Description : Description
  deriving DecidableEq

/-- The type `failure.InvalidOperations`; `api/errors.go` only tests for the
type and reads none of its fields. -/
structure InvalidOperations where
  Description : Description
  deriving DecidableEq

/-- The zero value of `failure.InvalidAuthorizers` (`var iautErr`). -/
def InvalidAuthorizers.zero : InvalidAuthorizers :=
  ⟨Description.zero, GoValue.zero, GoValue.zero⟩

/-- The zero value of `failure.InvalidKey` (`var ikErr`). -/
def InvalidKey.zero : InvalidKey :=
  ⟨Description.zero, GoValue.zero, Address.zero, GoValue.zero⟩

end failure

/-- A value of one of the failure types of package `failure`. -/
inductive Failure where
  | InvalidNetwork (fail : failure.InvalidNetwork)
  | InvalidBlockchain (fail : failure.InvalidBlockchain)
  | InvalidAccount (fail : failure.InvalidAccount)
  | InvalidCurrency (fail : failure.InvalidCurrency)
  | InvalidBlock (fail : failure.InvalidBlock)
  | InvalidTransaction (fail : failure.InvalidTransaction)
  | UnknownCurrency (fail : failure.UnknownCurrency)
  | UnknownBlock (fail : failure.UnknownBlock)
  | UnknownTransaction (fail : failure.UnknownTransaction)
  | InvalidIntent (fail : failure.InvalidIntent)
  | InvalidAuthorizers (fail : failure.InvalidAuthorizers)
  | InvalidSignatures (fail : failure.InvalidSignatures)
  | InvalidPayer (fail : failure.InvalidPayer)
  | InvalidProposer (fail : failure.InvalidProposer)
  | InvalidScript (fail : failure.InvalidScript)
  | InvalidArguments (fail : failure.InvalidArguments)
  | InvalidAmount (fail : failure.InvalidAmount)
  | InvalidReceiver (fail : failure.InvalidReceiver)
  | InvalidSignature (fail : failure.InvalidSignature)
  | InvalidKey (fail : failure.InvalidKey)
  | InvalidPayload (fail : failure.InvalidPayload)
  | InvalidBlockHash (fail : failure.InvalidBlockHash)
  | InvalidAccountAddress (fail : failure.InvalidAccountAddress)
  | InvalidTransactionHash (fail : failure.InvalidTransactionHash)
  | IncompleteBlock (fail : failure.IncompleteBlock)
  | InvalidOperations (fail : failure.InvalidOperations)
  deriving DecidableEq

/-- The names of the failure types. -/
inductive Kind where
  | InvalidNetwork
  | InvalidBlockchain
  | InvalidAccount
  | InvalidCurrency
  | InvalidBlock
  | InvalidTransaction
  | UnknownCurrency
  | UnknownBlock
  | UnknownTransaction
  | InvalidIntent
  | InvalidAuthorizers
  | InvalidSignatures
  | InvalidPayer
  | InvalidProposer
  | InvalidScript
  | InvalidArguments
  | InvalidAmount
  | InvalidReceiver
  | InvalidSignature
  | InvalidKey
  | InvalidPayload
  | InvalidBlockHash
  | InvalidAccountAddress
  | InvalidTransactionHash
  | IncompleteBlock
  | InvalidOperations
  deriving DecidableEq, Repr

/-- The type of a failure value. -/
def Failure.kind : Failure → Kind
  | .InvalidNetwork _ => Kind.InvalidNetwork
  | .InvalidBlockchain _ => Kind.InvalidBlockchain
  | .InvalidAccount _ => Kind.InvalidAccount
  | .InvalidCurrency _ => Kind.InvalidCurrency
  | .InvalidBlock _ => Kind.InvalidBlock
  | .InvalidTransaction _ => Kind.InvalidTransaction
  | .UnknownCurrency _ => Kind.UnknownCurrency
  | .UnknownBlock _ => Kind.UnknownBlock
  | .UnknownTransaction _ => Kind.UnknownTransaction
  | .InvalidIntent _ => Kind.InvalidIntent
  | .InvalidAuthorizers _ => Kind.InvalidAuthorizers
  | .InvalidSignatures _ => Kind.InvalidSignatures
  | .InvalidPayer _ => Kind.InvalidPayer
  | .InvalidProposer _ => Kind.InvalidProposer
  | .InvalidScript _ => Kind.InvalidScript
  | .InvalidArguments _ => Kind.InvalidArguments
  | .InvalidAmount _ => Kind.InvalidAmount
  | .InvalidReceiver _ => Kind.InvalidReceiver
  | .InvalidSignature _ => Kind.InvalidSignature
  | .InvalidKey _ => Kind.InvalidKey
  | .InvalidPayload _ => Kind.InvalidPayload
  | .InvalidBlockHash _ => Kind.InvalidBlockHash
  | .InvalidAccountAddress _ => Kind.InvalidAccountAddress
  | .InvalidTransactionHash _ => Kind.InvalidTransactionHash
  | .IncompleteBlock _ => Kind.IncompleteBlock
  | .InvalidOperations _ => Kind.InvalidOperations

/-- The field `Description`, which every failure struct has. -/
def Failure.Description : Failure → failure.Description
  | .InvalidNetwork fail => fail.Description
  | .InvalidBlockchain fail => fail.Description
  | .InvalidAccount fail => fail.Description
  | .InvalidCurrency fail => fail.Description
  | .InvalidBlock fail => fail.Description
  | .InvalidTransaction fail => fail.Description
  | .UnknownCurrency fail => fail.Description
  | .UnknownBlock fail => fail.Description
  | .UnknownTransaction fail => fail.Description
  | .InvalidIntent fail => fail.Description
  | .InvalidAuthorizers fail => fail.Description
  | .InvalidSignatures fail => fail.Description
  | .InvalidPayer fail => fail.Description
  | .InvalidProposer fail => fail.Description
  | .InvalidScript fail => fail.Description
  | .InvalidArguments fail => fail.Description
  | .InvalidAmount fail => fail.Description
  | .InvalidReceiver fail => fail.Description
  | .InvalidSignature fail => fail.Description
  | .InvalidKey fail => fail.Description
  | .InvalidPayload fail => fail.Description
  | .InvalidBlockHash fail => fail.Description
  | .InvalidAccountAddress fail => fail.Description
  | .InvalidTransactionHash fail => fail.Description
  | .IncompleteBlock fail => fail.Description
  | .InvalidOperations fail => fail.Description

/-! ### Type assertions

One function per failure type: the value when the dynamic type is that
type, nothing otherwise. These are the targets handed to `errorsAs`. -/

def Failure.asInvalidNetwork : Failure → Option failure.InvalidNetwork
  | .InvalidNetwork fail => some fail
  | _ => none

def Failure.asInvalidBlockchain : Failure → Option failure.InvalidBlockchain
  | .InvalidBlockchain fail => some fail
  | _ => none

def Failure.asInvalidAccount : Failure → Option failure.InvalidAccount
  | .InvalidAccount fail => some fail
  | _ => none

def Failure.asInvalidCurrency : Failure → Option failure.InvalidCurrency
  | .InvalidCurrency fail => some fail
  | _ => none

def Failure.asInvalidBlock : Failure → Option failure.InvalidBlock
  | .InvalidBlock fail => some fail
  | _ => none

def Failure.asInvalidTransaction : Failure → Option failure.InvalidTransaction
  | .InvalidTransaction fail => some fail
  | _ => none

def Failure.asUnknownCurrency : Failure → Option failure.UnknownCurrency
  | .UnknownCurrency fail => some fail
  | _ => none

def Failure.asUnknownBlock : Failure → Option failure.UnknownBlock
  | .UnknownBlock fail => some fail
  | _ => none

def Failure.asUnknownTransaction : Failure → Option failure.UnknownTransaction
  | .UnknownTransaction fail => some fail
  | _ => none

def Failure.asInvalidIntent : Failure → Option failure.InvalidIntent
  | .InvalidIntent fail => some fail
  | _ => none

def Failure.asInvalidAuthorizers : Failure → Option failure.InvalidAuthorizers
  | .InvalidAuthorizers fail => some fail
  | _ => none

def Failure.asInvalidSignatures : Failure → Option failure.InvalidSignatures
  | .InvalidSignatures fail => some fail
  | _ => none

def Failure.asInvalidPayer : Failure → Option failure.InvalidPayer
  | .InvalidPayer fail => some fail
  | _ => none

def Failure.asInvalidProposer : Failure → Option failure.InvalidProposer
  | .InvalidProposer fail => some fail
  | _ => none

def Failure.asInvalidScript : Failure → Option failure.InvalidScript
  | .InvalidScript fail => some fail
  | _ => none

def Failure.asInvalidArguments : Failure → Option failure.InvalidArguments
  | .InvalidArguments fail => some fail
  | _ => none

def Failure.asInvalidAmount : Failure → Option failure.InvalidAmount
  | .InvalidAmount fail => some fail
  | _ => none

def Failure.asInvalidReceiver : Failure → Option failure.InvalidReceiver
  | .InvalidReceiver fail => some fail
  | _ => none

def Failure.asInvalidSignature : Failure → Option failure.InvalidSignature
  | .InvalidSignature fail => some fail
  | _ => none

def Failure.asInvalidKey : Failure → Option failure.InvalidKey
  | .InvalidKey fail => some fail
  | _ => none

def Failure.asInvalidPayload : Failure → Option failure.InvalidPayload
  | .InvalidPayload fail => some fail
  | _ => none

def Failure.asInvalidBlockHash : Failure → Option failure.InvalidBlockHash
  | .InvalidBlockHash fail => some fail
  | _ => none

def Failure.asInvalidAccountAddress : Failure → Option failure.InvalidAccountAddress
  | .InvalidAccountAddress fail => some fail
  | _ => none

def Failure.asInvalidTransactionHash : Failure → Option failure.InvalidTransactionHash
  | .InvalidTransactionHash fail => some fail
  | _ => none

def Failure.asIncompleteBlock : Failure → Option failure.IncompleteBlock
  | .IncompleteBlock fail => some fail
  | _ => none

def Failure.asInvalidOperations : Failure → Option failure.InvalidOperations
  | .InvalidOperations fail => some fail
  | _ => none

/-! ## Errors and `errors.As` -/

/-- One error value, as far as the code observes it: the text its `Error()`
method returns, and the failure struct it is when its dynamic type is one of
the failure types. -/
structure ErrNode where
  Error : String
  failure : Option Failure
  deriving DecidableEq

/-- A non-nil Go `error`: the value itself (`head`) followed by the values
that `errors.As` goes on to inspect when it unwraps it, in that order. -/
structure GoError where
  head : ErrNode
  rest : List ErrNode
  deriving DecidableEq

/-- All error values that `errors.As` inspects, in order. -/
def GoError.chain (err : GoError) : List ErrNode :=
  err.head :: err.rest

/-- The method `Error()` of the error. -/
def GoError.Error (err : GoError) : String :=
  err.head.Error

/-- The failures held by the chain, in order. -/
def GoError.failures (err : GoError) : List Failure :=
  err.chain.filterMap fun n => n.failure

/-- The function `errors.As(err, &target)` for a target of a failure type:
the first value in the chain that has the target's type, `none` when
`errors.As` returns false. -/
def errorsAs {α : Type} (target : Failure → Option α) (err : GoError) : Option α :=
  err.chain.findSome? fun n => n.failure.bind target

/-! ## Package `meta`, package `configuration` and the status variables -/

/-- The type `meta.ErrorDefinition`: error code, error message and retriable
flag. -/
structure ErrorDefinition where
  ErrorCode : Nat
  Message : String
  Retriable : Bool
  deriving DecidableEq, Repr

/-- The error definitions of package `configuration` that `api/errors.go`
refers to. Their values are declared elsewhere and are left open. -/
structure Definitions where
  ErrorInternal : ErrorDefinition
  ErrorInvalidEncoding : ErrorDefinition
  ErrorInvalidFormat : ErrorDefinition
  ErrorInvalidNetwork : ErrorDefinition
  ErrorInvalidAccount : ErrorDefinition
  ErrorInvalidCurrency : ErrorDefinition
  ErrorInvalidBlock : ErrorDefinition
  ErrorInvalidTransaction : ErrorDefinition
  ErrorUnknownCurrency : ErrorDefinition
  ErrorUnknownBlock : ErrorDefinition
  ErrorUnknownTransaction : ErrorDefinition
  ErrorInvalidIntent : ErrorDefinition
  ErrorInvalidAuthorizers : ErrorDefinition
  ErrorInvalidSignatures : ErrorDefinition
  ErrorInvalidPayer : ErrorDefinition
  ErrorInvalidProposer : ErrorDefinition
  ErrorInvalidScript : ErrorDefinition
  ErrorInvalidArguments : ErrorDefinition
  ErrorInvalidAmount : ErrorDefinition
  ErrorInvalidReceiver : ErrorDefinition
  ErrorInvalidSignature : ErrorDefinition
  ErrorInvalidKey : ErrorDefinition
  ErrorInvalidPayload : ErrorDefinition

/-- The HTTP status variables of package `api` that `api/errors.go` refers
to. Their values are declared elsewhere and are left open. -/
structure StatusCodes where
  statusBadRequest : Nat
  statusUnprocessableEntity : Nat
  statusInternalServerError : Nat

/-! ## `api/errors.go` -/

/-- The constant `invalidJSON`. -/
def invalidJSON : String := "request does not contain valid JSON-encoded body"

/-- The constant `txInvalidOps`. -/
def txInvalidOps : String := "transaction operations are invalid"

/-- A non-nil `map[string]interface{}`. -/
abbrev DetailMap := String → Option GoValue

/-- The map `make(map[string]interface{})`. -/
def DetailMap.empty : DetailMap :=
  fun _ => none

/-- The assignment `details[key] = val`. -/
def DetailMap.set (details : DetailMap) (key : String) (val : GoValue) : DetailMap :=
  fun k => if k = key then some val else details k

/-- The type `Error`; a nil `Details` map is `none`. -/
structure Error where
  ErrorDefinition : ErrorDefinition
  Description : String
  Details : Option DetailMap

/-- The type `detailFunc`: a function that writes to the map it is given. -/
abbrev detailFunc := DetailMap → DetailMap

def withError (err : GoError) : detailFunc :=
  fun details => details.set "error" (GoValue.string err.Error)

def withDetail (key : String) (val : GoValue) : detailFunc :=
  fun details => details.set key val

def withAddress (key : String) (val : Address) : detailFunc :=
  fun details => details.set key (GoValue.string val.Hex)

def rosettaError (definition : ErrorDefinition) (description : String)
    (details : List detailFunc) : Error :=
  let dd := details.foldl (fun dd detail => detail dd) DetailMap.empty
  ⟨definition, description, some dd⟩

def internal (defs : Definitions) (description : String) (err : GoError) : Error :=
  rosettaError defs.ErrorInternal description [withError err]

def invalidEncoding (defs : Definitions) (description : String) (err : GoError) : Error :=
  rosettaError defs.ErrorInvalidEncoding description [withError err]

def invalidFormat (defs : Definitions) (description : String) (details : List detailFunc) : Error :=
  rosettaError defs.ErrorInvalidFormat description details

def convertError (definition : ErrorDefinition) (description : failure.Description)
    (details : List detailFunc) : Error :=
  let details := description.Fields.foldl
    (fun details field => details ++ [withDetail field.1 field.2]) details
  rosettaError definition description.Text details

def invalidNetwork (defs : Definitions) (fail : failure.InvalidNetwork) : Error :=
  convertError defs.ErrorInvalidNetwork fail.Description
    [withDetail "have_network" fail.HaveNetwork,
     withDetail "want_network" fail.WantNetwork]

def invalidBlockchain (defs : Definitions) (fail : failure.InvalidBlockchain) : Error :=
  convertError defs.ErrorInvalidNetwork fail.Description
    [withDetail "have_blockchain" fail.HaveBlockchain,
     withDetail "want_blockchain" fail.WantBlockchain]

def invalidAccount (defs : Definitions) (fail : failure.InvalidAccount) : Error :=
  convertError defs.ErrorInvalidAccount fail.Description
    [withDetail "address" fail.Address]

def invalidCurrency (defs : Definitions) (fail : failure.InvalidCurrency) : Error :=
  convertError defs.ErrorInvalidCurrency fail.Description
    [withDetail "symbol" fail.Symbol,
     withDetail "decimals" fail.Decimals]

def invalidBlock (defs : Definitions) (fail : failure.InvalidBlock) : Error :=
  convertError defs.ErrorInvalidBlock fail.Description []

def invalidTransaction (defs : Definitions) (fail : failure.InvalidTransaction) : Error :=
  convertError defs.ErrorInvalidTransaction fail.Description
    [withDetail "hash" (GoValue.string fail.Hash)]

def unknownCurrency (defs : Definitions) (fail : failure.UnknownCurrency) : Error :=
  convertError defs.ErrorUnknownCurrency fail.Description
    [withDetail "symbol" fail.Symbol,
     withDetail "decimals" fail.Decimals]

def unknownBlock (defs : Definitions) (fail : failure.UnknownBlock) : Error :=
  convertError defs.ErrorUnknownBlock fail.Description
    [withDetail "index" fail.Index,
     withDetail "hash" fail.Hash]

def unknownTransaction (defs : Definitions) (fail : failure.UnknownTransaction) : Error :=
  convertError defs.ErrorUnknownTransaction fail.Description
    [withDetail "hash" fail.Hash]

def invalidIntent (defs : Definitions) (fail : failure.InvalidIntent) : Error :=
  convertError defs.ErrorInvalidIntent fail.Description []

def invalidAuthorizers (defs : Definitions) (fail : failure.InvalidAuthorizers) : Error :=
  convertError defs.ErrorInvalidAuthorizers fail.Description
    [withDetail "have_authorizers" fail.Have,
     withDetail "want_authorizers" fail.Want]

def invalidSignatures (defs : Definitions) (fail : failure.InvalidSignatures) : Error :=
  convertError defs.ErrorInvalidSignatures fail.Description
    [withDetail "have_signatures" fail.Have,
     withDetail "want_signatures" fail.Want]

def invalidPayer (defs : Definitions) (fail : failure.InvalidPayer) : Error :=
  convertError defs.ErrorInvalidPayer fail.Description
    [withAddress "have_payer" fail.Have,
     withAddress "want_payer" fail.Want]

def invalidProposer (defs : Definitions) (fail : failure.InvalidProposer) : Error :=
  convertError defs.ErrorInvalidProposer fail.Description
    [withAddress "have_proposer" fail.Have,
     withAddress "want_proposer" fail.Want]

def invalidScript (defs : Definitions) (fail : failure.InvalidScript) : Error :=
  convertError defs.ErrorInvalidScript fail.Description
    [withDetail "script" fail.Script]

def invalidArguments (defs : Definitions) (fail : failure.InvalidArguments) : Error :=
  convertError defs.ErrorInvalidArguments fail.Description
    [withDetail "have_arguments" fail.Have,
     withDetail "want_arguments" fail.Want]

def invalidAmount (defs : Definitions) (fail : failure.InvalidAmount) : Error :=
  convertError defs.ErrorInvalidAmount fail.Description
    [withDetail "amount" (GoValue.string fail.Amount)]

def invalidReceiver (defs : Definitions) (fail : failure.InvalidReceiver) : Error :=
  convertError defs.ErrorInvalidReceiver fail.Description
    [withDetail "receiver" fail.Receiver]

def invalidSignature (defs : Definitions) (fail : failure.InvalidSignature) : Error :=
  convertError defs.ErrorInvalidSignature fail.Description []

def invalidKey (defs : Definitions) (fail : failure.InvalidKey) : Error :=
  convertError defs.ErrorInvalidKey fail.Description
    [withDetail "height" fail.Height,
     withAddress "account" fail.Address,
     withDetail "index" fail.Index]

def invalidPayload (defs : Definitions) (fail : failure.InvalidPayload) : Error :=
  convertError defs.ErrorInvalidPayload fail.Description
    [withDetail "encoding" fail.Encoding]

/-- The type `echo.HTTPError` as built by `echo.NewHTTPError(code, message)`. -/
structure HTTPError where
  Code : Nat
  Message : Error

/-- The function `unpackError`: the response for malformed JSON requests. -/
def unpackError (codes : StatusCodes) (defs : Definitions) (err : GoError) : HTTPError :=
  ⟨codes.statusBadRequest, invalidEncoding defs invalidJSON err⟩

/-- The function `formatError`: the response for requests that did not pass
validation. -/
def formatError (codes : StatusCodes) (defs : Definitions) (err : GoError) : HTTPError :=
  match errorsAs Failure.asInvalidBlockHash err with
  | some ibErr =>
    ⟨codes.statusBadRequest, invalidFormat defs ibErr.Description.Text
      [withDetail "want_length" (GoValue.int ibErr.WantLength),
       withDetail "have_length" (GoValue.int ibErr.HaveLength)]⟩
  | none =>
  match errorsAs Failure.asInvalidAccountAddress err with
  | some iaErr =>
    ⟨codes.statusBadRequest, invalidFormat defs iaErr.Description.Text
      [withDetail "want_length" iaErr.WantLength,
       withDetail "have_length" iaErr.HaveLength]⟩
  | none =>
  match errorsAs Failure.asInvalidTransactionHash err with
  | some itErr =>
    ⟨codes.statusBadRequest, invalidFormat defs itErr.Description.Text
      [withDetail "want_length" itErr.WantLength,
       withDetail "have_length" itErr.HaveLength]⟩
  | none =>
  match errorsAs Failure.asIncompleteBlock err with
  | some icErr => ⟨codes.statusBadRequest, invalidFormat defs icErr.Description.Text []⟩
  | none =>
  match errorsAs Failure.asInvalidNetwork err with
  | some inErr => ⟨codes.statusUnprocessableEntity, invalidNetwork defs inErr⟩
  | none =>
  match errorsAs Failure.asInvalidBlockchain err with
  | some iblErr => ⟨codes.statusUnprocessableEntity, invalidBlockchain defs iblErr⟩
  | none =>
  ⟨codes.statusBadRequest, invalidFormat defs err.Error []⟩

/-- The function `apiError`: the response for errors that occurred during
request processing. The ninth test hands `errors.As` the variable `iaErr` of
type `failure.InvalidAccount` and converts the untouched `iautErr`; the
sixteenth hands it `ipyErr` of type `failure.InvalidPayer` and converts the
untouched `ikErr`. -/
def apiError (codes : StatusCodes) (defs : Definitions) (description : String)
    (err : GoError) : HTTPError :=
  -- Common errors, found both in Data and Construction API.
  match errorsAs Failure.asInvalidNetwork err with
  | some inErr => ⟨codes.statusUnprocessableEntity, invalidNetwork defs inErr⟩
  | none =>
  match errorsAs Failure.asInvalidBlock err with
  | some ibErr => ⟨codes.statusUnprocessableEntity, invalidBlock defs ibErr⟩
  | none =>
  match errorsAs Failure.asUnknownBlock err with
  | some ubErr => ⟨codes.statusUnprocessableEntity, unknownBlock defs ubErr⟩
  | none =>
  match errorsAs Failure.asInvalidAccount err with
  | some iaErr => ⟨codes.statusUnprocessableEntity, invalidAccount defs iaErr⟩
  | none =>
  match errorsAs Failure.asInvalidCurrency err with
  | some icErr => ⟨codes.statusUnprocessableEntity, invalidCurrency defs icErr⟩
  | none =>
  match errorsAs Failure.asUnknownCurrency err with
  | some ucErr => ⟨codes.statusUnprocessableEntity, unknownCurrency defs ucErr⟩
  | none =>
  match errorsAs Failure.asInvalidTransaction err with
  | some itErr => ⟨codes.statusUnprocessableEntity, invalidTransaction defs itErr⟩
  | none =>
  match errorsAs Failure.asUnknownTransaction err with
  | some utErr => ⟨codes.statusUnprocessableEntity, unknownTransaction defs utErr⟩
  | none =>
  -- Construction API specific errors.
  match errorsAs Failure.asInvalidAccount err with
  | some _ =>
    ⟨codes.statusUnprocessableEntity, invalidAuthorizers defs failure.InvalidAuthorizers.zero⟩
  | none =>
  match errorsAs Failure.asInvalidPayer err with
  | some ipyErr => ⟨codes.statusUnprocessableEntity, invalidPayer defs ipyErr⟩
  | none =>
  match errorsAs Failure.asInvalidProposer err with
  | some iprErr => ⟨codes.statusUnprocessableEntity, invalidProposer defs iprErr⟩
  | none =>
  match errorsAs Failure.asInvalidSignature err with
  | some isgErr => ⟨codes.statusUnprocessableEntity, invalidSignature defs isgErr⟩
  | none =>
  match errorsAs Failure.asInvalidSignatures err with
  | some isgsErr => ⟨codes.statusUnprocessableEntity, invalidSignatures defs isgsErr⟩
  | none =>
  match errorsAs Failure.asInvalidOperations err with
  | some _ => ⟨codes.statusUnprocessableEntity, invalidFormat defs txInvalidOps []⟩
  | none =>
  match errorsAs Failure.asInvalidIntent err with
  | some intErr => ⟨codes.statusUnprocessableEntity, invalidIntent defs intErr⟩
  | none =>
  match errorsAs Failure.asInvalidPayer err with
  | some _ => ⟨codes.statusUnprocessableEntity, invalidKey defs failure.InvalidKey.zero⟩
  | none =>
  match errorsAs Failure.asInvalidScript err with
  | some isErr => ⟨codes.statusUnprocessableEntity, invalidScript defs isErr⟩
  | none =>
  match errorsAs Failure.asInvalidArguments err with
  | some iargErr => ⟨codes.statusUnprocessableEntity, invalidArguments defs iargErr⟩
  | none =>
  match errorsAs Failure.asInvalidAmount err with
  | some imErr => ⟨codes.statusUnprocessableEntity, invalidAmount defs imErr⟩
  | none =>
  match errorsAs Failure.asInvalidReceiver err with
  | some irErr => ⟨codes.statusUnprocessableEntity, invalidReceiver defs irErr⟩
  | none =>
  match errorsAs Failure.asInvalidPayload err with
  | some iplErr => ⟨codes.statusUnprocessableEntity, invalidPayload defs iplErr⟩
  | none =>
  ⟨codes.statusInternalServerError, internal defs description err⟩


/-- The entry of the details map of an error under a key, if any. -/
def Error.detail (e : Error) (key : String) : Option GoValue :=
  e.Details.bind fun m => m key

/-! ## Tables used to state the properties -/

/-- The failure types that `apiError` tests for, in the order of its tests
(the two tests that hand `errors.As` a variable of an earlier type repeat
`InvalidAccount` and `InvalidPayer` and add no type). -/
def apiErrorOrder : List Kind :=
  [Kind.InvalidNetwork, Kind.InvalidBlock, Kind.UnknownBlock, Kind.InvalidAccount,
   Kind.InvalidCurrency, Kind.UnknownCurrency, Kind.InvalidTransaction,
   Kind.UnknownTransaction, Kind.InvalidPayer, Kind.InvalidProposer,
   Kind.InvalidSignature, Kind.InvalidSignatures, Kind.InvalidOperations,
   Kind.InvalidIntent, Kind.InvalidScript, Kind.InvalidArguments, Kind.InvalidAmount,
   Kind.InvalidReceiver, Kind.InvalidPayload]

/-- The error definition named after each of the eight failure types common
to the Data and Construction API. -/
def commonDefinition (defs : Definitions) : Kind → Option ErrorDefinition
  | Kind.InvalidNetwork => some defs.ErrorInvalidNetwork
  | Kind.InvalidBlock => some defs.ErrorInvalidBlock
  | Kind.UnknownBlock => some defs.ErrorUnknownBlock
  | Kind.InvalidAccount => some defs.ErrorInvalidAccount
  | Kind.InvalidCurrency => some defs.ErrorInvalidCurrency
  | Kind.UnknownCurrency => some defs.ErrorUnknownCurrency
  | Kind.InvalidTransaction => some defs.ErrorInvalidTransaction
  | Kind.UnknownTransaction => some defs.ErrorUnknownTransaction
  | _ => none

/-- The error definition named after each of ten failure types of the
Construction API. -/
def constructionDefinition (defs : Definitions) : Kind → Option ErrorDefinition
  | Kind.InvalidPayer => some defs.ErrorInvalidPayer
  | Kind.InvalidProposer => some defs.ErrorInvalidProposer
  | Kind.InvalidSignature => some defs.ErrorInvalidSignature
  | Kind.InvalidSignatures => some defs.ErrorInvalidSignatures
  | Kind.InvalidIntent => some defs.ErrorInvalidIntent
  | Kind.InvalidScript => some defs.ErrorInvalidScript
  | Kind.InvalidArguments => some defs.ErrorInvalidArguments
  | Kind.InvalidAmount => some defs.ErrorInvalidAmount
  | Kind.InvalidReceiver => some defs.ErrorInvalidReceiver
  | Kind.InvalidPayload => some defs.ErrorInvalidPayload
  | _ => none

/-! ## Sample values -/

/-- Status codes as in `net/http`. -/
def sampleCodes : StatusCodes :=
  ⟨400, 422, 500⟩

/-- A registry of error definitions with pairwise different codes. -/
def sampleDefinitions : Definitions :=
  ⟨⟨1, "internal error", false⟩, ⟨2, "invalid request encoding", false⟩,
   ⟨3, "invalid request format", false⟩, ⟨4, "invalid network identifier", false⟩,
   ⟨5, "invalid account identifier", false⟩, ⟨6, "invalid currency identifier", false⟩,
   ⟨7, "invalid block identifier", false⟩, ⟨8, "invalid transaction identifier", false⟩,
   ⟨9, "unknown currency identifier", false⟩, ⟨10, "unknown block identifier", false⟩,
   ⟨11, "unknown transaction identifier", false⟩, ⟨12, "invalid transaction intent", false⟩,
   ⟨13, "invalid transaction authorizers", false⟩, ⟨14, "invalid transaction signatures", false⟩,
   ⟨15, "invalid transaction payer", false⟩, ⟨16, "invalid transaction proposer", false⟩,
   ⟨17, "invalid transaction script", false⟩, ⟨18, "invalid transaction arguments", false⟩,
   ⟨19, "invalid transaction amount", false⟩, ⟨20, "invalid transaction receiver", false⟩,
   ⟨21, "invalid transaction signature", false⟩, ⟨22, "invalid account key", false⟩,
   ⟨23, "invalid transaction payload", false⟩⟩

/-- An error that is a single failure value. -/
def GoError.ofFailure (text : String) (f : Failure) : GoError :=
  ⟨⟨text, some f⟩, []⟩

/-- An error that wraps a failure value once, as `fmt.Errorf` with `%w` does. -/
def GoError.wrapFailure (text inner : String) (f : Failure) : GoError :=
  ⟨⟨text, none⟩, [⟨inner, some f⟩]⟩


/-- An `InvalidAuthorizers` failure: two authorizers where one is wanted. -/
def sampleAuthorizers : failure.InvalidAuthorizers :=
  ⟨⟨"invalid number of authorizers", []⟩, GoValue.int 2, GoValue.int 1⟩

/-- The error that is the failure `sampleAuthorizers`. -/
def sampleAuthorizersError : GoError :=
  GoError.ofFailure "invalid transaction authorizers (have: 2, want: 1)"
    (Failure.InvalidAuthorizers sampleAuthorizers)

/-- The address `0102030405060708`. -/
def sampleAddress : Address :=
  ⟨[1, 2, 3, 4, 5, 6, 7, 8], rfl⟩

/-- An `InvalidKey` failure for key 3 of `sampleAddress` at height 47. -/
def sampleKey : failure.InvalidKey :=
  ⟨⟨"invalid account key", []⟩, GoValue.int 47, sampleAddress, GoValue.int 3⟩

/-- The error that is the failure `sampleKey`. -/
def sampleKeyError : GoError :=
  GoError.ofFailure "invalid account key (height: 47, account: 0102030405060708, index: 3)"
    (Failure.InvalidKey sampleKey)

/-- An `UnknownBlock` failure for height 180. -/
def sampleUnknownBlock : failure.UnknownBlock :=
  ⟨⟨"block index is above last indexed block", [("last", GoValue.int 173)]⟩,
    GoValue.int 180, GoValue.bytes []⟩

/-- An error that wraps the failure `sampleUnknownBlock`. -/
def sampleUnknownBlockError : GoError :=
  GoError.wrapFailure "could not validate block: unknown block" "unknown block"
    (Failure.UnknownBlock sampleUnknownBlock)

/-- An `InvalidSignatures` failure: no signature where one is wanted. -/
def sampleSignatures : failure.InvalidSignatures :=
  ⟨⟨"invalid number of signatures", []⟩, GoValue.int 0, GoValue.int 1⟩

/-- An error that wraps the failure `sampleSignatures`. -/
def sampleSignaturesError : GoError :=
  GoError.wrapFailure "could not sign transaction: invalid signatures" "invalid signatures"
    (Failure.InvalidSignatures sampleSignatures)

/-- An error that holds no failure at all. -/
def samplePlainError : GoError :=
  ⟨⟨"could not retrieve block: connection refused", none⟩, [⟨"connection refused", none⟩]⟩

/-- The value that the fields of a description leave under a key when they
are written to a map in order: that of the last field with this key. -/
def lastField : List (String × GoValue) → String → Option GoValue
  | [], _ => none
  | field :: fields, key =>
    match lastField fields key with
    | some val => some val
    | none => if key = field.1 then some field.2 else none

/-- An `InvalidBlockHash` failure: 31 bytes where 32 are wanted. -/
def sampleBlockHash : failure.InvalidBlockHash :=
  ⟨⟨"block hash has wrong length", []⟩, 32, 31⟩

/-- An error that wraps the failure `sampleBlockHash`. -/
def sampleBlockHashError : GoError :=
  GoError.wrapFailure "could not validate block: invalid block hash" "invalid block hash"
    (Failure.InvalidBlockHash sampleBlockHash)

/-- An `InvalidAccountAddress` failure: 7 bytes where 8 are wanted. -/
def sampleAccountAddress : failure.InvalidAccountAddress :=
  ⟨⟨"account address has wrong length", []⟩, GoValue.int 8, GoValue.int 7⟩

/-- An error that wraps the failure `sampleAccountAddress`. -/
def sampleAccountAddressError : GoError :=
  GoError.wrapFailure "could not validate account: invalid account address"
    "invalid account address" (Failure.InvalidAccountAddress sampleAccountAddress)

/-- An error that joins two failures, `sampleAccountAddress` and then
`sampleBlockHash`: `errors.As` inspects the joining error, then the two
failures in this order. -/
def sampleTwoLengths : GoError :=
  ⟨⟨"invalid account address\ninvalid block hash", none⟩,
    [⟨"invalid account address", some (Failure.InvalidAccountAddress sampleAccountAddress)⟩,
     ⟨"invalid block hash", some (Failure.InvalidBlockHash sampleBlockHash)⟩]⟩

/-- An `InvalidNetwork` failure. -/
def sampleNetwork : failure.InvalidNetwork :=
  ⟨⟨"invalid network identifier network", []⟩,
    GoValue.string "flow-testnet", GoValue.string "flow-localnet"⟩

/-- An `InvalidBlockchain` failure. -/
def sampleBlockchain : failure.InvalidBlockchain :=
  ⟨⟨"invalid network identifier blockchain", []⟩,
    GoValue.string "bitcoin", GoValue.string "flow"⟩

/-- An error that wraps the failure `sampleBlockchain`. -/
def sampleBlockchainError : GoError :=
  GoError.wrapFailure "could not validate network: invalid blockchain" "invalid blockchain"
    (Failure.InvalidBlockchain sampleBlockchain)

/-- An error that joins two failures, `sampleNetwork` and then
`sampleBlockchain`. -/
def sampleNetworkAndBlockchain : GoError :=
  ⟨⟨"invalid network\ninvalid blockchain", none⟩,
    [⟨"invalid network", some (Failure.InvalidNetwork sampleNetwork)⟩,
     ⟨"invalid blockchain", some (Failure.InvalidBlockchain sampleBlockchain)⟩]⟩

/-- An `IncompleteBlock` failure. -/
def sampleIncompleteBlock : failure.IncompleteBlock :=
  ⟨⟨"block identifier needs an index or a hash", []⟩⟩

/-- An error that wraps the failure `sampleIncompleteBlock`. -/
def sampleIncompleteBlockError : GoError :=
  GoError.wrapFailure "could not validate block: incomplete block" "incomplete block"
    (Failure.IncompleteBlock sampleIncompleteBlock)

/-- The validation error for a blank blockchain name; it holds no failure. -/
def sampleBlankBlockchain : GoError :=
  ⟨⟨"blockchain identifier: blockchain field is empty", none⟩, []⟩

/-- The error that is the failure `sampleNetwork`. -/
def sampleNetworkOnly : GoError :=
  GoError.ofFailure "invalid network" (Failure.InvalidNetwork sampleNetwork)

/-- An error in which `sampleNetwork` comes before `sampleUnknownBlock`. -/
def sampleNetworkOverBlock : GoError :=
  ⟨⟨"invalid network", some (Failure.InvalidNetwork sampleNetwork)⟩,
    [⟨"unknown block", some (Failure.UnknownBlock sampleUnknownBlock)⟩]⟩

/-- An error in which `sampleUnknownBlock` comes before `sampleNetwork`. -/
def sampleBlockOverNetwork : GoError :=
  ⟨⟨"unknown block", some (Failure.UnknownBlock sampleUnknownBlock)⟩,
    [⟨"invalid network", some (Failure.InvalidNetwork sampleNetwork)⟩]⟩

/-- The registry keeps `ErrorInvalidFormat` apart from every other definition
that `apiError` answers with. -/
def Definitions.formatApart (defs : Definitions) : Prop :=
  ∀ d ∈ [defs.ErrorInternal, defs.ErrorInvalidNetwork, defs.ErrorInvalidAccount,
    defs.ErrorInvalidCurrency, defs.ErrorInvalidBlock, defs.ErrorInvalidTransaction,
    defs.ErrorUnknownCurrency, defs.ErrorUnknownBlock, defs.ErrorUnknownTransaction,
    defs.ErrorInvalidIntent, defs.ErrorInvalidAuthorizers, defs.ErrorInvalidSignatures,
    defs.ErrorInvalidPayer, defs.ErrorInvalidProposer, defs.ErrorInvalidScript,
    defs.ErrorInvalidArguments, defs.ErrorInvalidAmount, defs.ErrorInvalidReceiver,
    defs.ErrorInvalidSignature, defs.ErrorInvalidKey, defs.ErrorInvalidPayload],
    d ≠ defs.ErrorInvalidFormat

instance (defs : Definitions) : Decidable defs.formatApart := by
  unfold Definitions.formatApart
  infer_instance

/-- The details of an error hold the explicit entries that no field of the
description overrides, and for every key the value of the last field of the
description with this key. -/
def Error.carries (e : Error) (explicit fields : List (String × GoValue)) : Prop :=
  (∀ entry ∈ explicit, (∀ field ∈ fields, field.1 ≠ entry.1) →
      e.detail entry.1 = some entry.2)
    ∧ ∀ (key : String) (val : GoValue), lastField fields key = some val →
        e.detail key = some val

/-- An `InvalidOperations` failure. -/
def sampleOperations : failure.InvalidOperations :=
  ⟨⟨"invalid number of operations", []⟩⟩

/-- An error that wraps the failure `sampleOperations`. -/
def sampleOperationsError : GoError :=
  GoError.wrapFailure "could not parse operations: invalid operations" "invalid operations"
    (Failure.InvalidOperations sampleOperations)

/-- An `InvalidTransaction` failure whose description has a field `hash`. -/
def sampleTransactionWithField : failure.InvalidTransaction :=
  ⟨⟨"transaction hash is not a valid hex string", [("hash", GoValue.string "cd")]⟩, "ab"⟩

/-- An `InvalidTransaction` failure whose description has no field. -/
def sampleTransaction : failure.InvalidTransaction :=
  ⟨⟨"transaction hash is not a valid hex string", []⟩, "ab"⟩

/-- An error that is read as malformed JSON. -/
def sampleJSONError : GoError :=
  ⟨⟨"unexpected end of JSON input", none⟩, []⟩

/-! ## Hexadecimal decoding and `Validator.Transaction` -/

/-- The bytes of the UTF-8 encoding of a character. -/
def utf8Bytes (c : Char) : List Nat :=
  if c.toNat < 128 then [c.toNat]
  else if c.toNat < 2048 then [192 + c.toNat / 64, 128 + c.toNat % 64]
  else if c.toNat < 65536 then
    [224 + c.toNat / 4096, 128 + c.toNat / 64 % 64, 128 + c.toNat % 64]
  else
    [240 + c.toNat / 262144, 128 + c.toNat / 4096 % 64, 128 + c.toNat / 64 % 64,
      128 + c.toNat % 64]

/-- The conversion `[]byte(s)` of a string. -/
def goBytes (s : String) : List Nat :=
  s.toList.flatMap utf8Bytes

/-- The function `fromHexChar` of `encoding/hex`: the value of a hexadecimal
digit, upper or lower case. -/
def fromHexChar (c : Nat) : Option Nat :=
  if 48 ≤ c ∧ c ≤ 57 then some (c - 48)
  else if 97 ≤ c ∧ c ≤ 102 then some (c - 97 + 10)
  else if 65 ≤ c ∧ c ≤ 70 then some (c - 65 + 10)
  else none

/-- A character is a hexadecimal digit. -/
def isHexDigit (c : Char) : Bool :=
  (fromHexChar c.toNat).isSome

/-- The errors of `hex.Decode`. -/
inductive HexError where
  | InvalidByteError (b : Nat)
  | ErrLength
  deriving DecidableEq, Repr

/-- What a call of `hex.Decode(dst, src)` does: it returns after writing
`written` to the front of `dst`, with an error or without, or it aborts
because it indexes `dst` out of range. -/
inductive DecodeOutcome where
  | returns (written : List (Fin 256)) (err : Option HexError)
  | aborts
  deriving DecidableEq

/-- The function `hex.Decode(dst, src)` for a destination of `size` bytes,
`written` being the bytes stored so far: two digits at a time are read and
their byte is stored at the next index of `dst`. -/
def hexDecode (size : Nat) : List Nat → List (Fin 256) → DecodeOutcome
  | [], written => DecodeOutcome.returns written none
  | [p], written =>
    match fromHexChar p with
    | none => DecodeOutcome.returns written (some (HexError.InvalidByteError p))
    | some _ => DecodeOutcome.returns written (some HexError.ErrLength)
  | p :: q :: rest, written =>
    match fromHexChar p with
    | none => DecodeOutcome.returns written (some (HexError.InvalidByteError p))
    | some a =>
      match fromHexChar q with
      | none => DecodeOutcome.returns written (some (HexError.InvalidByteError q))
      | some b =>
        if written.length < size then
          hexDecode size rest (written ++ [Fin.ofNat ((a * 16 + b) % 256)])
        else DecodeOutcome.aborts

/-- The type `flow.Identifier`: an array of 32 bytes. -/
structure Identifier where
  bytes : List (Fin 256)
  size : bytes.length = 32
  deriving DecidableEq

/-- The value `flow.ZeroID`. -/
def ZeroID : Identifier :=
  ⟨List.replicate 32 0, rfl⟩

/-- The method `Identifier.String`: the 64 hexadecimal digits of the
identifier. -/
def Identifier.String (id : Identifier) : String :=
  hexEncode id.bytes

/-- The errors of `flow.HexStringToIdentifier`: an error of `hex.Decode`, or
the error for an input that decodes to another number of bytes than 32. -/
inductive IdentifierError where
  | decode (err : HexError)
  | malformed (decoded : Nat)
  deriving DecidableEq, Repr

/-- What a call of `flow.HexStringToIdentifier` does. -/
inductive IdentifierOutcome where
  | ok (id : Identifier)
  | error (err : IdentifierError)
  | aborts
  deriving DecidableEq

/-- The function `flow.HexStringToIdentifier`: the string is decoded into the
32 bytes of an identifier; a decoding error is handed on, and fewer than 32
decoded bytes are an error. -/
def HexStringToIdentifier (hexString : String) : IdentifierOutcome :=
  match hexDecode 32 (goBytes hexString) [] with
  | DecodeOutcome.aborts => IdentifierOutcome.aborts
  | DecodeOutcome.returns _ (some err) =>
    IdentifierOutcome.error (IdentifierError.decode err)
  | DecodeOutcome.returns written none =>
    if h : written.length = 32 then IdentifierOutcome.ok ⟨written, h⟩
    else IdentifierOutcome.error (IdentifierError.malformed written.length)

namespace failure

/-- Modelled from the spec: the constructor `failure.NewDescription` is not
part of the sources; a failure "carries a structured description", and a
description made from a text alone has that text and no field. -/
def NewDescription (text : String) : Description :=
  ⟨text, []⟩

end failure

/-- The type `identifier.Transaction`. -/
structure identifier.Transaction where
  Hash : String
  deriving DecidableEq

/-- What a call of `Validator.Transaction` does: it returns an identifier
and possibly a `failure.InvalidTransaction`, the only error it builds, or it
aborts. -/
inductive TransactionOutcome where
  | returns (id : Identifier) (err : Option failure.InvalidTransaction)
  | aborts
  deriving DecidableEq

/-- The method `Validator.Transaction`; `txHashInvalid` is the text of the
constant of that name. -/
def Validator.Transaction (txHashInvalid : String) (transaction : identifier.Transaction) :
    TransactionOutcome :=
  match HexStringToIdentifier transaction.Hash with
  | IdentifierOutcome.aborts => TransactionOutcome.aborts
  | IdentifierOutcome.error _ =>
    TransactionOutcome.returns ZeroID
      (some ⟨failure.NewDescription txHashInvalid, transaction.Hash⟩)
  | IdentifierOutcome.ok txID => TransactionOutcome.returns txID none

/-- The byte that two hexadecimal digits stand for. -/
def hexPair (c d : Char) : Fin 256 :=
  Fin.ofNat ((((fromHexChar c.toNat).getD 0) * 16 + (fromHexChar d.toNat).getD 0) % 256)

/-- The hexadecimal decoding of a string of digits, two digits a byte. -/
def hexBytes : List Char → List (Fin 256)
  | c :: d :: rest => hexPair c d :: hexBytes rest
  | _ => []

/-- The transaction hash of the tests, `testTxHash`. -/
def testTxHash : String :=
  "88419614bf6cda15586bb686f33eea15835db13c0f9f997dcce275afb325102a"

/-- The transaction hash `trimmedTxHash` of the tests: a character short. -/
def trimmedTxHash : String :=
  "88419614bf6cda15586bb686f33eea15835db13c0f9f997dcce275afb325102"

/-- The transaction hash `invalidTxHash` of the tests: the last character is
no hexadecimal digit. -/
def invalidTxHash : String :=
  "88419614bf6cda15586bb686f33eea15835db13c0f9f997dcce275afb325102z"

/-- The text that `txHashInvalid` is taken to be in examples. -/
def sampleTxHashInvalid : String :=
  "transaction hash is not a valid hex string"

/-- The transaction hash `testTxHash` in upper case. -/
def upperTxHash : String :=
  "88419614BF6CDA15586BB686F33EEA15835DB13C0F9F997DCCE275AFB325102A"

/-- A hash of 129 characters: the letter `z` and then `testTxHash` twice. -/
def longInvalidTxHash : String :=
  "z" ++ testTxHash ++ testTxHash

/-! ## Package `converter` -/

/-- The constants of package `dps` that the converter refers to; their
values are declared elsewhere and are left open. -/
structure DpsConstants where
  FlowSymbol : String
  FlowDecimals : Nat
  StatusCompleted : String
  OperationTransfer : String

/-- The Go value that `ToGoValue` gives for a field of a Cadence event, as far
as the converter tells values apart: a `uint64`, `nil`, an array of
`flow.AddressLength` bytes, or a value of any other type. -/
inductive FieldValue where
  | uint64 (n : Nat)
  | nil
  | address (bytes : Address)
  | other
  deriving DecidableEq

/-- What the payload of an event decodes to: `json.Decode` fails, or the
value is no `cadence.Event`, or it is an event with these fields. -/
inductive Payload where
  | undecodable
  | notEvent
  | event (Fields : List FieldValue)
  deriving DecidableEq

/-- The type `flow.Event`, with the fields that the converter reads (`Type_`
is the field `Type`); the payload is given by what it decodes to. -/
structure Event where
  Type_ : String
  EventIndex : Nat
  Payload : Payload
  deriving DecidableEq

/-- The type `identifier.Operation`, with the field that the converter sets;
a nil pointer is `none`. -/
structure identifier.Operation where
  NetworkIndex : Option Nat
  deriving DecidableEq

/-- The type `identifier.Account`. -/
structure identifier.Account where
  Address : String
  deriving DecidableEq

/-- The type `identifier.Currency`. -/
structure identifier.Currency where
  Symbol : String
  Decimals : Nat
  deriving DecidableEq

/-- The type `object.Amount`. -/
structure object.Amount where
  Value : String
  Currency : identifier.Currency
  deriving DecidableEq

/-- The type `object.Operation`, with the fields that the converter sets
(`Type_` is the field `Type`). -/
structure object.Operation where
  ID : identifier.Operation
  Type_ : String
  Status : String
  AccountID : identifier.Account
  Amount : object.Amount
  deriving DecidableEq

/-- The errors that `EventToOperation` returns: the two sentinels of package
`retriever` and the errors it makes with `fmt.Errorf`. -/
inductive EventError where
  | ErrNoAddress
  | ErrNotSupported
  | couldNotDecodeEvent
  | couldNotCastEvent
  | invalidNumberOfFields (have_ : Nat)
  | couldNotCastAmount
  | couldNotCastAddress
  deriving DecidableEq, Repr

/-- The value of a 64-bit signed integer with the bits of `i`: conversions to
`int64` and arithmetic in `int64` wrap around. -/
def wrapInt64 (i : Int) : Int :=
  (i + 2 ^ 63) % 2 ^ 64 - 2 ^ 63

/-- The function `strconv.FormatInt(i, 10)`: the decimal digits, after a
minus sign for a negative number. -/
def FormatInt (i : Int) : String :=
  match i with
  | Int.ofNat n => Nat.repr n
  | Int.negSucc n => "-" ++ Nat.repr (n + 1)

/-- The type `Converter`. -/
structure Converter where
  deposit : String
  withdrawal : String
  deriving DecidableEq

/-- The operation that `EventToOperation` builds for an event, an address and
an amount: completed, a transfer, in the Flow currency, with the index of the
event as network index and the address in hexadecimal. -/
def Converter.operation (dps : DpsConstants) (event : Event) (address : Address)
    (amount : Int) : object.Operation :=
  ⟨⟨some event.EventIndex⟩, dps.OperationTransfer, dps.StatusCompleted, ⟨address.Hex⟩,
    ⟨FormatInt amount, ⟨dps.FlowSymbol, dps.FlowDecimals⟩⟩⟩

/-- The method `Converter.EventToOperation`: a nil operation with an error is
`Except.error`, an operation with a nil error is `Except.ok`. -/
def Converter.EventToOperation (dps : DpsConstants) (c : Converter) (event : Event) :
    Except EventError object.Operation :=
  match event.Payload with
  | Payload.undecodable => Except.error EventError.couldNotDecodeEvent
  | Payload.notEvent => Except.error EventError.couldNotCastEvent
  | Payload.event Fields =>
    match Fields with
    | [vAmount, vAddress] =>
      match vAmount with
      | FieldValue.uint64 uAmount =>
        match vAddress with
        | FieldValue.nil => Except.error EventError.ErrNoAddress
        | FieldValue.address bAddress =>
          let amount := wrapInt64 (uAmount % 2 ^ 64 : Nat)
          if event.Type_ = c.deposit then
            Except.ok (Converter.operation dps event bAddress amount)
          else if event.Type_ = c.withdrawal then
            Except.ok (Converter.operation dps event bAddress (wrapInt64 (-amount)))
          else Except.error EventError.ErrNotSupported
        | _ => Except.error EventError.couldNotCastAddress
      | _ => Except.error EventError.couldNotCastAmount
    | _ => Except.error (EventError.invalidNumberOfFields Fields.length)

/-- The constants of package `dps` as used in examples. -/
def sampleDps : DpsConstants :=
  ⟨"FLOW", 8, "COMPLETED", "TRANSFER"⟩

/-- A converter with two different event types. -/
def sampleConverter : Converter :=
  ⟨"A.7e60df042a9c0868.FlowToken.TokensDeposited",
    "A.7e60df042a9c0868.FlowToken.TokensWithdrawn"⟩

/-- A converter whose deposit and withdrawal event types are the same. -/
def sampleSameTypeConverter : Converter :=
  ⟨"A.7e60df042a9c0868.FlowToken.Tokens", "A.7e60df042a9c0868.FlowToken.Tokens"⟩

/-- A deposit of 42 to `sampleAddress`. -/
def sampleDeposit : Event :=
  ⟨"A.7e60df042a9c0868.FlowToken.TokensDeposited", 1,
    Payload.event [FieldValue.uint64 42, FieldValue.address sampleAddress]⟩

/-- A withdrawal of 42 from `sampleAddress`. -/
def sampleWithdrawal : Event :=
  ⟨"A.7e60df042a9c0868.FlowToken.TokensWithdrawn", 2,
    Payload.event [FieldValue.uint64 42, FieldValue.address sampleAddress]⟩

/-- An event of the type of `sampleSameTypeConverter` with the amount 42. -/
def sampleSameTypeEvent : Event :=
  ⟨"A.7e60df042a9c0868.FlowToken.Tokens", 2,
    Payload.event [FieldValue.uint64 42, FieldValue.address sampleAddress]⟩

/-- A deposit of `2 ^ 63` to `sampleAddress`. -/
def sampleLargeDeposit : Event :=
  ⟨"A.7e60df042a9c0868.FlowToken.TokensDeposited", 1,
    Payload.event [FieldValue.uint64 9223372036854775808, FieldValue.address sampleAddress]⟩

/-- A withdrawal event whose address field is nil. -/
def sampleNilAddress : Event :=
  ⟨"A.7e60df042a9c0868.FlowToken.TokensWithdrawn", 3,
    Payload.event [FieldValue.uint64 42, FieldValue.nil]⟩

/-- An event of another type whose address field is nil. -/
def sampleIrrelevantNilAddress : Event :=
  ⟨"irrelevant", 3, Payload.event [FieldValue.uint64 42, FieldValue.nil]⟩

/-- An event of another type with an amount and an address. -/
def sampleIrrelevant : Event :=
  ⟨"irrelevant", 3, Payload.event [FieldValue.uint64 42, FieldValue.address sampleAddress]⟩

/-- A deposit event with three fields. -/
def sampleThreeFields : Event :=
  ⟨"A.7e60df042a9c0868.FlowToken.TokensDeposited", 1,
    Payload.event [FieldValue.uint64 42, FieldValue.address sampleAddress,
      FieldValue.uint64 42]⟩

/-- The interface `Generator` of package `converter`: the two methods that
`New` calls, each returning a string or an error (given by its text). -/
structure converter.Generator where
  TokensDeposited : String → Except String String
  TokensWithdrawn : String → Except String String

/-- The errors that `New` returns, each wrapping the error of the generator. -/
inductive NewError where
  | couldNotGenerateDeposit (cause : String)
  | couldNotGenerateWithdrawal (cause : String)
  deriving DecidableEq, Repr

/-- The function `New` of package `converter`: a nil converter with an error
is `Except.error`, a converter with a nil error is `Except.ok`. The
withdrawal event type is asked for only after the deposit event type was
generated. -/
def New (dps : DpsConstants) (gen : converter.Generator) : Except NewError Converter :=
  match gen.TokensDeposited dps.FlowSymbol with
  | Except.error err => Except.error (NewError.couldNotGenerateDeposit err)
  | Except.ok deposit =>
    match gen.TokensWithdrawn dps.FlowSymbol with
    | Except.error err => Except.error (NewError.couldNotGenerateWithdrawal err)
    | Except.ok withdrawal => Except.ok ⟨deposit, withdrawal⟩

/-- A generator as the mock of the tests: it returns the two event types of
`sampleConverter`. -/
def sampleGenerator : converter.Generator :=
  ⟨fun _ => Except.ok "A.7e60df042a9c0868.FlowToken.TokensDeposited",
    fun _ => Except.ok "A.7e60df042a9c0868.FlowToken.TokensWithdrawn"⟩

/-- A generator that fails to generate the withdrawal event type. -/
def sampleFailingGenerator : converter.Generator :=
  ⟨fun _ => Except.ok "A.7e60df042a9c0868.FlowToken.TokensDeposited",
    fun _ => Except.error "dummy error"⟩

/-- The registry keeps `ErrorInvalidAuthorizers` apart from every other
definition that `apiError` answers with. -/
def Definitions.authorizersApart (defs : Definitions) : Prop :=
  ∀ d ∈ [defs.ErrorInternal, defs.ErrorInvalidFormat, defs.ErrorInvalidNetwork,
    defs.ErrorInvalidAccount, defs.ErrorInvalidCurrency, defs.ErrorInvalidBlock,
    defs.ErrorInvalidTransaction, defs.ErrorUnknownCurrency, defs.ErrorUnknownBlock,
    defs.ErrorUnknownTransaction, defs.ErrorInvalidIntent, defs.ErrorInvalidSignatures,
    defs.ErrorInvalidPayer, defs.ErrorInvalidProposer, defs.ErrorInvalidScript,
    defs.ErrorInvalidArguments, defs.ErrorInvalidAmount, defs.ErrorInvalidReceiver,
    defs.ErrorInvalidSignature, defs.ErrorInvalidPayload],
    d ≠ defs.ErrorInvalidAuthorizers

instance (defs : Definitions) : Decidable defs.authorizersApart := by
  unfold Definitions.authorizersApart
  infer_instance

/-- The registry keeps `ErrorInvalidKey` apart from every other definition
that `apiError` answers with. -/
def Definitions.keyApart (defs : Definitions) : Prop :=
  ∀ d ∈ [defs.ErrorInternal, defs.ErrorInvalidFormat, defs.ErrorInvalidNetwork,
    defs.ErrorInvalidAccount, defs.ErrorInvalidCurrency, defs.ErrorInvalidBlock,
    defs.ErrorInvalidTransaction, defs.ErrorUnknownCurrency, defs.ErrorUnknownBlock,
    defs.ErrorUnknownTransaction, defs.ErrorInvalidIntent, defs.ErrorInvalidSignatures,
    defs.ErrorInvalidPayer, defs.ErrorInvalidProposer, defs.ErrorInvalidScript,
    defs.ErrorInvalidArguments, defs.ErrorInvalidAmount, defs.ErrorInvalidReceiver,
    defs.ErrorInvalidSignature, defs.ErrorInvalidPayload],
    d ≠ defs.ErrorInvalidKey

instance (defs : Definitions) : Decidable defs.keyApart := by
  unfold Definitions.keyApart
  infer_instance

/-! ## Package `scripts`: the generator and the script `getBalance` -/

/-- The type `dps.Token`, with the fields that the script `getBalance` reads
(`Type_` is the field `Type`); each field is given by the text that a
template prints for its value. -/
structure dps.Token where
  Address : String
  Type_ : String
  Balance : String
  deriving DecidableEq

/-- The type `dps.Params`, with the fields that the generator reads: the
address of the fungible token contract, given by the text that a template
prints for it, and the map of the tokens by symbol. -/
structure dps.Params where
  FungibleToken : String
  Tokens : String → Option dps.Token

/-- The constant `getBalance`: the text of the template. -/
def getBalance : String :=
  "// This script reads the balance field of an account\x27s FlowToken Balance\n\n"
    ++ "import FungibleToken from 0x\x7b\x7b.Params.FungibleToken\x7d\x7d\n"
    ++ "import \x7b\x7b.Token.Type\x7d\x7d from 0x\x7b\x7b.Token.Address\x7d\x7d\n\n"
    ++ "pub fun main(account: Address): UFix64 \x7b\n\n"
    ++ "    let vaultRef = getAccount(account)\n"
    ++ "        .getCapability(\x7b\x7b.Token.Balance\x7d\x7d)\n"
    ++ "        .borrow<&\x7b\x7b.Token.Type\x7d\x7d.Vault\x7bFungibleToken.Balance\x7d>()\n"
    ++ "        ?? panic(\"Could not borrow Balance reference to the Vault\")\n\n"
    ++ "    return vaultRef.balance\n"
    ++ "\x7d\n"

/-- A node of a parsed template: text that is copied, or an action between
the delimiters, given by its text. -/
inductive TemplateNode where
  | text (s : String)
  | action (pipeline : String)
  deriving DecidableEq, Repr

/-- The text node for the characters read so far, if there are any. -/
def textNode (acc : List Char) : List TemplateNode :=
  if acc.isEmpty then [] else [TemplateNode.text (String.mk acc.reverse)]

/-- The lexer of `text/template` for a template without trim markers and
comments: the text is cut at the delimiters, two opening and two closing
braces; `acc` holds the characters of the current node in reverse. An action
that is not closed is an error (`none`). -/
def parseNodes : List Char → Bool → List Char → Option (List TemplateNode)
  | [], false, acc => some (textNode acc)
  | [], true, _ => none
  | '\x7b' :: '\x7b' :: rest, false, acc =>
    (parseNodes rest true []).map fun nodes => textNode acc ++ nodes
  | '\x7d' :: '\x7d' :: rest, true, acc =>
    (parseNodes rest false []).map fun nodes =>
      TemplateNode.action (String.mk acc.reverse) :: nodes
  | c :: rest, inAction, acc => parseNodes rest inAction (c :: acc)

/-- The method `Template.Parse` for a template without trim markers and
comments. -/
def Parse (text : String) : Option (List TemplateNode) :=
  parseNodes text.toList false []

/-- The value that `compile` hands to a template: the parameters and the
token. -/
structure TemplateData where
  Params : dps.Params
  Token : dps.Token

/-- What an action prints: the text of the field that a chain of field names
leads to; `none` for any other action. -/
def TemplateData.eval (data : TemplateData) (pipeline : String) : Option String :=
  if pipeline = ".Params.FungibleToken" then some data.Params.FungibleToken
  else if pipeline = ".Token.Address" then some data.Token.Address
  else if pipeline = ".Token.Type" then some data.Token.Type_
  else if pipeline = ".Token.Balance" then some data.Token.Balance
  else none

/-- The method `Template.Execute`: the nodes are written to the buffer in
order, a text node as it is and an action as what it prints; an action that
cannot be evaluated ends the execution with an error, given by the text of
the action. -/
def Execute : List TemplateNode → String → TemplateData → Except String String
  | [], buf, _ => Except.ok buf
  | TemplateNode.text s :: nodes, buf, data => Execute nodes (buf ++ s) data
  | TemplateNode.action pipeline :: nodes, buf, data =>
    match data.eval pipeline with
    | some value => Execute nodes (buf ++ value) data
    | none => Except.error pipeline

/-- The type `Generator` of package `scripts`, with the parameters and the
four parsed templates. -/
structure scripts.Generator where
  params : dps.Params
  getBalance : List TemplateNode
  transferTokens : List TemplateNode
  tokensDeposited : List TemplateNode
  tokensWithdrawn : List TemplateNode

/-- The templates that are parsed from the constants `transferTokens`,
`tokensDeposited` and `tokensWithdrawn`; the constants are declared in other
files of the package and are left open. -/
structure ScriptTemplates where
  transferTokens : List TemplateNode
  tokensDeposited : List TemplateNode
  tokensWithdrawn : List TemplateNode

/-- The function `NewGenerator`; `template.Must` aborts (`none`) when the
template cannot be parsed. -/
def NewGenerator (templates : ScriptTemplates) (params : dps.Params) :
    Option scripts.Generator :=
  match Parse getBalance with
  | some nodes =>
    some ⟨params, nodes, templates.transferTokens, templates.tokensDeposited,
      templates.tokensWithdrawn⟩
  | none => none

/-- The errors of `compile`. -/
inductive CompileError where
  | invalidTokenSymbol (symbol : String)
  | couldNotExecuteTemplate (cause : String)
  deriving DecidableEq, Repr

/-- The error of the methods `bytes` and `string`, wrapping the error of
`compile`. -/
inductive GeneratorError where
  | couldNotCompileTemplate (cause : CompileError)
  deriving DecidableEq, Repr

/-- The method `Generator.compile`: the content of the buffer, or an error. -/
def scripts.Generator.compile (g : scripts.Generator) (template : List TemplateNode)
    (symbol : String) : Except CompileError String :=
  match g.params.Tokens symbol with
  | none => Except.error (CompileError.invalidTokenSymbol symbol)
  | some token =>
    match Execute template "" ⟨g.params, token⟩ with
    | Except.error err => Except.error (CompileError.couldNotExecuteTemplate err)
    | Except.ok buf => Except.ok buf

/-- The method `Generator.string`: the text of the buffer with a nil error,
or the empty string with an error (`Except.error`). -/
def scripts.Generator.string (g : scripts.Generator) (template : List TemplateNode)
    (symbol : String) : Except GeneratorError String :=
  match g.compile template symbol with
  | Except.error err => Except.error (GeneratorError.couldNotCompileTemplate err)
  | Except.ok buf => Except.ok buf

/-- The method `Generator.bytes`: the text whose bytes are returned with a nil
error, or nil bytes with an error (`Except.error`). -/
def scripts.Generator.bytes (g : scripts.Generator) (template : List TemplateNode)
    (symbol : String) : Except GeneratorError String :=
  match g.compile template symbol with
  | Except.error err => Except.error (GeneratorError.couldNotCompileTemplate err)
  | Except.ok buf => Except.ok buf

/-- The method `Generator.GetBalance`. -/
def scripts.Generator.GetBalance (g : scripts.Generator) (symbol : String) :
    Except GeneratorError String :=
  g.bytes g.getBalance symbol

/-- The method `Generator.TransferTokens`. -/
def scripts.Generator.TransferTokens (g : scripts.Generator) (symbol : String) :
    Except GeneratorError String :=
  g.bytes g.transferTokens symbol

/-- The method `Generator.TokensDeposited`. -/
def scripts.Generator.TokensDeposited (g : scripts.Generator) (symbol : String) :
    Except GeneratorError String :=
  g.string g.tokensDeposited symbol

/-- The method `Generator.TokensWithdrawn`. -/
def scripts.Generator.TokensWithdrawn (g : scripts.Generator) (symbol : String) :
    Except GeneratorError String :=
  g.string g.tokensWithdrawn symbol

/-- The script that `GetBalance` is to return: the text of `getBalance` with
the four fields in place of the five actions. -/
def balanceScript (params : dps.Params) (token : dps.Token) : String :=
  "// This script reads the balance field of an account\x27s FlowToken Balance\n\n"
    ++ "import FungibleToken from 0x" ++ params.FungibleToken ++ "\n"
    ++ "import " ++ token.Type_ ++ " from 0x" ++ token.Address ++ "\n\n"
    ++ "pub fun main(account: Address): UFix64 \x7b\n\n"
    ++ "    let vaultRef = getAccount(account)\n"
    ++ "        .getCapability(" ++ token.Balance ++ ")\n"
    ++ "        .borrow<&" ++ token.Type_ ++ ".Vault\x7bFungibleToken.Balance\x7d>()\n"
    ++ "        ?? panic(\"Could not borrow Balance reference to the Vault\")\n\n"
    ++ "    return vaultRef.balance\n"
    ++ "\x7d\n"

/-- The Flow token on the main network. -/
def sampleToken : dps.Token :=
  ⟨"1654653399040a61", "FlowToken", "/public/flowTokenBalance"⟩

/-- Parameters that configure the symbol `FLOW` only. -/
def sampleParams : dps.Params :=
  ⟨"f233dcee88fe0abe", fun symbol => if symbol = "FLOW" then some sampleToken else none⟩

/-- Templates as examples: a transaction that names the token type, and the
two event types of the token. -/
def sampleTemplates : ScriptTemplates :=
  ⟨[TemplateNode.text "import ", TemplateNode.action ".Token.Type",
      TemplateNode.text " from 0x", TemplateNode.action ".Token.Address",
      TemplateNode.text "\n\ntransaction(amount: UFix64, to: Address) \x7b\x7d\n"],
    [TemplateNode.text "A.", TemplateNode.action ".Token.Address", TemplateNode.text ".",
      TemplateNode.action ".Token.Type", TemplateNode.text ".TokensDeposited"],
    [TemplateNode.text "A.", TemplateNode.action ".Token.Address", TemplateNode.text ".",
      TemplateNode.action ".Token.Type", TemplateNode.text ".TokensWithdrawn"]⟩

/-- The generator that `NewGenerator` makes from `sampleTemplates` and
`sampleParams`. -/
def sampleScripts : scripts.Generator :=
  ⟨sampleParams, (Parse getBalance).getD [], sampleTemplates.transferTokens,
    sampleTemplates.tokensDeposited, sampleTemplates.tokensWithdrawn⟩

/-- What a method of the generator returns when its template is executed
with the parameters and a token: the text written, or the error of the
execution in its two wrappings. -/
def executed (params : dps.Params) (token : dps.Token) (template : List TemplateNode) :
    Except GeneratorError String :=
  match Execute template "" ⟨params, token⟩ with
  | Except.error err =>
    Except.error
      (GeneratorError.couldNotCompileTemplate (CompileError.couldNotExecuteTemplate err))
  | Except.ok buf => Except.ok buf

/-! ## Package `convert`: `ParseCadenceArgument` -/

/-- The class `\w` of package `regexp`: an ASCII letter, an ASCII digit or
the underscore. -/
def isWordChar (c : Char) : Bool :=
  (48 ≤ c.toNat && c.toNat ≤ 57) || (65 ≤ c.toNat && c.toNat ≤ 90) || c.toNat = 95
    || (97 ≤ c.toNat && c.toNat ≤ 122)

/-- The part of a line that the greedy `.+` of `.+\)` takes after its first
character: everything before the last closing parenthesis of the line; `none`
when the line has no closing parenthesis. -/
def beforeLastParen : List Char → Option (List Char)
  | [] => none
  | c :: cs =>
    match beforeLastParen cs with
    | some val => some (c :: val)
    | none => if c = ')' then some [] else none

/-- The match of `(.+)\)` at the start of a text: `.` matches every character
but the line feed, so the group is a non-empty part of the first line and
reaches up to the last closing parenthesis of that line. -/
def matchValue (text : List Char) : Option (List Char) :=
  match text.takeWhile (fun c => c ≠ '\n') with
  | [] => none
  | c :: line => (beforeLastParen line).map fun val => c :: val

/-- The match of the pattern `(\w+)\((.+)\)` that starts at the first
character of a text, as its two groups: the word characters that the text
starts with, an opening parenthesis, and the match of `(.+)\)`. -/
def matchHere (text : List Char) : Option (List Char × List Char) :=
  match text.takeWhile isWordChar, text.dropWhile isWordChar with
  | [], _ => none
  | typ, '(' :: rest => (matchValue rest).map fun val => (typ, val)
  | _, _ => none

/-- The method `FindStringSubmatch` for the pattern `(\w+)\((.+)\)`, which is
not anchored: the two groups of the leftmost match, `none` when no part of
the text matches. -/
def FindStringSubmatch : List Char → Option (List Char × List Char)
  | [] => none
  | c :: cs =>
    match matchHere (c :: cs) with
    | some groups => some groups
    | none => FindStringSubmatch cs

/-- The errors `strconv.ErrSyntax` and `strconv.ErrRange`. -/
inductive NumError where
  | ErrSyntax
  | ErrRange
  deriving DecidableEq, Repr

/-- The constant `strconv.IntSize`, the size of an `int`, on a 64-bit
platform. -/
def IntSize : Nat := 64

/-- The value of a decimal digit. -/
def digitOf (c : Char) : Option Nat :=
  if 48 ≤ c.toNat ∧ c.toNat ≤ 57 then some (c.toNat - 48) else none

/-- The loop of `strconv.ParseUint` for base 10, `n` being the `uint64` read
so far: a character that is no digit is a syntax error; when the next digit
takes the number beyond `maxVal` or beyond 64 bits, the result is `maxVal`
with a range error. -/
def parseUintLoop (maxVal : Nat) : List Char → Nat → Nat × Option NumError
  | [], n => (n, none)
  | c :: cs, n =>
    match digitOf c with
    | none => (0, some NumError.ErrSyntax)
    | some d =>
      if n ≥ (2 ^ 64 - 1) / 10 + 1 then (maxVal, some NumError.ErrRange)
      else
        let n10 := n * 10 % 2 ^ 64
        let n1 := (n10 + d) % 2 ^ 64
        if n1 < n10 ∨ n1 > maxVal then (maxVal, some NumError.ErrRange)
        else parseUintLoop maxVal cs n1

/-- The function `strconv.ParseUint(s, 10, bitSize)` for a bit size of at
most 64: the number returned and the error; `maxVal` is
`uint64(1)<<bitSize - 1` in 64 bits. -/
def ParseUint (s : List Char) (bitSize : Nat) : Nat × Option NumError :=
  if s = [] then (0, some NumError.ErrSyntax)
  else
    let bitSize := if bitSize = 0 then IntSize else bitSize
    parseUintLoop ((2 ^ bitSize % 2 ^ 64 + 2 ^ 64 - 1) % 2 ^ 64) s 0

/-- The value of a 64-bit number read as a signed integer of `bits` bits:
what the conversions to `int8`, `int16`, `int32`, `int64` and `int` keep. -/
def wrapSigned (bits : Nat) (i : Int) : Int :=
  (i + 2 ^ (bits - 1)) % 2 ^ bits - 2 ^ (bits - 1)

/-- The function `strconv.ParseInt(s, 10, bitSize)` for a bit size of at most
64: a sign is taken off, the rest is read by `ParseUint` with the same bit
size, and the number is compared with `1 << (bitSize - 1)`. -/
def ParseInt (s : List Char) (bitSize : Nat) : Except NumError Int :=
  match s with
  | [] => Except.error NumError.ErrSyntax
  | c :: cs =>
    let neg : Bool := c = '-'
    let rest := if c = '+' ∨ c = '-' then cs else c :: cs
    match ParseUint rest bitSize with
    | (_, some NumError.ErrSyntax) => Except.error NumError.ErrSyntax
    | (un, _) =>
      let bitSize := if bitSize = 0 then IntSize else bitSize
      let cutoff := 2 ^ (bitSize - 1)
      if neg = false ∧ un ≥ cutoff then Except.error NumError.ErrRange
      else if neg = true ∧ un > cutoff then Except.error NumError.ErrRange
      else
        let n := wrapSigned 64 un
        Except.ok (if neg then wrapSigned 64 (-n) else n)

/-- The function `strconv.ParseBool`. -/
def ParseBool (str : String) : Option Bool :=
  if str ∈ ["1", "t", "T", "TRUE", "true", "True"] then some true
  else if str ∈ ["0", "f", "F", "FALSE", "false", "False"] then some false
  else none

/-- The number that a list of decimal digits stands for. -/
def decimalValue (digits : List Char) : Nat :=
  digits.foldl (fun n c => n * 10 + (c.toNat - 48)) 0

/-- The method `big.Int.SetString(s, 10)`: an optional sign and then one or
more decimal digits; `none` when it reports failure. -/
def SetString (s : List Char) : Option Int :=
  match s with
  | [] => none
  | c :: cs =>
    let digits := if c = '+' ∨ c = '-' then cs else c :: cs
    if digits = [] ∨ digits.any (fun d => (digitOf d).isNone) then none
    else if c = '-' then some (-(decimalValue digits : Int))
    else some (decimalValue digits : Int)

/-- The function `hex.DecodeString` on the bytes of its argument: the bytes
are decoded in place, two digits at a time. -/
def DecodeString : List Nat → Except HexError (List (Fin 256))
  | [] => Except.ok []
  | [p] =>
    match fromHexChar p with
    | none => Except.error (HexError.InvalidByteError p)
    | some _ => Except.error HexError.ErrLength
  | p :: q :: rest =>
    match fromHexChar p with
    | none => Except.error (HexError.InvalidByteError p)
    | some a =>
      match fromHexChar q with
      | none => Except.error (HexError.InvalidByteError q)
      | some b =>
        match DecodeString rest with
        | Except.error err => Except.error err
        | Except.ok bytes => Except.ok (Fin.ofNat ((a * 16 + b) % 256) :: bytes)

/-- The values of package `cadence` that `ParseCadenceArgument` makes, each
named after the function that makes it, with the number, bytes or text that
it holds. -/
inductive cadence.Value where
  | NewBool (b : Bool)
  | NewInt (v : Int)
  | NewInt8 (v : Int)
  | NewInt16 (v : Int)
  | NewInt32 (v : Int)
  | NewInt64 (v : Int)
  | NewInt128 (v : Int)
  | NewInt256 (v : Int)
  | NewUInt (v : Nat)
  | NewUInt8 (v : Nat)
  | NewUInt16 (v : Nat)
  | NewUInt32 (v : Nat)
  | NewUInt64 (v : Nat)
  | NewUInt128 (v : Nat)
  | NewUInt256 (v : Nat)
  | NewUFix64 (v : Nat)
  | NewFix64 (v : Int)
  | BytesToAddress (bytes : List (Fin 256))
  | NewBytes (bytes : List (Fin 256))
  | NewString (s : String)
  deriving DecidableEq

/-- The functions `cadence.NewUFix64` and `cadence.NewFix64`, which read a
fixed-point number from a string and fail on some strings (`none`); the
numbers they read are left open. -/
structure FixedPoint where
  NewUFix64 : String → Option Nat
  NewFix64 : String → Option Int

/-- The errors of `ParseCadenceArgument`. -/
inductive ParseError where
  | invalidParameterFormat (param : String)
  | couldNotParseBoolean
  | couldNotParseInteger (cause : NumError)
  | couldNotParseUnsignedInteger (cause : NumError)
  | couldNotParseBigInteger (val : String)
  | outOfRange
  | couldNotParseUnsignedFixedPoint
  | couldNotParseFixedPoint
  | couldNotDecodeHexString (cause : HexError)
  | unknownType (typ : String)
  deriving DecidableEq, Repr

/-- The functions `cadence.NewInt128FromBig` and `cadence.NewInt256FromBig`:
an error for a number outside the `bits` bits of the type. -/
def NewIntFromBig (bits : Nat) (make : Int → cadence.Value) (v : Int) :
    Except ParseError cadence.Value :=
  if -(2 ^ (bits - 1) : Int) ≤ v ∧ v < 2 ^ (bits - 1) then Except.ok (make v)
  else Except.error ParseError.outOfRange

/-- The functions `cadence.NewUInt128FromBig` and `cadence.NewUInt256FromBig`:
an error for a number outside the `bits` bits of the type. -/
def NewUIntFromBig (bits : Nat) (make : Nat → cadence.Value) (v : Int) :
    Except ParseError cadence.Value :=
  if 0 ≤ v ∧ v < 2 ^ bits then Except.ok (make v.toNat)
  else Except.error ParseError.outOfRange

/-- The function `cadence.BytesToAddress`: the last eight bytes, after zero
bytes when there are fewer than eight. -/
def BytesToAddress (b : List (Fin 256)) : List (Fin 256) :=
  List.replicate (8 - b.length) 0 ++ b.drop (b.length - 8)

/-- The function `ParseCadenceArgument`: the value returned with a nil error
is `Except.ok`, an error is `Except.error`. With every error that the
function makes itself it returns a nil value. -/
def ParseCadenceArgument (fixed : FixedPoint) (param : String) :
    Except ParseError cadence.Value :=
  match FindStringSubmatch param.toList with
  | none => Except.error (ParseError.invalidParameterFormat param)
  | some (typ, val) =>
    -- Now, we can switch on the type and parse accordingly.
    if String.mk typ = "Bool" then
      match ParseBool (String.mk val) with
      | none => Except.error ParseError.couldNotParseBoolean
      | some b => Except.ok (cadence.Value.NewBool b)
    else if String.mk typ = "Int" then
      match ParseInt val 0 with
      | Except.error err => Except.error (ParseError.couldNotParseInteger err)
      | Except.ok v => Except.ok (cadence.Value.NewInt (wrapSigned IntSize v))
    else if String.mk typ = "Int8" then
      match ParseInt val 8 with
      | Except.error err => Except.error (ParseError.couldNotParseInteger err)
      | Except.ok v => Except.ok (cadence.Value.NewInt8 (wrapSigned 8 v))
    else if String.mk typ = "Int16" then
      match ParseInt val 16 with
      | Except.error err => Except.error (ParseError.couldNotParseInteger err)
      | Except.ok v => Except.ok (cadence.Value.NewInt16 (wrapSigned 16 v))
    else if String.mk typ = "Int32" then
      match ParseInt val 32 with
      | Except.error err => Except.error (ParseError.couldNotParseInteger err)
      | Except.ok v => Except.ok (cadence.Value.NewInt32 (wrapSigned 32 v))
    else if String.mk typ = "Int64" then
      match ParseInt val 64 with
      | Except.error err => Except.error (ParseError.couldNotParseInteger err)
      | Except.ok v => Except.ok (cadence.Value.NewInt64 v)
    else if String.mk typ = "Int128" then
      match SetString val with
      | none => Except.error (ParseError.couldNotParseBigInteger (String.mk val))
      | some v => NewIntFromBig 128 cadence.Value.NewInt128 v
    else if String.mk typ = "Int256" then
      match SetString val with
      | none => Except.error (ParseError.couldNotParseBigInteger (String.mk val))
      | some v => NewIntFromBig 256 cadence.Value.NewInt256 v
    else if String.mk typ = "UInt" then
      match ParseUint val 0 with
      | (_, some err) => Except.error (ParseError.couldNotParseUnsignedInteger err)
      | (v, none) => Except.ok (cadence.Value.NewUInt (v % 2 ^ IntSize))
    else if String.mk typ = "UInt8" then
      match ParseUint val 8 with
      | (_, some err) => Except.error (ParseError.couldNotParseUnsignedInteger err)
      | (v, none) => Except.ok (cadence.Value.NewUInt8 (v % 2 ^ 8))
    else if String.mk typ = "UInt16" then
      match ParseUint val 16 with
      | (_, some err) => Except.error (ParseError.couldNotParseUnsignedInteger err)
      | (v, none) => Except.ok (cadence.Value.NewUInt16 (v % 2 ^ 16))
    else if String.mk typ = "UInt32" then
      match ParseUint val 32 with
      | (_, some err) => Except.error (ParseError.couldNotParseInteger err)
      | (v, none) => Except.ok (cadence.Value.NewUInt32 (v % 2 ^ 32))
    else if String.mk typ = "UInt64" then
      match ParseUint val 64 with
      | (_, some err) => Except.error (ParseError.couldNotParseUnsignedInteger err)
      | (v, none) => Except.ok (cadence.Value.NewUInt64 v)
    else if String.mk typ = "UInt128" then
      match SetString val with
      | none => Except.error (ParseError.couldNotParseBigInteger (String.mk val))
      | some v => NewUIntFromBig 128 cadence.Value.NewUInt128 v
    else if String.mk typ = "UInt256" then
      match SetString val with
      | none => Except.error (ParseError.couldNotParseBigInteger (String.mk val))
      | some v => NewUIntFromBig 256 cadence.Value.NewUInt256 v
    else if String.mk typ = "UFix64" then
      match fixed.NewUFix64 (String.mk val) with
      | none => Except.error ParseError.couldNotParseUnsignedFixedPoint
      | some v => Except.ok (cadence.Value.NewUFix64 v)
    else if String.mk typ = "Fix64" then
      match fixed.NewFix64 (String.mk val) with
      | none => Except.error ParseError.couldNotParseFixedPoint
      | some v => Except.ok (cadence.Value.NewFix64 v)
    else if String.mk typ = "Address" then
      match DecodeString (goBytes (String.mk val)) with
      | Except.error err => Except.error (ParseError.couldNotDecodeHexString err)
      | Except.ok bytes => Except.ok (cadence.Value.BytesToAddress (BytesToAddress bytes))
    else if String.mk typ = "Bytes" then
      match DecodeString (goBytes (String.mk val)) with
      | Except.error err => Except.error (ParseError.couldNotDecodeHexString err)
      | Except.ok bytes => Except.ok (cadence.Value.NewBytes bytes)
    else if String.mk typ = "String" then
      Except.ok (cadence.Value.NewString (String.mk val))
    else Except.error (ParseError.unknownType (String.mk typ))

/-- The sign of an integer literal: none, a plus or a minus. -/
inductive Sign where
  | none
  | plus
  | minus
  deriving DecidableEq, Repr

/-- The characters of a sign. -/
def Sign.chars : Sign → List Char
  | Sign.none => []
  | Sign.plus => ['+']
  | Sign.minus => ['-']

/-- The integer that a literal stands for: its digits read in base 10, negated
after a minus. -/
def literalValue (sign : Sign) (digits : List Char) : Int :=
  match sign with
  | Sign.minus => -(decimalValue digits : Int)
  | _ => (decimalValue digits : Int)

/-- The parameter `T(v)` for a type name and an integer literal. -/
def typedLiteral (typ : String) (sign : Sign) (digits : List Char) : String :=
  typ ++ "(" ++ String.mk (sign.chars ++ digits) ++ ")"

/-- The characters are decimal digits, and there is at least one. -/
def isDigits (digits : List Char) : Prop :=
  digits ≠ [] ∧ ∀ c ∈ digits, 48 ≤ c.toNat ∧ c.toNat ≤ 57

instance (digits : List Char) : Decidable (isDigits digits) := by
  unfold isDigits
  infer_instance

/-- A fixed-width integer type of Cadence: its name, its number of bits and
the function that makes its values from numbers of type `α`. -/
structure FixedWidth (α : Type) where
  name : String
  bits : Nat
  make : α → cadence.Value

/-- The signed fixed-width types that `ParseCadenceArgument` reads with
`strconv.ParseInt`. -/
def signedTypes : List (FixedWidth Int) :=
  [⟨"Int8", 8, cadence.Value.NewInt8⟩, ⟨"Int16", 16, cadence.Value.NewInt16⟩,
   ⟨"Int32", 32, cadence.Value.NewInt32⟩, ⟨"Int64", 64, cadence.Value.NewInt64⟩]

/-- The unsigned fixed-width types that `ParseCadenceArgument` reads with
`strconv.ParseUint`. -/
def unsignedTypes : List (FixedWidth Nat) :=
  [⟨"UInt8", 8, cadence.Value.NewUInt8⟩, ⟨"UInt16", 16, cadence.Value.NewUInt16⟩,
   ⟨"UInt32", 32, cadence.Value.NewUInt32⟩, ⟨"UInt64", 64, cadence.Value.NewUInt64⟩]

/-- Functions for fixed-point numbers that read no string. -/
def sampleFixed : FixedPoint :=
  ⟨fun _ => none, fun _ => none⟩

/-! ## Package `convert`: ledger paths -/

/-- The type `ledger.Path`: an array of 32 bytes. -/
structure ledger.Path where
  bytes : List (Fin 256)
  size : bytes.length = 32
  deriving DecidableEq

/-- The error of `ledger.ToPath`: 32 bytes were expected and `got` bytes
were given. -/
structure ToPathError where
  got : Nat
  deriving DecidableEq, Repr

/-- The function `ledger.ToPath`: the path with the bytes of a slice of 32
bytes, an error for a slice of another length. -/
def ToPath (pathBytes : List (Fin 256)) : Except ToPathError ledger.Path :=
  if h : pathBytes.length = 32 then Except.ok ⟨pathBytes, h⟩
  else Except.error ⟨pathBytes.length⟩

/-- The function `PathsToBytes`: for each path in order, a slice with a copy
of its bytes is appended to `bb`. -/
def PathsToBytes (paths : List ledger.Path) : List (List (Fin 256)) :=
  paths.foldl (fun bb path => bb ++ [path.bytes]) []

/-- The error of `BytesToPaths`: the slice that could not be converted, and
the error of `ledger.ToPath` that it wraps. -/
inductive PathError where
  | couldNotConvertPath (b : List (Fin 256)) (cause : ToPathError)
  deriving DecidableEq, Repr

/-- The loop of `BytesToPaths`, `paths` being the paths appended so far: the
first slice that `ledger.ToPath` rejects ends the loop with an error. -/
def BytesToPaths.loop : List (List (Fin 256)) → List ledger.Path →
    Except PathError (List ledger.Path)
  | [], paths => Except.ok paths
  | b :: bb, paths =>
    match ToPath b with
    | Except.error err => Except.error (PathError.couldNotConvertPath b err)
    | Except.ok path => BytesToPaths.loop bb (paths ++ [path])

/-- The function `BytesToPaths`: nil paths with an error are `Except.error`,
paths with a nil error are `Except.ok`. -/
def BytesToPaths (bb : List (List (Fin 256))) : Except PathError (List ledger.Path) :=
  BytesToPaths.loop bb []

/-- The path with the bytes 0 to 31. -/
def samplePath : ledger.Path :=
  ⟨(List.range 32).map fun n => Fin.ofNat n, rfl⟩

/-- The path of 32 zero bytes. -/
def sampleZeroPath : ledger.Path :=
  ⟨List.replicate 32 0, rfl⟩

/-! ## Lemmas on `errors.As` and on the details map -/

theorem errorsAs_eq_failures {α : Type} (target : Failure → Option α) (err : GoError) :
    errorsAs target err = err.failures.findSome? target := by
  unfold errorsAs GoError.failures
  induction err.chain with
  | nil => rfl
  | cons n ns ih =>
    cases hn : n.failure with
    | none => simp [List.findSome?, List.filterMap, hn, ih]
    | some f =>
      cases hf : target f <;> simp [List.findSome?, List.filterMap, hn, hf, ih]

theorem errorsAs_eq_none {α : Type} (target : Failure → Option α) (err : GoError)
    (h : ∀ f ∈ err.failures, target f = none) : errorsAs target err = none := by
  rw [errorsAs_eq_failures]
  revert h
  generalize err.failures = l
  intro h
  induction l with
  | nil => rfl
  | cons f fs ih =>
    have hf : target f = none := h f (List.mem_cons_self f fs)
    have hfs : ∀ g ∈ fs, target g = none := fun g hg => h g (List.mem_cons_of_mem f hg)
    simp [List.findSome?, hf, ih hfs]

theorem foldl_append_withDetail (fields : List (String × GoValue)) (details : List detailFunc) :
    fields.foldl (fun details field => details ++ [withDetail field.1 field.2]) details
      = details ++ fields.map fun field => withDetail field.1 field.2 := by
  induction fields generalizing details with
  | nil => simp
  | cons field fields ih => simp [List.foldl, ih]

theorem convertError_eq (definition : ErrorDefinition) (description : failure.Description)
    (details : List detailFunc) :
    convertError definition description details
      = rosettaError definition description.Text
          (details ++ description.Fields.map fun field => withDetail field.1 field.2) := by
  unfold convertError
  simp only [foldl_append_withDetail]


theorem detail_internal (defs : Definitions) (description : String) (err : GoError)
    (key : String) :
    (internal defs description err).detail key
      = if key = "error" then some (GoValue.string err.Error) else none := by
  simp [Error.detail, internal, rosettaError, withError, DetailMap.set, DetailMap.empty]

theorem foldl_withDetail (fields : List (String × GoValue)) (m : DetailMap) (key : String) :
    (fields.map fun field => withDetail field.1 field.2).foldl
        (fun dd detail => detail dd) m key
      = match lastField fields key with
        | some val => some val
        | none => m key := by
  induction fields generalizing m with
  | nil => rfl
  | cons field fields ih =>
    simp only [List.map, List.foldl, ih, lastField]
    cases lastField fields key with
    | some val => rfl
    | none => by_cases h : key = field.1 <;> simp [withDetail, DetailMap.set, h]

theorem detail_convertError (definition : ErrorDefinition) (description : failure.Description)
    (details : List detailFunc) (key : String) :
    (convertError definition description details).detail key
      = match lastField description.Fields key with
        | some val => some val
        | none => details.foldl (fun dd detail => detail dd) DetailMap.empty key := by
  simp only [convertError_eq, rosettaError, Error.detail, Option.bind, List.foldl_append,
    foldl_withDetail]

theorem lastField_eq_none (fields : List (String × GoValue)) (key : String)
    (h : ∀ field ∈ fields, field.1 ≠ key) : lastField fields key = none := by
  induction fields with
  | nil => rfl
  | cons field fields ih =>
    have h1 : key ≠ field.1 := fun e => h field (List.mem_cons_self _ _) e.symm
    simp [lastField, ih (fun g hg => h g (List.mem_cons_of_mem _ hg)), h1]

theorem detail_convertError_two (definition : ErrorDefinition)
    (description : failure.Description) (k1 k2 : String) (v1 v2 : GoValue) (key : String) :
    (convertError definition description [withDetail k1 v1, withDetail k2 v2]).detail key
      = match lastField description.Fields key with
        | some val => some val
        | none => if key = k2 then some v2 else if key = k1 then some v1 else none := by
  rw [detail_convertError]
  simp [withDetail, DetailMap.set, DetailMap.empty]

/-! ## The responses of `apiError` -/

/-- C1: evaluation of `apiError` at an error that is a single
`failure.InvalidAuthorizers` with `Have = 2` and `Want = 1`. Whatever the
description, the response has the status `statusInternalServerError` and the
definition `ErrorInternal`, and its details hold neither `have_authorizers`
nor `want_authorizers`: the branch that builds the `ErrorInvalidAuthorizers`
response is guarded by a test for `failure.InvalidAccount`. -/
theorem C1_apiError_invalidAuthorizers_sample (codes : StatusCodes) (defs : Definitions)
    (description : String) :
    (apiError codes defs description sampleAuthorizersError).Code
        = codes.statusInternalServerError
      ∧ (apiError codes defs description sampleAuthorizersError).Message.ErrorDefinition
        = defs.ErrorInternal
      ∧ (apiError codes defs description sampleAuthorizersError).Message.detail
          "have_authorizers" = none
      ∧ (apiError codes defs description sampleAuthorizersError).Message.detail
          "want_authorizers" = none := by
  have h : apiError codes defs description sampleAuthorizersError
      = ⟨codes.statusInternalServerError,
          internal defs description sampleAuthorizersError⟩ := rfl
  rw [h]
  refine ⟨rfl, rfl, ?_, ?_⟩ <;> simp [detail_internal]

/-- C2: evaluation of `apiError` at an error that is a single
`failure.InvalidKey` (height 47, address `0102030405060708`, index 3).
Whatever the description, the response has the status
`statusInternalServerError` and the definition `ErrorInternal`, and its
details hold none of `height`, `account` and `index`: the branch that builds
the `ErrorInvalidKey` response is guarded by a test for
`failure.InvalidPayer`. -/
theorem C2_apiError_invalidKey_sample (codes : StatusCodes) (defs : Definitions)
    (description : String) :
    (apiError codes defs description sampleKeyError).Code = codes.statusInternalServerError
      ∧ (apiError codes defs description sampleKeyError).Message.ErrorDefinition
        = defs.ErrorInternal
      ∧ (apiError codes defs description sampleKeyError).Message.detail "height" = none
      ∧ (apiError codes defs description sampleKeyError).Message.detail "account" = none
      ∧ (apiError codes defs description sampleKeyError).Message.detail "index" = none := by
  have h : apiError codes defs description sampleKeyError
      = ⟨codes.statusInternalServerError, internal defs description sampleKeyError⟩ := rfl
  rw [h]
  refine ⟨rfl, rfl, ?_, ?_, ?_⟩ <;> simp [detail_internal]

/-- C3: when the chain of an error holds exactly one failure, and its type is
one of `InvalidNetwork`, `InvalidBlock`, `UnknownBlock`, `InvalidAccount`,
`InvalidCurrency`, `UnknownCurrency`, `InvalidTransaction` and
`UnknownTransaction`, then `apiError` answers with the status
`statusUnprocessableEntity`, with the error definition of the same name, and
with the description text of the failure; the description argument has no
influence on the response. -/
theorem C3_apiError_common_failure (codes : StatusCodes) (defs : Definitions)
    (description : String) (err : GoError) (f : Failure) (definition : ErrorDefinition)
    (hone : err.failures = [f])
    (hdef : commonDefinition defs f.kind = some definition) :
    (apiError codes defs description err).Code = codes.statusUnprocessableEntity
      ∧ (apiError codes defs description err).Message.ErrorDefinition = definition
      ∧ (apiError codes defs description err).Message.Description = f.Description.Text
      ∧ ∀ other : String,
          apiError codes defs other err = apiError codes defs description err := by
  cases f <;> simp [commonDefinition, Failure.kind] at hdef <;> subst hdef <;>
    simp only [apiError, errorsAs_eq_failures, hone] <;>
    exact ⟨rfl, rfl, rfl, fun _ => rfl⟩

/-- Witness of C3: an error that wraps one `UnknownBlock` failure. -/
theorem C3_apiError_common_failure_witness :
    sampleUnknownBlockError.failures = [Failure.UnknownBlock sampleUnknownBlock]
      ∧ commonDefinition sampleDefinitions (Failure.UnknownBlock sampleUnknownBlock).kind
          = some sampleDefinitions.ErrorUnknownBlock
      ∧ (apiError sampleCodes sampleDefinitions "unable to retrieve block"
            sampleUnknownBlockError).Code = 422
      ∧ (apiError sampleCodes sampleDefinitions "unable to retrieve block"
            sampleUnknownBlockError).Message.ErrorDefinition
          = sampleDefinitions.ErrorUnknownBlock
      ∧ (apiError sampleCodes sampleDefinitions "unable to retrieve block"
            sampleUnknownBlockError).Message.Description
          = "block index is above last indexed block" :=
  have h := C3_apiError_common_failure sampleCodes sampleDefinitions
    "unable to retrieve block" sampleUnknownBlockError
    (Failure.UnknownBlock sampleUnknownBlock) sampleDefinitions.ErrorUnknownBlock rfl rfl
  ⟨rfl, rfl, h.1, h.2.1, h.2.2.1⟩

/-- C4: when the chain of an error holds exactly one failure, and its type is
one of `InvalidPayer`, `InvalidProposer`, `InvalidSignature`,
`InvalidSignatures`, `InvalidIntent`, `InvalidScript`, `InvalidArguments`,
`InvalidAmount`, `InvalidReceiver` and `InvalidPayload`, then `apiError`
answers with the status `statusUnprocessableEntity` and with the error
definition of the same name. When the registry keeps `ErrorInvalidSignature`
and `ErrorInvalidSignatures` apart, an `InvalidSignatures` failure is not
answered with `ErrorInvalidSignature`, nor an `InvalidSignature` failure with
`ErrorInvalidSignatures`. -/
theorem C4_apiError_construction_failure (codes : StatusCodes) (defs : Definitions)
    (description : String) (err : GoError) (f : Failure) (definition : ErrorDefinition)
    (hone : err.failures = [f])
    (hdef : constructionDefinition defs f.kind = some definition) :
    (apiError codes defs description err).Code = codes.statusUnprocessableEntity
      ∧ (apiError codes defs description err).Message.ErrorDefinition = definition
      ∧ (defs.ErrorInvalidSignature ≠ defs.ErrorInvalidSignatures →
          (f.kind = Kind.InvalidSignatures →
            (apiError codes defs description err).Message.ErrorDefinition
              ≠ defs.ErrorInvalidSignature)
          ∧ (f.kind = Kind.InvalidSignature →
            (apiError codes defs description err).Message.ErrorDefinition
              ≠ defs.ErrorInvalidSignatures)) := by
  have hmain : (apiError codes defs description err).Code = codes.statusUnprocessableEntity
      ∧ (apiError codes defs description err).Message.ErrorDefinition = definition := by
    cases f <;> simp [constructionDefinition, Failure.kind] at hdef <;> subst hdef <;>
      simp only [apiError, errorsAs_eq_failures, hone] <;> exact ⟨rfl, rfl⟩
  refine ⟨hmain.1, hmain.2, fun hne => ⟨fun hk => ?_, fun hk => ?_⟩⟩
  · rw [hk] at hdef
    rw [hmain.2]
    simp only [constructionDefinition, Option.some.injEq] at hdef
    rw [← hdef]
    exact fun h => hne h.symm
  · rw [hk] at hdef
    rw [hmain.2]
    simp only [constructionDefinition, Option.some.injEq] at hdef
    rw [← hdef]
    exact hne

/-- Witness of C4: an error that wraps one `InvalidSignatures` failure. -/
theorem C4_apiError_construction_failure_witness :
    sampleSignaturesError.failures = [Failure.InvalidSignatures sampleSignatures]
      ∧ constructionDefinition sampleDefinitions
          (Failure.InvalidSignatures sampleSignatures).kind
          = some sampleDefinitions.ErrorInvalidSignatures
      ∧ sampleDefinitions.ErrorInvalidSignature ≠ sampleDefinitions.ErrorInvalidSignatures
      ∧ (apiError sampleCodes sampleDefinitions "unable to sign transaction"
            sampleSignaturesError).Code = 422
      ∧ (apiError sampleCodes sampleDefinitions "unable to sign transaction"
            sampleSignaturesError).Message.ErrorDefinition
          = sampleDefinitions.ErrorInvalidSignatures
      ∧ (apiError sampleCodes sampleDefinitions "unable to sign transaction"
            sampleSignaturesError).Message.ErrorDefinition
          ≠ sampleDefinitions.ErrorInvalidSignature :=
  have h := C4_apiError_construction_failure sampleCodes sampleDefinitions
    "unable to sign transaction" sampleSignaturesError
    (Failure.InvalidSignatures sampleSignatures) sampleDefinitions.ErrorInvalidSignatures
    rfl rfl
  ⟨rfl, rfl, by decide, h.1, h.2.1, (h.2.2 (by decide)).1 rfl⟩

/-- C5: when the chain of an error holds no failure of a type that `apiError`
tests for, then for every description `apiError` answers with the status
`statusInternalServerError`, the definition `ErrorInternal`, that description,
and a details map whose only entry is `error`, holding the text of the
error. -/
theorem C5_apiError_unmatched_internal (codes : StatusCodes) (defs : Definitions)
    (description : String) (err : GoError)
    (hnone : ∀ f ∈ err.failures, f.kind ∉ apiErrorOrder) :
    (apiError codes defs description err).Code = codes.statusInternalServerError
      ∧ (apiError codes defs description err).Message.ErrorDefinition = defs.ErrorInternal
      ∧ (apiError codes defs description err).Message.Description = description
      ∧ ∃ details : DetailMap,
          (apiError codes defs description err).Message.Details = some details
            ∧ ∀ key : String, details key
                = if key = "error" then some (GoValue.string err.Error) else none := by
  have hN : ∀ {α : Type} (target : Failure → Option α),
      (∀ f : Failure, f.kind ∉ apiErrorOrder → target f = none) →
        errorsAs target err = none :=
    fun target ht => errorsAs_eq_none target err (fun f hf => ht f (hnone f hf))
  have h : apiError codes defs description err
      = ⟨codes.statusInternalServerError, internal defs description err⟩ := by
    simp only [apiError,
      hN Failure.asInvalidNetwork
        (by intro f hf; cases f <;> first | rfl | simp [Failure.kind, apiErrorOrder] at hf),
      hN Failure.asInvalidBlock
        (by intro f hf; cases f <;> first | rfl | simp [Failure.kind, apiErrorOrder] at hf),
      hN Failure.asUnknownBlock
        (by intro f hf; cases f <;> first | rfl | simp [Failure.kind, apiErrorOrder] at hf),
      hN Failure.asInvalidAccount
        (by intro f hf; cases f <;> first | rfl | simp [Failure.kind, apiErrorOrder] at hf),
      hN Failure.asInvalidCurrency
        (by intro f hf; cases f <;> first | rfl | simp [Failure.kind, apiErrorOrder] at hf),
      hN Failure.asUnknownCurrency
        (by intro f hf; cases f <;> first | rfl | simp [Failure.kind, apiErrorOrder] at hf),
      hN Failure.asInvalidTransaction
        (by intro f hf; cases f <;> first | rfl | simp [Failure.kind, apiErrorOrder] at hf),
      hN Failure.asUnknownTransaction
        (by intro f hf; cases f <;> first | rfl | simp [Failure.kind, apiErrorOrder] at hf),
      hN Failure.asInvalidPayer
        (by intro f hf; cases f <;> first | rfl | simp [Failure.kind, apiErrorOrder] at hf),
      hN Failure.asInvalidProposer
        (by intro f hf; cases f <;> first | rfl | simp [Failure.kind, apiErrorOrder] at hf),
      hN Failure.asInvalidSignature
        (by intro f hf; cases f <;> first | rfl | simp [Failure.kind, apiErrorOrder] at hf),
      hN Failure.asInvalidSignatures
        (by intro f hf; cases f <;> first | rfl | simp [Failure.kind, apiErrorOrder] at hf),
      hN Failure.asInvalidOperations
        (by intro f hf; cases f <;> first | rfl | simp [Failure.kind, apiErrorOrder] at hf),
      hN Failure.asInvalidIntent
        (by intro f hf; cases f <;> first | rfl | simp [Failure.kind, apiErrorOrder] at hf),
      hN Failure.asInvalidScript
        (by intro f hf; cases f <;> first | rfl | simp [Failure.kind, apiErrorOrder] at hf),
      hN Failure.asInvalidArguments
        (by intro f hf; cases f <;> first | rfl | simp [Failure.kind, apiErrorOrder] at hf),
      hN Failure.asInvalidAmount
        (by intro f hf; cases f <;> first | rfl | simp [Failure.kind, apiErrorOrder] at hf),
      hN Failure.asInvalidReceiver
        (by intro f hf; cases f <;> first | rfl | simp [Failure.kind, apiErrorOrder] at hf),
      hN Failure.asInvalidPayload
        (by intro f hf; cases f <;> first | rfl | simp [Failure.kind, apiErrorOrder] at hf)]
  rw [h]
  refine ⟨rfl, rfl, rfl, _, rfl, fun key => ?_⟩
  simp [withError, DetailMap.set, DetailMap.empty]

/-- Witness of C5: an error that wraps an `InvalidBlockHash` failure, a type
that `apiError` does not test for. -/
theorem C5_apiError_unmatched_internal_witness :
    (∀ f ∈ sampleBlockHashError.failures, f.kind ∉ apiErrorOrder)
      ∧ (apiError sampleCodes sampleDefinitions "unable to retrieve block"
            sampleBlockHashError).Code = 500
      ∧ (apiError sampleCodes sampleDefinitions "unable to retrieve block"
            sampleBlockHashError).Message.ErrorDefinition = sampleDefinitions.ErrorInternal
      ∧ (apiError sampleCodes sampleDefinitions "unable to retrieve block"
            sampleBlockHashError).Message.Description = "unable to retrieve block" :=
  have h := C5_apiError_unmatched_internal sampleCodes sampleDefinitions
    "unable to retrieve block" sampleBlockHashError (by decide)
  ⟨by decide, h.1, h.2.1, h.2.2.1⟩

/-- C6: first match wins in `apiError`. Let `a` and `b` be failures of two
types that `apiError` tests for, the type of `a` being tested before the type
of `b`. An error whose chain holds exactly these two failures gets the
response of an error that holds `a` alone, whether `a` comes before `b` in the
chain or `b` before `a`; so both orders get the same response. -/
theorem C6_apiError_first_match (codes : StatusCodes) (defs : Definitions)
    (description other : String) (errAB errBA single : GoError) (a b : Failure)
    (ha : a.kind ∈ apiErrorOrder) (hb : b.kind ∈ apiErrorOrder)
    (hab : apiErrorOrder.indexOf a.kind < apiErrorOrder.indexOf b.kind)
    (hAB : errAB.failures = [a, b]) (hBA : errBA.failures = [b, a])
    (hsingle : single.failures = [a]) :
    apiError codes defs description errAB = apiError codes defs other single
      ∧ apiError codes defs description errBA = apiError codes defs other single
      ∧ apiError codes defs description errAB = apiError codes defs description errBA := by
  have key : ∀ (err : GoError) (fs : List Failure), fs = [a, b] ∨ fs = [b, a] →
      err.failures = fs →
        apiError codes defs description err = apiError codes defs other single := by
    intro err fs hfs h
    simp only [apiError, errorsAs_eq_failures, h, hsingle]
    clear h hsingle hAB hBA
    cases a <;> cases b <;> simp only [Failure.kind] at ha hb hab <;>
      first
      | exact absurd ha (by decide)
      | exact absurd hb (by decide)
      | exact absurd hab (by decide)
      | (rcases hfs with h | h <;> subst h <;> rfl)
  have h1 := key errAB _ (Or.inl rfl) hAB
  have h2 := key errBA _ (Or.inr rfl) hBA
  exact ⟨h1, h2, h1.trans h2.symm⟩

/-- Witness of C6: an `InvalidNetwork` failure and an `UnknownBlock` failure,
in both orders. -/
theorem C6_apiError_first_match_witness :
    (Failure.InvalidNetwork sampleNetwork).kind ∈ apiErrorOrder
      ∧ (Failure.UnknownBlock sampleUnknownBlock).kind ∈ apiErrorOrder
      ∧ apiErrorOrder.indexOf (Failure.InvalidNetwork sampleNetwork).kind
          < apiErrorOrder.indexOf (Failure.UnknownBlock sampleUnknownBlock).kind
      ∧ sampleNetworkOverBlock.failures
          = [Failure.InvalidNetwork sampleNetwork, Failure.UnknownBlock sampleUnknownBlock]
      ∧ sampleBlockOverNetwork.failures
          = [Failure.UnknownBlock sampleUnknownBlock, Failure.InvalidNetwork sampleNetwork]
      ∧ sampleNetworkOnly.failures = [Failure.InvalidNetwork sampleNetwork]
      ∧ apiError sampleCodes sampleDefinitions "unable to retrieve block"
            sampleNetworkOverBlock
          = apiError sampleCodes sampleDefinitions "unable to retrieve block"
              sampleNetworkOnly
      ∧ apiError sampleCodes sampleDefinitions "unable to retrieve block"
            sampleNetworkOverBlock
          = apiError sampleCodes sampleDefinitions "unable to retrieve block"
              sampleBlockOverNetwork :=
  have h := C6_apiError_first_match sampleCodes sampleDefinitions
    "unable to retrieve block" "unable to retrieve block" sampleNetworkOverBlock
    sampleBlockOverNetwork sampleNetworkOnly (Failure.InvalidNetwork sampleNetwork)
    (Failure.UnknownBlock sampleUnknownBlock) (by decide) (by decide) (by decide) rfl rfl rfl
  ⟨by decide, by decide, by decide, rfl, rfl, rfl, h.1, h.2.2⟩

/-! ## The responses of `formatError` -/

/-- C7, amended: `formatError` answers with the status `statusBadRequest`,
the definition `ErrorInvalidFormat`, the description text of the failure and
a details map with exactly the entries `want_length` and `have_length` of the
failure, where the failure is the `InvalidBlockHash` that `errors.As` finds;
or, when the chain holds no `InvalidBlockHash`, the `InvalidAccountAddress`
that it finds; or, when the chain holds neither, the `InvalidTransactionHash`
that it finds. -/
theorem C7_formatError_length (codes : StatusCodes) (defs : Definitions) (err : GoError) :
    (∀ f : failure.InvalidBlockHash,
      errorsAs Failure.asInvalidBlockHash err = some f →
        (formatError codes defs err).Code = codes.statusBadRequest
          ∧ (formatError codes defs err).Message.ErrorDefinition = defs.ErrorInvalidFormat
          ∧ (formatError codes defs err).Message.Description = f.Description.Text
          ∧ ∃ details : DetailMap,
              (formatError codes defs err).Message.Details = some details
                ∧ ∀ key : String, details key
                    = if key = "want_length" then some (GoValue.int f.WantLength)
                      else if key = "have_length" then some (GoValue.int f.HaveLength)
                      else none)
    ∧ (∀ f : failure.InvalidAccountAddress,
      (∀ g ∈ err.failures, g.kind ≠ Kind.InvalidBlockHash) →
      errorsAs Failure.asInvalidAccountAddress err = some f →
        (formatError codes defs err).Code = codes.statusBadRequest
          ∧ (formatError codes defs err).Message.ErrorDefinition = defs.ErrorInvalidFormat
          ∧ (formatError codes defs err).Message.Description = f.Description.Text
          ∧ ∃ details : DetailMap,
              (formatError codes defs err).Message.Details = some details
                ∧ ∀ key : String, details key
                    = if key = "want_length" then some f.WantLength
                      else if key = "have_length" then some f.HaveLength
                      else none)
    ∧ (∀ f : failure.InvalidTransactionHash,
      (∀ g ∈ err.failures,
        g.kind ≠ Kind.InvalidBlockHash ∧ g.kind ≠ Kind.InvalidAccountAddress) →
      errorsAs Failure.asInvalidTransactionHash err = some f →
        (formatError codes defs err).Code = codes.statusBadRequest
          ∧ (formatError codes defs err).Message.ErrorDefinition = defs.ErrorInvalidFormat
          ∧ (formatError codes defs err).Message.Description = f.Description.Text
          ∧ ∃ details : DetailMap,
              (formatError codes defs err).Message.Details = some details
                ∧ ∀ key : String, details key
                    = if key = "want_length" then some f.WantLength
                      else if key = "have_length" then some f.HaveLength
                      else none) := by
  have hmap : ∀ (w h : GoValue) (key : String),
      [withDetail "want_length" w, withDetail "have_length" h].foldl
          (fun dd detail => detail dd) DetailMap.empty key
        = if key = "want_length" then some w else if key = "have_length" then some h
          else none := by
    intro w h key
    by_cases h1 : key = "want_length"
    · subst h1; simp [withDetail, DetailMap.set]
    · simp [withDetail, DetailMap.set, DetailMap.empty, h1]
  refine ⟨fun f hf => ?_, fun f hno hf => ?_, fun f hno hf => ?_⟩
  · have h : formatError codes defs err
        = ⟨codes.statusBadRequest, invalidFormat defs f.Description.Text
            [withDetail "want_length" (GoValue.int f.WantLength),
             withDetail "have_length" (GoValue.int f.HaveLength)]⟩ := by
      simp only [formatError, hf]
    rw [h]
    exact ⟨rfl, rfl, rfl, _, rfl, hmap _ _⟩
  · have h1 : errorsAs Failure.asInvalidBlockHash err = none :=
      errorsAs_eq_none _ _ (fun g hg => by
        have := hno g hg
        cases g <;> first | rfl | simp [Failure.kind] at this)
    have h : formatError codes defs err
        = ⟨codes.statusBadRequest, invalidFormat defs f.Description.Text
            [withDetail "want_length" f.WantLength,
             withDetail "have_length" f.HaveLength]⟩ := by
      simp only [formatError, h1, hf]
    rw [h]
    exact ⟨rfl, rfl, rfl, _, rfl, hmap _ _⟩
  · have h1 : errorsAs Failure.asInvalidBlockHash err = none :=
      errorsAs_eq_none _ _ (fun g hg => by
        have := hno g hg
        cases g <;> first | rfl | simp [Failure.kind] at this)
    have h2 : errorsAs Failure.asInvalidAccountAddress err = none :=
      errorsAs_eq_none _ _ (fun g hg => by
        have := hno g hg
        cases g <;> first | rfl | simp [Failure.kind] at this)
    have h : formatError codes defs err
        = ⟨codes.statusBadRequest, invalidFormat defs f.Description.Text
            [withDetail "want_length" f.WantLength,
             withDetail "have_length" f.HaveLength]⟩ := by
      simp only [formatError, h1, h2, hf]
    rw [h]
    exact ⟨rfl, rfl, rfl, _, rfl, hmap _ _⟩

/-- Witness of C7: an error that wraps an `InvalidAccountAddress` failure. -/
theorem C7_formatError_length_witness :
    (∀ g ∈ sampleAccountAddressError.failures, g.kind ≠ Kind.InvalidBlockHash)
      ∧ errorsAs Failure.asInvalidAccountAddress sampleAccountAddressError
          = some sampleAccountAddress
      ∧ (formatError sampleCodes sampleDefinitions sampleAccountAddressError).Code = 400
      ∧ (formatError sampleCodes sampleDefinitions sampleAccountAddressError).Message.Description
          = "account address has wrong length" :=
  have h := (C7_formatError_length sampleCodes sampleDefinitions
    sampleAccountAddressError).2.1 sampleAccountAddress (by decide) rfl
  ⟨by decide, rfl, h.1, h.2.2.1⟩

/-- C7 as stated fails: the error `sampleTwoLengths` wraps an
`InvalidAccountAddress` with `WantLength = 8` and `HaveLength = 7`, yet the
response of `formatError` has another description than the text of this
failure and holds `want_length = 32`, taken from the `InvalidBlockHash` that
the same error wraps and that is tested for first. -/
theorem C7_formatError_length_counterexample :
    errorsAs Failure.asInvalidAccountAddress sampleTwoLengths = some sampleAccountAddress
      ∧ (formatError sampleCodes sampleDefinitions sampleTwoLengths).Message.Description
          ≠ sampleAccountAddress.Description.Text
      ∧ (formatError sampleCodes sampleDefinitions sampleTwoLengths).Message.detail
          "want_length" = some (GoValue.int 32)
      ∧ (formatError sampleCodes sampleDefinitions sampleTwoLengths).Message.detail
          "want_length" ≠ some sampleAccountAddress.WantLength := by
  refine ⟨rfl, by decide, ?_, ?_⟩
  · decide
  · decide

/-- C8, amended: when the chain of an error holds none of `InvalidBlockHash`,
`InvalidAccountAddress`, `InvalidTransactionHash` and `IncompleteBlock`, then
`formatError` answers an `InvalidNetwork` that `errors.As` finds with the
status `statusUnprocessableEntity`, the definition `ErrorInvalidNetwork` and
details that hold `have_network` and `want_network`; and when the chain holds
no `InvalidNetwork` either, it answers an `InvalidBlockchain` that
`errors.As` finds with the same status and definition and details that hold
`have_blockchain` and `want_blockchain`. Each of these entries has the value
of the field of the failure, unless a field of the description of the
failure has the same key. -/
theorem C8_formatError_network (codes : StatusCodes) (defs : Definitions) (err : GoError)
    (hnone : ∀ g ∈ err.failures,
      g.kind ∉ [Kind.InvalidBlockHash, Kind.InvalidAccountAddress,
        Kind.InvalidTransactionHash, Kind.IncompleteBlock]) :
    (∀ f : failure.InvalidNetwork,
      errorsAs Failure.asInvalidNetwork err = some f →
        (formatError codes defs err).Code = codes.statusUnprocessableEntity
          ∧ (formatError codes defs err).Message.ErrorDefinition = defs.ErrorInvalidNetwork
          ∧ ((formatError codes defs err).Message.detail "have_network").isSome
          ∧ ((formatError codes defs err).Message.detail "want_network").isSome
          ∧ ((∀ field ∈ f.Description.Fields, field.1 ≠ "have_network") →
              (formatError codes defs err).Message.detail "have_network"
                = some f.HaveNetwork)
          ∧ ((∀ field ∈ f.Description.Fields, field.1 ≠ "want_network") →
              (formatError codes defs err).Message.detail "want_network"
                = some f.WantNetwork))
    ∧ (∀ f : failure.InvalidBlockchain,
      (∀ g ∈ err.failures, g.kind ≠ Kind.InvalidNetwork) →
      errorsAs Failure.asInvalidBlockchain err = some f →
        (formatError codes defs err).Code = codes.statusUnprocessableEntity
          ∧ (formatError codes defs err).Message.ErrorDefinition = defs.ErrorInvalidNetwork
          ∧ ((formatError codes defs err).Message.detail "have_blockchain").isSome
          ∧ ((formatError codes defs err).Message.detail "want_blockchain").isSome
          ∧ ((∀ field ∈ f.Description.Fields, field.1 ≠ "have_blockchain") →
              (formatError codes defs err).Message.detail "have_blockchain"
                = some f.HaveBlockchain)
          ∧ ((∀ field ∈ f.Description.Fields, field.1 ≠ "want_blockchain") →
              (formatError codes defs err).Message.detail "want_blockchain"
                = some f.WantBlockchain)) := by
  have hN : ∀ {α : Type} (target : Failure → Option α),
      (∀ g : Failure, g.kind ∉ [Kind.InvalidBlockHash, Kind.InvalidAccountAddress,
        Kind.InvalidTransactionHash, Kind.IncompleteBlock] → target g = none) →
        errorsAs target err = none :=
    fun target ht => errorsAs_eq_none target err (fun g hg => ht g (hnone g hg))
  have h1 := hN Failure.asInvalidBlockHash
    (by intro g hg; cases g <;> first | rfl | simp [Failure.kind] at hg)
  have h2 := hN Failure.asInvalidAccountAddress
    (by intro g hg; cases g <;> first | rfl | simp [Failure.kind] at hg)
  have h3 := hN Failure.asInvalidTransactionHash
    (by intro g hg; cases g <;> first | rfl | simp [Failure.kind] at hg)
  have h4 := hN Failure.asIncompleteBlock
    (by intro g hg; cases g <;> first | rfl | simp [Failure.kind] at hg)
  refine ⟨fun f hf => ?_, fun f hno hf => ?_⟩
  · have h : formatError codes defs err
        = ⟨codes.statusUnprocessableEntity, invalidNetwork defs f⟩ := by
      simp only [formatError, h1, h2, h3, h4, hf]
    rw [h]
    refine ⟨rfl, ?_, ?_, ?_, fun hk => ?_, fun hk => ?_⟩
    · simp [invalidNetwork, convertError_eq, rosettaError]
    · simp only [invalidNetwork, detail_convertError_two]
      cases lastField f.Description.Fields "have_network" <;> simp
    · simp only [invalidNetwork, detail_convertError_two]
      cases lastField f.Description.Fields "want_network" <;> simp
    · simp [invalidNetwork, detail_convertError_two, lastField_eq_none _ _ hk]
    · simp [invalidNetwork, detail_convertError_two, lastField_eq_none _ _ hk]
  · have h5 : errorsAs Failure.asInvalidNetwork err = none :=
      errorsAs_eq_none _ _ (fun g hg => by
        have := hno g hg
        cases g <;> first | rfl | simp [Failure.kind] at this)
    have h : formatError codes defs err
        = ⟨codes.statusUnprocessableEntity, invalidBlockchain defs f⟩ := by
      simp only [formatError, h1, h2, h3, h4, h5, hf]
    rw [h]
    refine ⟨rfl, ?_, ?_, ?_, fun hk => ?_, fun hk => ?_⟩
    · simp [invalidBlockchain, convertError_eq, rosettaError]
    · simp only [invalidBlockchain, detail_convertError_two]
      cases lastField f.Description.Fields "have_blockchain" <;> simp
    · simp only [invalidBlockchain, detail_convertError_two]
      cases lastField f.Description.Fields "want_blockchain" <;> simp
    · simp [invalidBlockchain, detail_convertError_two, lastField_eq_none _ _ hk]
    · simp [invalidBlockchain, detail_convertError_two, lastField_eq_none _ _ hk]

/-- Witness of C8: an error that wraps an `InvalidBlockchain` failure. -/
theorem C8_formatError_network_witness :
    (∀ g ∈ sampleBlockchainError.failures,
      g.kind ∉ [Kind.InvalidBlockHash, Kind.InvalidAccountAddress,
        Kind.InvalidTransactionHash, Kind.IncompleteBlock])
      ∧ (∀ g ∈ sampleBlockchainError.failures, g.kind ≠ Kind.InvalidNetwork)
      ∧ errorsAs Failure.asInvalidBlockchain sampleBlockchainError = some sampleBlockchain
      ∧ (formatError sampleCodes sampleDefinitions sampleBlockchainError).Code = 422
      ∧ (formatError sampleCodes sampleDefinitions sampleBlockchainError).Message.ErrorDefinition
          = sampleDefinitions.ErrorInvalidNetwork
      ∧ (formatError sampleCodes sampleDefinitions sampleBlockchainError).Message.detail
          "have_blockchain" = some (GoValue.string "bitcoin") :=
  have h := (C8_formatError_network sampleCodes sampleDefinitions sampleBlockchainError
    (by decide)).2 sampleBlockchain (by decide) rfl
  ⟨by decide, by decide, rfl, h.1, h.2.1, h.2.2.2.2.1 (by decide)⟩

/-- C8 as stated fails: the error `sampleNetworkAndBlockchain` wraps an
`InvalidBlockchain` and holds none of the four excluded failure types, yet the
details of the response of `formatError` hold neither `have_blockchain` nor
`want_blockchain`: the `InvalidNetwork` that the same error wraps is tested
for first. -/
theorem C8_formatError_network_counterexample :
    (∀ g ∈ sampleNetworkAndBlockchain.failures,
      g.kind ∉ [Kind.InvalidBlockHash, Kind.InvalidAccountAddress,
        Kind.InvalidTransactionHash, Kind.IncompleteBlock])
      ∧ errorsAs Failure.asInvalidBlockchain sampleNetworkAndBlockchain
          = some sampleBlockchain
      ∧ (formatError sampleCodes sampleDefinitions sampleNetworkAndBlockchain).Message.detail
          "have_blockchain" = none
      ∧ (formatError sampleCodes sampleDefinitions sampleNetworkAndBlockchain).Message.detail
          "want_blockchain" = none := by
  refine ⟨by decide, rfl, by decide, by decide⟩

/-- C9: when the chain of an error holds none of `InvalidBlockHash`,
`InvalidAccountAddress`, `InvalidTransactionHash`, `IncompleteBlock`,
`InvalidNetwork` and `InvalidBlockchain`, then `formatError` answers with the
status `statusBadRequest`, the definition `ErrorInvalidFormat`, the text of
the error as description and empty details; when the registry keeps
`ErrorInvalidFormat` and `ErrorInvalidNetwork` apart, the definition of the
response is not `ErrorInvalidNetwork`. -/
theorem C9_formatError_other (codes : StatusCodes) (defs : Definitions) (err : GoError)
    (hnone : ∀ g ∈ err.failures,
      g.kind ∉ [Kind.InvalidBlockHash, Kind.InvalidAccountAddress,
        Kind.InvalidTransactionHash, Kind.IncompleteBlock, Kind.InvalidNetwork,
        Kind.InvalidBlockchain]) :
    (formatError codes defs err).Code = codes.statusBadRequest
      ∧ (formatError codes defs err).Message.ErrorDefinition = defs.ErrorInvalidFormat
      ∧ (formatError codes defs err).Message.Description = err.Error
      ∧ (∃ details : DetailMap,
          (formatError codes defs err).Message.Details = some details
            ∧ ∀ key : String, details key = none)
      ∧ (defs.ErrorInvalidFormat ≠ defs.ErrorInvalidNetwork →
          (formatError codes defs err).Message.ErrorDefinition ≠ defs.ErrorInvalidNetwork) := by
  have hN : ∀ {α : Type} (target : Failure → Option α),
      (∀ g : Failure, g.kind ∉ [Kind.InvalidBlockHash, Kind.InvalidAccountAddress,
        Kind.InvalidTransactionHash, Kind.IncompleteBlock, Kind.InvalidNetwork,
        Kind.InvalidBlockchain] → target g = none) →
        errorsAs target err = none :=
    fun target ht => errorsAs_eq_none target err (fun g hg => ht g (hnone g hg))
  have h : formatError codes defs err
      = ⟨codes.statusBadRequest, invalidFormat defs err.Error []⟩ := by
    simp only [formatError,
      hN Failure.asInvalidBlockHash
        (by intro g hg; cases g <;> first | rfl | simp [Failure.kind] at hg),
      hN Failure.asInvalidAccountAddress
        (by intro g hg; cases g <;> first | rfl | simp [Failure.kind] at hg),
      hN Failure.asInvalidTransactionHash
        (by intro g hg; cases g <;> first | rfl | simp [Failure.kind] at hg),
      hN Failure.asIncompleteBlock
        (by intro g hg; cases g <;> first | rfl | simp [Failure.kind] at hg),
      hN Failure.asInvalidNetwork
        (by intro g hg; cases g <;> first | rfl | simp [Failure.kind] at hg),
      hN Failure.asInvalidBlockchain
        (by intro g hg; cases g <;> first | rfl | simp [Failure.kind] at hg)]
  rw [h]
  exact ⟨rfl, rfl, rfl, ⟨_, rfl, fun _ => rfl⟩, fun hne => hne⟩

/-- Witness of C9: the validation error for a blank blockchain name. -/
theorem C9_formatError_other_witness :
    (∀ g ∈ sampleBlankBlockchain.failures,
      g.kind ∉ [Kind.InvalidBlockHash, Kind.InvalidAccountAddress,
        Kind.InvalidTransactionHash, Kind.IncompleteBlock, Kind.InvalidNetwork,
        Kind.InvalidBlockchain])
      ∧ sampleDefinitions.ErrorInvalidFormat ≠ sampleDefinitions.ErrorInvalidNetwork
      ∧ (formatError sampleCodes sampleDefinitions sampleBlankBlockchain).Code = 400
      ∧ (formatError sampleCodes sampleDefinitions sampleBlankBlockchain).Message.Description
          = "blockchain identifier: blockchain field is empty"
      ∧ (formatError sampleCodes sampleDefinitions sampleBlankBlockchain).Message.ErrorDefinition
          ≠ sampleDefinitions.ErrorInvalidNetwork :=
  have h := C9_formatError_other sampleCodes sampleDefinitions sampleBlankBlockchain
    (by decide)
  ⟨by decide, by decide, h.1, h.2.2.1, h.2.2.2.2 (by decide)⟩

/-- C10: when `errors.As` finds an `IncompleteBlock` in an error whose chain
holds none of `InvalidBlockHash`, `InvalidAccountAddress` and
`InvalidTransactionHash`, then `formatError` answers with the status
`statusBadRequest`, the definition `ErrorInvalidFormat`, the description text
of that failure and empty details. -/
theorem C10_formatError_incomplete (codes : StatusCodes) (defs : Definitions) (err : GoError)
    (f : failure.IncompleteBlock)
    (hnone : ∀ g ∈ err.failures,
      g.kind ∉ [Kind.InvalidBlockHash, Kind.InvalidAccountAddress,
        Kind.InvalidTransactionHash])
    (hf : errorsAs Failure.asIncompleteBlock err = some f) :
    (formatError codes defs err).Code = codes.statusBadRequest
      ∧ (formatError codes defs err).Message.ErrorDefinition = defs.ErrorInvalidFormat
      ∧ (formatError codes defs err).Message.Description = f.Description.Text
      ∧ ∃ details : DetailMap,
          (formatError codes defs err).Message.Details = some details
            ∧ ∀ key : String, details key = none := by
  have hN : ∀ {α : Type} (target : Failure → Option α),
      (∀ g : Failure, g.kind ∉ [Kind.InvalidBlockHash, Kind.InvalidAccountAddress,
        Kind.InvalidTransactionHash] → target g = none) →
        errorsAs target err = none :=
    fun target ht => errorsAs_eq_none target err (fun g hg => ht g (hnone g hg))
  have h : formatError codes defs err
      = ⟨codes.statusBadRequest, invalidFormat defs f.Description.Text []⟩ := by
    simp only [formatError, hf,
      hN Failure.asInvalidBlockHash
        (by intro g hg; cases g <;> first | rfl | simp [Failure.kind] at hg),
      hN Failure.asInvalidAccountAddress
        (by intro g hg; cases g <;> first | rfl | simp [Failure.kind] at hg),
      hN Failure.asInvalidTransactionHash
        (by intro g hg; cases g <;> first | rfl | simp [Failure.kind] at hg)]
  rw [h]
  exact ⟨rfl, rfl, rfl, _, rfl, fun _ => rfl⟩

/-- Witness of C10: an error that wraps an `IncompleteBlock` failure. -/
theorem C10_formatError_incomplete_witness :
    (∀ g ∈ sampleIncompleteBlockError.failures,
      g.kind ∉ [Kind.InvalidBlockHash, Kind.InvalidAccountAddress,
        Kind.InvalidTransactionHash])
      ∧ errorsAs Failure.asIncompleteBlock sampleIncompleteBlockError
          = some sampleIncompleteBlock
      ∧ (formatError sampleCodes sampleDefinitions sampleIncompleteBlockError).Code = 400
      ∧ (formatError sampleCodes sampleDefinitions sampleIncompleteBlockError).Message.Description
          = "block identifier needs an index or a hash" :=
  have h := C10_formatError_incomplete sampleCodes sampleDefinitions
    sampleIncompleteBlockError sampleIncompleteBlock (by decide) rfl
  ⟨by decide, rfl, h.1, h.2.2.1⟩

/-! ## `unpackError`, the format definition and the details of converted failures -/

theorem definition_convertError (definition : ErrorDefinition)
    (description : failure.Description) (details : List detailFunc) :
    (convertError definition description details).ErrorDefinition = definition := by
  rw [convertError_eq]; rfl

theorem lastField_of_mem (entries : List (String × GoValue)) (entry : String × GoValue)
    (hnodup : (entries.map Prod.fst).Nodup) (hmem : entry ∈ entries) :
    lastField entries entry.1 = some entry.2 := by
  induction entries with
  | nil => cases hmem
  | cons head tail ih =>
    simp only [List.map, List.nodup_cons] at hnodup
    rcases List.mem_cons.mp hmem with h | h
    · subst h
      have hnone : lastField tail entry.1 = none :=
        lastField_eq_none tail entry.1 (fun field hf e =>
          hnodup.1 (e ▸ List.mem_map_of_mem Prod.fst hf))
      simp [lastField, hnone]
    · simp [lastField, ih hnodup.2 h]

theorem carries_convertError (definition : ErrorDefinition)
    (description : failure.Description) (explicit : List (String × GoValue))
    (hnodup : (explicit.map Prod.fst).Nodup) :
    (convertError definition description
      (explicit.map fun entry => withDetail entry.1 entry.2)).carries
        explicit description.Fields := by
  constructor
  · intro entry hmem hno
    rw [detail_convertError, lastField_eq_none _ _ hno, foldl_withDetail,
      lastField_of_mem explicit entry hnodup hmem]
  · intro key val h
    rw [detail_convertError, h]

/-- C11: for every decoding error, `unpackError` answers with the status
`statusBadRequest`, the definition `ErrorInvalidEncoding`, the fixed and
non-empty description `request does not contain valid JSON-encoded body`, and
a details map whose only entry is `error`, holding the text of the error;
two errors with the same text get the same response. -/
theorem C11_unpackError (codes : StatusCodes) (defs : Definitions) (err : GoError) :
    (unpackError codes defs err).Code = codes.statusBadRequest
      ∧ (unpackError codes defs err).Message.ErrorDefinition = defs.ErrorInvalidEncoding
      ∧ (unpackError codes defs err).Message.Description
          = "request does not contain valid JSON-encoded body"
      ∧ (unpackError codes defs err).Message.Description ≠ ""
      ∧ (∃ details : DetailMap,
          (unpackError codes defs err).Message.Details = some details
            ∧ ∀ key : String, details key
                = if key = "error" then some (GoValue.string err.Error) else none)
      ∧ ∀ other : GoError, other.Error = err.Error →
          unpackError codes defs other = unpackError codes defs err := by
  refine ⟨rfl, rfl, rfl, ?_, ⟨_, rfl, fun key => ?_⟩, fun other h => ?_⟩
  · show invalidJSON ≠ ""
    decide
  · simp [withError, DetailMap.set, DetailMap.empty]
  · have hw : withError other = withError err := by
      unfold withError
      rw [h]
    simp only [unpackError, invalidEncoding, hw]

/-- Witness of C11: two errors with the same text. -/
theorem C11_unpackError_witness :
    sampleJSONError.Error = (GoError.mk ⟨"unexpected end of JSON input", none⟩
        [⟨"EOF", none⟩]).Error
      ∧ unpackError sampleCodes sampleDefinitions sampleJSONError
          = unpackError sampleCodes sampleDefinitions
              (GoError.mk ⟨"unexpected end of JSON input", none⟩ [⟨"EOF", none⟩])
      ∧ (unpackError sampleCodes sampleDefinitions sampleJSONError).Code = 400 :=
  ⟨rfl,
    (C11_unpackError sampleCodes sampleDefinitions
      (GoError.mk ⟨"unexpected end of JSON input", none⟩ [⟨"EOF", none⟩])).2.2.2.2.2
      sampleJSONError rfl,
    (C11_unpackError sampleCodes sampleDefinitions sampleJSONError).1⟩

/-- C12, amended: when the registry keeps `ErrorInvalidNetwork` apart from
`ErrorInvalidFormat`, every response of `formatError` with the definition
`ErrorInvalidFormat` has the status `statusBadRequest`; and when the registry
keeps `ErrorInvalidFormat` apart from the other definitions that `apiError`
uses, every response of `apiError` with the definition `ErrorInvalidFormat`
has the status `statusUnprocessableEntity` and answers an error in which
`errors.As` finds a `failure.InvalidOperations`. -/
theorem C12_invalidFormat_status (codes : StatusCodes) (defs : Definitions)
    (description : String) (err : GoError) :
    (defs.ErrorInvalidNetwork ≠ defs.ErrorInvalidFormat →
      (formatError codes defs err).Message.ErrorDefinition = defs.ErrorInvalidFormat →
        (formatError codes defs err).Code = codes.statusBadRequest)
      ∧ (defs.formatApart →
        (apiError codes defs description err).Message.ErrorDefinition
            = defs.ErrorInvalidFormat →
          (apiError codes defs description err).Code = codes.statusUnprocessableEntity
            ∧ errorsAs Failure.asInvalidOperations err ≠ none) := by
  constructor
  · intro hne
    unfold formatError
    repeat' split
    all_goals first
      | exact fun _ => rfl
      | (intro h
         simp only [invalidNetwork, invalidBlockchain, definition_convertError] at h
         exact absurd h hne)
  · intro hapart
    have hd : ∀ d ∈ [defs.ErrorInternal, defs.ErrorInvalidNetwork, defs.ErrorInvalidAccount,
        defs.ErrorInvalidCurrency, defs.ErrorInvalidBlock, defs.ErrorInvalidTransaction,
        defs.ErrorUnknownCurrency, defs.ErrorUnknownBlock, defs.ErrorUnknownTransaction,
        defs.ErrorInvalidIntent, defs.ErrorInvalidAuthorizers, defs.ErrorInvalidSignatures,
        defs.ErrorInvalidPayer, defs.ErrorInvalidProposer, defs.ErrorInvalidScript,
        defs.ErrorInvalidArguments, defs.ErrorInvalidAmount, defs.ErrorInvalidReceiver,
        defs.ErrorInvalidSignature, defs.ErrorInvalidKey, defs.ErrorInvalidPayload],
        d ≠ defs.ErrorInvalidFormat := hapart
    simp only [List.forall_mem_cons, List.not_mem_nil, false_implies, implies_true,
      and_true] at hd
    unfold apiError
    repeat' split
    all_goals first
      | (intro _
         refine ⟨rfl, ?_⟩
         simp [*]
         done)
      | (intro h
         simp only [invalidNetwork, invalidBlock, unknownBlock, invalidAccount, invalidCurrency,
           unknownCurrency, invalidTransaction, unknownTransaction, invalidAuthorizers,
           invalidPayer, invalidProposer, invalidSignature, invalidSignatures, invalidIntent,
           invalidKey, invalidScript, invalidArguments, invalidAmount, invalidReceiver,
           invalidPayload, internal, rosettaError, definition_convertError] at h
         simp [h] at hd)

/-- Witness of C12: a validation error without failure for `formatError`, an
error that wraps an `InvalidOperations` failure for `apiError`. -/
theorem C12_invalidFormat_status_witness :
    sampleDefinitions.ErrorInvalidNetwork ≠ sampleDefinitions.ErrorInvalidFormat
      ∧ (formatError sampleCodes sampleDefinitions sampleBlankBlockchain).Message.ErrorDefinition
          = sampleDefinitions.ErrorInvalidFormat
      ∧ (formatError sampleCodes sampleDefinitions sampleBlankBlockchain).Code = 400
      ∧ sampleDefinitions.formatApart
      ∧ (apiError sampleCodes sampleDefinitions "unable to parse transaction"
            sampleOperationsError).Message.ErrorDefinition
          = sampleDefinitions.ErrorInvalidFormat
      ∧ (apiError sampleCodes sampleDefinitions "unable to parse transaction"
            sampleOperationsError).Code = 422 :=
  ⟨by decide, rfl,
    (C12_invalidFormat_status sampleCodes sampleDefinitions "" sampleBlankBlockchain).1
      (by decide) rfl,
    by decide, rfl,
    ((C12_invalidFormat_status sampleCodes sampleDefinitions "unable to parse transaction"
      sampleOperationsError).2 (by decide) rfl).1⟩

/-- C12 as stated fails: with the three status codes 400, 422 and 500, the
response of `apiError` to an error that wraps a `failure.InvalidOperations`
has the definition `ErrorInvalidFormat` and the status
`statusUnprocessableEntity`, not `statusBadRequest`. -/
theorem C12_invalidFormat_status_counterexample :
    sampleCodes.statusBadRequest ≠ sampleCodes.statusUnprocessableEntity
      ∧ (apiError sampleCodes sampleDefinitions "unable to parse transaction"
            sampleOperationsError).Message.ErrorDefinition
          = sampleDefinitions.ErrorInvalidFormat
      ∧ (apiError sampleCodes sampleDefinitions "unable to parse transaction"
            sampleOperationsError).Code = sampleCodes.statusUnprocessableEntity
      ∧ (apiError sampleCodes sampleDefinitions "unable to parse transaction"
            sampleOperationsError).Code ≠ sampleCodes.statusBadRequest := by
  refine ⟨by decide, rfl, rfl, by decide⟩

/-- C13, amended: the details of a failure converted through `convertError`
hold each explicit key with the value taken from the struct field, provided
no field of the description has the same key, and hold for every key of a
description field the value of the last field with this key. This holds for
every list of explicit entries with pairwise different keys, and so for
`invalidNetwork` (`have_network`, `want_network`), `invalidSignatures`
(`have_signatures`, `want_signatures`), `invalidPayer` (`have_payer`,
`want_payer`, in hexadecimal) and `invalidTransaction` (`hash`). -/
theorem C13_convertError_details (defs : Definitions) :
    (∀ (definition : ErrorDefinition) (description : failure.Description)
        (explicit : List (String × GoValue)), (explicit.map Prod.fst).Nodup →
        (convertError definition description
          (explicit.map fun entry => withDetail entry.1 entry.2)).carries
            explicit description.Fields)
      ∧ (∀ f : failure.InvalidNetwork,
          (invalidNetwork defs f).carries
            [("have_network", f.HaveNetwork), ("want_network", f.WantNetwork)]
            f.Description.Fields)
      ∧ (∀ f : failure.InvalidSignatures,
          (invalidSignatures defs f).carries
            [("have_signatures", f.Have), ("want_signatures", f.Want)]
            f.Description.Fields)
      ∧ (∀ f : failure.InvalidPayer,
          (invalidPayer defs f).carries
            [("have_payer", GoValue.string f.Have.Hex),
             ("want_payer", GoValue.string f.Want.Hex)]
            f.Description.Fields)
      ∧ (∀ f : failure.InvalidTransaction,
          (invalidTransaction defs f).carries [("hash", GoValue.string f.Hash)]
            f.Description.Fields) := by
  refine ⟨fun definition description explicit h =>
      carries_convertError definition description explicit h,
    fun f => ?_, fun f => ?_, fun f => ?_, fun f => ?_⟩
  · exact carries_convertError _ _ [("have_network", f.HaveNetwork),
      ("want_network", f.WantNetwork)] (by simp)
  · exact carries_convertError _ _ [("have_signatures", f.Have),
      ("want_signatures", f.Want)] (by simp)
  · exact carries_convertError _ _ [("have_payer", GoValue.string f.Have.Hex),
      ("want_payer", GoValue.string f.Want.Hex)] (by simp)
  · exact carries_convertError _ _ [("hash", GoValue.string f.Hash)] (by simp)

/-- Witness of C13: an `InvalidTransaction` failure whose description has no
field. -/
theorem C13_convertError_details_witness :
    (∀ field ∈ sampleTransaction.Description.Fields, field.1 ≠ "hash")
      ∧ (invalidTransaction sampleDefinitions sampleTransaction).detail "hash"
          = some (GoValue.string "ab") :=
  ⟨by decide,
    ((C13_convertError_details sampleDefinitions).2.2.2.2 sampleTransaction).1
      ("hash", GoValue.string "ab") (by decide) (by decide)⟩

/-- C13 as stated fails: for an `InvalidTransaction` failure with `Hash = ab`
whose description carries a field `hash = cd`, the details hold `hash = cd`
and not the value of the struct field. -/
theorem C13_convertError_details_counterexample :
    (invalidTransaction sampleDefinitions sampleTransactionWithField).detail "hash"
        = some (GoValue.string "cd")
      ∧ (invalidTransaction sampleDefinitions sampleTransactionWithField).detail "hash"
        ≠ some (GoValue.string sampleTransactionWithField.Hash) := by
  constructor <;> decide

/-! ## The results of `Validator.Transaction` -/

theorem utf8Bytes_of_hex (c : Char) (h : isHexDigit c = true) :
    utf8Bytes c = [c.toNat] ∧ ∃ a, fromHexChar c.toNat = some a ∧ a < 16 := by
  unfold isHexDigit fromHexChar at h
  unfold utf8Bytes fromHexChar
  split_ifs at h ⊢ <;> first
    | (refine ⟨rfl, _, rfl, ?_⟩; omega)
    | omega
    | simp at h

theorem fromHexChar_eq_none (b : Nat) (h : ¬(48 ≤ b ∧ b ≤ 57)) (h2 : ¬(97 ≤ b ∧ b ≤ 102))
    (h3 : ¬(65 ≤ b ∧ b ≤ 70)) : fromHexChar b = none := by
  simp [fromHexChar, h, h2, h3]

theorem utf8Bytes_of_not_hex (c : Char) (h : isHexDigit c = false) :
    ∃ b tail, utf8Bytes c = b :: tail ∧ fromHexChar b = none := by
  unfold isHexDigit fromHexChar at h
  unfold utf8Bytes
  split_ifs at h ⊢
  all_goals first
    | (simp at h; done)
    | exact ⟨_, _, rfl, fromHexChar_eq_none _ (by omega) (by omega) (by omega)⟩

theorem hexDecode_invalid (size : Nat) (b : Nat) (tail : List Nat) (written : List (Fin 256))
    (h : fromHexChar b = none) :
    hexDecode size (b :: tail) written
      = DecodeOutcome.returns written (some (HexError.InvalidByteError b)) := by
  cases tail <;> simp [hexDecode, h]

theorem hexDecode_invalid_second (size : Nat) (p a b : Nat) (tail : List Nat)
    (written : List (Fin 256)) (hp : fromHexChar p = some a) (h : fromHexChar b = none) :
    hexDecode size (p :: b :: tail) written
      = DecodeOutcome.returns written (some (HexError.InvalidByteError b)) := by
  simp [hexDecode, hp, h]

theorem hexDecode_not_aborts (size : Nat) :
    ∀ (src : List Nat) (written : List (Fin 256)),
      written.length + src.length / 2 ≤ size → hexDecode size src written ≠ DecodeOutcome.aborts
  | [], written, _ => by simp [hexDecode]
  | [p], written, _ => by
    unfold hexDecode
    cases fromHexChar p <;> simp
  | p :: q :: rest, written, h => by
    unfold hexDecode
    cases hp : fromHexChar p with
    | none => simp
    | some a =>
      cases hq : fromHexChar q with
      | none => simp
      | some b =>
        have hlen : written.length < size := by
          simp only [List.length_cons] at h
          omega
        simp only [hlen, if_true]
        apply hexDecode_not_aborts size rest
        simp only [List.length_cons, List.length_append, List.length_nil] at h ⊢
        omega
theorem hexDecode_error :
    ∀ (cs : List Char) (written : List (Fin 256)),
      (∃ c ∈ cs, isHexDigit c = false) → written.length + cs.length / 2 ≤ 32 →
        ∃ w e, hexDecode 32 (cs.flatMap utf8Bytes) written = DecodeOutcome.returns w (some e)
  | [], _, h, _ => by
    obtain ⟨c, hc, _⟩ := h
    cases hc
  | [c], written, h, _ => by
    obtain ⟨c', hc', hno⟩ := h
    simp only [List.mem_singleton] at hc'
    subst hc'
    obtain ⟨b, tail, hb, hn⟩ := utf8Bytes_of_not_hex c' hno
    simp only [List.flatMap_cons, List.flatMap_nil, List.append_nil, hb]
    exact ⟨_, _, hexDecode_invalid 32 b tail written hn⟩
  | c :: d :: rest, written, h, hlen => by
    simp only [List.flatMap_cons]
    cases hc : isHexDigit c with
    | false =>
      obtain ⟨b, tail, hb, hn⟩ := utf8Bytes_of_not_hex c hc
      rw [hb]
      exact ⟨_, _, hexDecode_invalid 32 b _ written hn⟩
    | true =>
      obtain ⟨hcb, a, ha, _⟩ := utf8Bytes_of_hex c hc
      cases hd : isHexDigit d with
      | false =>
        obtain ⟨b, tail, hb, hn⟩ := utf8Bytes_of_not_hex d hd
        rw [hcb, hb]
        exact ⟨_, _, hexDecode_invalid_second 32 c.toNat a b _ written ha hn⟩
      | true =>
        obtain ⟨hdb, b, hb, _⟩ := utf8Bytes_of_hex d hd
        have hw : written.length < 32 := by
          simp only [List.length_cons] at hlen
          omega
        have hrest : ∃ x ∈ rest, isHexDigit x = false := by
          obtain ⟨x, hx, hno⟩ := h
          rcases List.mem_cons.mp hx with e | hx
          · rw [e, hc] at hno; cases hno
          · rcases List.mem_cons.mp hx with e | hx
            · rw [e, hd] at hno; cases hno
            · exact ⟨x, hx, hno⟩
        have ih := hexDecode_error rest (written ++ [Fin.ofNat ((a * 16 + b) % 256)]) hrest
          (by
            simp only [List.length_cons, List.length_append, List.length_nil] at hlen ⊢
            omega)
        rw [hcb, hdb]
        simpa [hexDecode, ha, hb, hw] using ih

theorem hexDecode_ok :
    ∀ (cs : List Char) (written : List (Fin 256)),
      (∀ c ∈ cs, isHexDigit c = true) → cs.length % 2 = 0 →
      written.length + cs.length / 2 ≤ 32 →
        hexDecode 32 (cs.flatMap utf8Bytes) written
          = DecodeOutcome.returns (written ++ hexBytes cs) none
  | [], written, _, _, _ => by simp [hexDecode, hexBytes]
  | [c], _, _, heven, _ => by simp at heven
  | c :: d :: rest, written, h, heven, hlen => by
    obtain ⟨hcb, a, ha, _⟩ := utf8Bytes_of_hex c (h c (by simp))
    obtain ⟨hdb, b, hb, _⟩ := utf8Bytes_of_hex d (h d (by simp))
    have hw : written.length < 32 := by
      simp only [List.length_cons] at hlen
      omega
    have ih := hexDecode_ok rest (written ++ [Fin.ofNat ((a * 16 + b) % 256)])
      (fun x hx => h x (List.mem_cons_of_mem _ (List.mem_cons_of_mem _ hx)))
      (by simp only [List.length_cons] at heven; omega)
      (by
        simp only [List.length_cons, List.length_append, List.length_nil] at hlen ⊢
        omega)
    simp only [List.flatMap_cons, hcb, hdb]
    simp [hexDecode, ha, hb, hw, ih, hexBytes, hexPair]

theorem length_hexBytes : ∀ cs : List Char, (hexBytes cs).length = cs.length / 2
  | [] => rfl
  | [_] => by simp [hexBytes]
  | _ :: _ :: rest => by
    simp only [hexBytes, List.length_cons, length_hexBytes rest]
    omega

theorem hexDigit_fromHexChar (c : Char) (h : isHexDigit c = true) :
    hexDigit ((fromHexChar c.toNat).getD 0) = c.toLower := by
  have hc : c = Char.ofNat c.toNat := (Char.ofNat_toNat c).symm
  unfold isHexDigit fromHexChar at h
  split_ifs at h with h1 h2 h3
  · obtain ⟨l, u⟩ := h1
    rw [hc]
    generalize c.toNat = n at l u
    interval_cases n <;> rfl
  · obtain ⟨l, u⟩ := h2
    rw [hc]
    generalize c.toNat = n at l u
    interval_cases n <;> rfl
  · obtain ⟨l, u⟩ := h3
    rw [hc]
    generalize c.toNat = n at l u
    interval_cases n <;> rfl
  · simp at h
theorem hexEncode_hexBytes :
    ∀ cs : List Char, (∀ c ∈ cs, isHexDigit c = true) → cs.length % 2 = 0 →
      (hexBytes cs).flatMap (fun b => [hexDigit (b.val / 16), hexDigit (b.val % 16)])
        = cs.map Char.toLower
  | [], _, _ => rfl
  | [c], _, heven => by simp at heven
  | c :: d :: rest, h, heven => by
    obtain ⟨_, a, ha, hlt⟩ := utf8Bytes_of_hex c (h c (by simp))
    obtain ⟨_, b, hb, hlt2⟩ := utf8Bytes_of_hex d (h d (by simp))
    have hc := hexDigit_fromHexChar c (h c (by simp))
    have hd := hexDigit_fromHexChar d (h d (by simp))
    have ih := hexEncode_hexBytes rest
      (fun x hx => h x (List.mem_cons_of_mem _ (List.mem_cons_of_mem _ hx)))
      (by simp only [List.length_cons] at heven; omega)
    rw [ha] at hc
    rw [hb] at hd
    simp only [Option.getD_some] at hc hd
    have hval : (hexPair c d).val = a * 16 + b := by
      simp only [hexPair, ha, hb, Option.getD_some, Fin.ofNat, Fin.val_mk]
      omega
    have h1 : (a * 16 + b) / 16 = a := by omega
    have h2 : (a * 16 + b) % 16 = b := by omega
    simp only [hexBytes, List.flatMap_cons, hval, h1, h2, hc, hd, ih, List.map,
      List.cons_append, List.nil_append]

theorem HexStringToIdentifier_not_aborts (s : String) (h : (goBytes s).length ≤ 65) :
    HexStringToIdentifier s ≠ IdentifierOutcome.aborts := by
  have hno := hexDecode_not_aborts 32 (goBytes s) [] (by simp only [List.length_nil]; omega)
  unfold HexStringToIdentifier
  split
  · exact absurd ‹_› hno
  · simp
  · split <;> simp

/-- C14, amended: for every transaction hash, of any length, on which the
decoding returns and that does not decode to an identifier of 32 bytes,
`Validator.Transaction` returns `flow.ZeroID` with a
`failure.InvalidTransaction` that carries the hash, not with a
`failure.InvalidTransactionHash`; `apiError` reports it as a semantic error,
with the status `statusUnprocessableEntity` and the definition
`ErrorInvalidTransaction`. -/
theorem C14_Transaction_undecodable (txHashInvalid : String) (hash : String)
    (hreturns : HexStringToIdentifier hash ≠ IdentifierOutcome.aborts)
    (hnot : ∀ id : Identifier, HexStringToIdentifier hash ≠ IdentifierOutcome.ok id) :
    Validator.Transaction txHashInvalid ⟨hash⟩
        = TransactionOutcome.returns ZeroID
            (some ⟨failure.NewDescription txHashInvalid, hash⟩)
      ∧ (Failure.InvalidTransaction ⟨failure.NewDescription txHashInvalid, hash⟩).kind
          ≠ Kind.InvalidTransactionHash
      ∧ ∀ (codes : StatusCodes) (defs : Definitions) (description : String) (err : GoError),
          err.failures
              = [Failure.InvalidTransaction ⟨failure.NewDescription txHashInvalid, hash⟩] →
            (apiError codes defs description err).Code = codes.statusUnprocessableEntity
              ∧ (apiError codes defs description err).Message.ErrorDefinition
                  = defs.ErrorInvalidTransaction := by
  refine ⟨?_, by simp [Failure.kind], fun codes defs description err herr => ?_⟩
  · unfold Validator.Transaction
    cases h : HexStringToIdentifier hash with
    | ok id => exact absurd h (hnot id)
    | error e => rfl
    | aborts => exact absurd h hreturns
  · simp only [apiError, errorsAs_eq_failures, herr]
    exact ⟨rfl, rfl⟩

/-- C15: for every transaction hash of at most 64 characters, so of exactly
64 characters, of which at least one is no hexadecimal digit,
`Validator.Transaction` returns `flow.ZeroID` with a
`failure.InvalidTransaction` whose `Hash` is the input unchanged; for an error
that holds this failure alone, `apiError` answers with the status
`statusUnprocessableEntity`, the definition `ErrorInvalidTransaction` and the
detail `hash` equal to the input. -/
theorem C15_Transaction_non_hex (txHashInvalid : String) (hash : String)
    (hlen : hash.length ≤ 64)
    (hbad : ∃ c ∈ hash.toList, isHexDigit c = false) :
    Validator.Transaction txHashInvalid ⟨hash⟩
        = TransactionOutcome.returns ZeroID
            (some ⟨failure.NewDescription txHashInvalid, hash⟩)
      ∧ ∀ (codes : StatusCodes) (defs : Definitions) (description : String) (err : GoError),
          err.failures
              = [Failure.InvalidTransaction ⟨failure.NewDescription txHashInvalid, hash⟩] →
            (apiError codes defs description err).Code = codes.statusUnprocessableEntity
              ∧ (apiError codes defs description err).Message.ErrorDefinition
                  = defs.ErrorInvalidTransaction
              ∧ (apiError codes defs description err).Message.detail "hash"
                  = some (GoValue.string hash) := by
  refine ⟨?_, fun codes defs description err herr => ?_⟩
  · have hl : hash.toList.length ≤ 64 := hlen
    obtain ⟨w, e, hdec⟩ := hexDecode_error hash.toList [] hbad
      (by simp only [List.length_nil]; omega)
    simp only [Validator.Transaction, HexStringToIdentifier, goBytes, hdec]
  · have h : apiError codes defs description err
        = ⟨codes.statusUnprocessableEntity,
            invalidTransaction defs ⟨failure.NewDescription txHashInvalid, hash⟩⟩ := by
      simp only [apiError, errorsAs_eq_failures, herr]
      rfl
    rw [h]
    refine ⟨rfl, ?_, ?_⟩
    · simp [invalidTransaction, definition_convertError]
    · simp [invalidTransaction, detail_convertError, failure.NewDescription, lastField,
        withDetail, DetailMap.set]

/-- C16: for every string of exactly 64 hexadecimal digits, upper or lower
case, `Validator.Transaction` returns a nil error and the identifier whose 32
bytes are the hexadecimal decoding of the string; the identifier written in
hexadecimal is the input in lower case. -/
theorem C16_Transaction_round_trip (txHashInvalid : String) (hash : String)
    (hlen : hash.length = 64)
    (hhex : ∀ c ∈ hash.toList, isHexDigit c = true) :
    ∃ id : Identifier,
      Validator.Transaction txHashInvalid ⟨hash⟩ = TransactionOutcome.returns id none
        ∧ id.bytes = hexBytes hash.toList
        ∧ id.String = hash.toLower := by
  have hl : hash.toList.length = 64 := hlen
  have hdec := hexDecode_ok hash.toList [] hhex (by omega)
    (by simp only [List.length_nil]; omega)
  have hb : (hexBytes hash.toList).length = 32 := by
    rw [length_hexBytes, hl]
  refine ⟨⟨hexBytes hash.toList, hb⟩, ?_, rfl, ?_⟩
  · simp only [Validator.Transaction, HexStringToIdentifier, goBytes, hdec, List.nil_append,
      hb, dite_true]
  · simp only [Identifier.String, hexEncode, String.toLower, String.map_eq]
    rw [hexEncode_hexBytes hash.toList hhex (by omega)]
    rfl
/-! ## The results of `Converter.EventToOperation` -/

theorem wrapInt64_of_lt (a : Nat) (h : a < 2 ^ 63) :
    wrapInt64 ((a % 2 ^ 64 : Nat) : Int) = (a : Int) := by
  unfold wrapInt64
  omega

theorem wrapInt64_neg_of_lt (a : Nat) (h : a < 2 ^ 63) :
    wrapInt64 (-(a : Int)) = -(a : Int) := by
  unfold wrapInt64
  omega

/-- C17, amended: for an event whose payload decodes to an event with two
fields, a `uint64` amount `a` below `2 ^ 63` and an address,
`EventToOperation` returns no error and an operation whose amount value is
the decimal string of `a` when the type of the event is the deposit type of
the converter, and the decimal string of `-a` when it is the withdrawal type
and not the deposit type; these are `42` and `-42` for the amount 42. -/
theorem C17_EventToOperation_amount (dps : DpsConstants) (c : Converter) (event : Event)
    (a : Nat)
    (address : Address)
    (hpayload : event.Payload
      = Payload.event [FieldValue.uint64 a, FieldValue.address address])
    (ha : a < 2 ^ 63) :
    (event.Type_ = c.deposit →
        ∃ op : object.Operation,
          Converter.EventToOperation dps c event = Except.ok op
            ∧ op.Amount.Value = FormatInt (a : Int))
      ∧ (event.Type_ = c.withdrawal → event.Type_ ≠ c.deposit →
        ∃ op : object.Operation,
          Converter.EventToOperation dps c event = Except.ok op
            ∧ op.Amount.Value = FormatInt (-(a : Int)))
      ∧ FormatInt 42 = "42" ∧ FormatInt (-42) = "-42" := by
  refine ⟨fun hd => ?_, fun hw hnd => ?_, by decide, by decide⟩
  · refine ⟨Converter.operation dps event address (a : Int), ?_, rfl⟩
    simp only [Converter.EventToOperation, hpayload, hd, if_true, wrapInt64_of_lt a ha]
  · refine ⟨Converter.operation dps event address (-(a : Int)), ?_, rfl⟩
    have hne : c.withdrawal ≠ c.deposit := hw ▸ hnd
    simp only [Converter.EventToOperation, hpayload, hne, hw, if_true, if_false,
      wrapInt64_of_lt a ha, wrapInt64_neg_of_lt a ha]

/-- C17 as stated fails: for a converter whose deposit type and withdrawal
type are the same, an event of that type with the amount 42 is of the
withdrawal type, yet the amount value of the operation is `42`, not `-42`:
the deposit case of the switch comes first. -/
theorem C17_EventToOperation_amount_counterexample :
    sampleSameTypeEvent.Payload
        = Payload.event [FieldValue.uint64 42, FieldValue.address sampleAddress]
      ∧ sampleSameTypeEvent.Type_ = sampleSameTypeConverter.withdrawal
      ∧ ∃ op : object.Operation,
          Converter.EventToOperation sampleDps sampleSameTypeConverter sampleSameTypeEvent
              = Except.ok op
            ∧ op.Amount.Value = "42" ∧ op.Amount.Value ≠ FormatInt (-42) := by
  refine ⟨rfl, rfl, _, rfl, by decide, by decide⟩

/-- C18: evaluation of `EventToOperation` at a deposit event with the
`uint64` amount `2 ^ 63` and a well-formed payload. The amount value of the
operation is `-9223372036854775808`, which is negative and is not the decimal
string of the amount: the conversion of the amount to `int64` wraps. -/
theorem C18_EventToOperation_large_deposit (dps : DpsConstants) :
    sampleLargeDeposit.Type_ = sampleConverter.deposit
      ∧ sampleLargeDeposit.Payload
          = Payload.event [FieldValue.uint64 (2 ^ 63), FieldValue.address sampleAddress]
      ∧ 2 ^ 63 < 2 ^ 64
      ∧ ∃ op : object.Operation,
          Converter.EventToOperation dps sampleConverter sampleLargeDeposit = Except.ok op
            ∧ op.Amount.Value = "-9223372036854775808"
            ∧ op.Amount.Value ≠ FormatInt (2 ^ 63) := by
  have hwrap : wrapInt64 ((9223372036854775808 % 2 ^ 64 : Nat) : Int)
      = -9223372036854775808 := by decide
  refine ⟨rfl, rfl, by decide,
    Converter.operation dps sampleLargeDeposit sampleAddress (-9223372036854775808),
    ?_, ?_, ?_⟩
  · simp only [Converter.EventToOperation, sampleLargeDeposit, sampleConverter, if_true,
      hwrap]
  · show FormatInt (-9223372036854775808) = "-9223372036854775808"
    decide
  · show FormatInt (-9223372036854775808) ≠ FormatInt (2 ^ 63)
    decide

/-- C19: for every event whose payload decodes to an event with two fields,
a `uint64` and nil, `EventToOperation` returns a nil operation and the
sentinel `ErrNoAddress`, whatever the type of the event and the types of the
converter. -/
theorem C19_EventToOperation_nil_address (dps : DpsConstants) (c : Converter)
    (event : Event) (a : Nat)
    (hpayload : event.Payload = Payload.event [FieldValue.uint64 a, FieldValue.nil]) :
    Converter.EventToOperation dps c event = Except.error EventError.ErrNoAddress := by
  simp only [Converter.EventToOperation, hpayload]

/-- C20, amended: for every event whose payload decodes to an event with two
fields, a `uint64` amount and an address, and whose type is neither the
deposit type nor the withdrawal type of the converter, `EventToOperation`
returns a nil operation and the sentinel `ErrNotSupported`. -/
theorem C20_EventToOperation_unsupported (dps : DpsConstants) (c : Converter)
    (event : Event) (a : Nat)
    (address : Address)
    (hpayload : event.Payload
      = Payload.event [FieldValue.uint64 a, FieldValue.address address])
    (hd : event.Type_ ≠ c.deposit) (hw : event.Type_ ≠ c.withdrawal) :
    Converter.EventToOperation dps c event = Except.error EventError.ErrNotSupported := by
  simp only [Converter.EventToOperation, hpayload, hd, hw, if_false]

/-- C20 as stated fails: an event of the type `irrelevant`, which is neither
type of the converter, whose address field is nil gets the sentinel
`ErrNoAddress`, not `ErrNotSupported`: the payload is examined before the
type. -/
theorem C20_EventToOperation_unsupported_counterexample :
    sampleIrrelevantNilAddress.Type_ ≠ sampleConverter.deposit
      ∧ sampleIrrelevantNilAddress.Type_ ≠ sampleConverter.withdrawal
      ∧ Converter.EventToOperation sampleDps sampleConverter sampleIrrelevantNilAddress
          = Except.error EventError.ErrNoAddress
      ∧ Converter.EventToOperation sampleDps sampleConverter sampleIrrelevantNilAddress
          ≠ Except.error EventError.ErrNotSupported := by
  refine ⟨by decide, by decide, rfl, ?_⟩
  intro h
  cases h

/-- C21: for every event whose payload decodes to an event with a number of
fields other than two, or with two fields of which the first is no `uint64`
or the second is neither nil nor an address, `EventToOperation` returns a nil
operation and an error that is neither `ErrNoAddress` nor `ErrNotSupported`,
whatever the type of the event. -/
theorem C21_EventToOperation_malformed (dps : DpsConstants) (c : Converter) (event : Event)
    (Fields : List FieldValue)
    (hpayload : event.Payload = Payload.event Fields)
    (hbad : Fields.length ≠ 2
      ∨ ∃ first second, Fields = [first, second]
          ∧ ((∀ n, first ≠ FieldValue.uint64 n)
            ∨ (second ≠ FieldValue.nil ∧ ∀ bytes, second ≠ FieldValue.address bytes))) :
    ∃ err : EventError,
      Converter.EventToOperation dps c event = Except.error err
        ∧ err ≠ EventError.ErrNoAddress ∧ err ≠ EventError.ErrNotSupported := by
  rcases hbad with hlen | ⟨first, second, hf, hbad⟩
  · refine ⟨EventError.invalidNumberOfFields Fields.length, ?_, by simp, by simp⟩
    simp only [Converter.EventToOperation, hpayload]
    match Fields, hlen with
    | [], _ => rfl
    | [_], _ => rfl
    | [_, _], h => exact absurd rfl h
    | _ :: _ :: _ :: _, _ => rfl
  · subst hf
    simp only [Converter.EventToOperation, hpayload]
    rcases hbad with h1 | ⟨h2, h3⟩
    · cases first with
      | uint64 n => exact absurd rfl (h1 n)
      | nil => exact ⟨_, rfl, by simp, by simp⟩
      | address b => exact ⟨_, rfl, by simp, by simp⟩
      | other => exact ⟨_, rfl, by simp, by simp⟩
    · cases first with
      | uint64 n =>
        cases second with
        | uint64 m => exact ⟨_, rfl, by simp, by simp⟩
        | nil => exact absurd rfl h2
        | address b => exact absurd rfl (h3 b)
        | other => exact ⟨_, rfl, by simp, by simp⟩
      | nil => exact ⟨_, rfl, by simp, by simp⟩
      | address b => exact ⟨_, rfl, by simp, by simp⟩
      | other => exact ⟨_, rfl, by simp, by simp⟩

/-- Witness of C14: the hash `trimmedTxHash`, a valid hash without its last
character, and the hash `longInvalidTxHash` of 129 characters, on which the
decoding returns at the first character. -/
theorem C14_Transaction_undecodable_witness :
    (HexStringToIdentifier trimmedTxHash ≠ IdentifierOutcome.aborts
        ∧ (∀ id : Identifier, HexStringToIdentifier trimmedTxHash ≠ IdentifierOutcome.ok id)
        ∧ Validator.Transaction sampleTxHashInvalid ⟨trimmedTxHash⟩
            = TransactionOutcome.returns ZeroID
                (some ⟨failure.NewDescription sampleTxHashInvalid, trimmedTxHash⟩))
      ∧ longInvalidTxHash.length = 129
      ∧ HexStringToIdentifier longInvalidTxHash ≠ IdentifierOutcome.aborts
      ∧ (∀ id : Identifier, HexStringToIdentifier longInvalidTxHash ≠ IdentifierOutcome.ok id)
      ∧ Validator.Transaction sampleTxHashInvalid ⟨longInvalidTxHash⟩
          = TransactionOutcome.returns ZeroID
              (some ⟨failure.NewDescription sampleTxHashInvalid, longInvalidTxHash⟩) :=
  have hnot : ∀ id : Identifier,
      HexStringToIdentifier trimmedTxHash ≠ IdentifierOutcome.ok id := by
    have e : HexStringToIdentifier trimmedTxHash
        = IdentifierOutcome.error (IdentifierError.decode HexError.ErrLength) := by decide
    intro id h
    rw [e] at h
    cases h
  have hlong : HexStringToIdentifier longInvalidTxHash
      = IdentifierOutcome.error (IdentifierError.decode (HexError.InvalidByteError 122)) := by
    decide
  have hnotlong : ∀ id : Identifier,
      HexStringToIdentifier longInvalidTxHash ≠ IdentifierOutcome.ok id := by
    intro id h
    rw [hlong] at h
    cases h
  ⟨⟨by decide, hnot,
      (C14_Transaction_undecodable sampleTxHashInvalid trimmedTxHash (by decide) hnot).1⟩,
    rfl, by decide, hnotlong,
    (C14_Transaction_undecodable sampleTxHashInvalid longInvalidTxHash (by decide)
      hnotlong).1⟩

/-- C14 as stated fails: the hash `trimmedTxHash`, a valid hash without its
last character, does not decode (odd length), and `Validator.Transaction`
fails with a failure of type `InvalidTransaction`, which `apiError` reports
with the status 422, not with a length failure of type
`InvalidTransactionHash`. -/
theorem C14_Transaction_undecodable_counterexample :
    HexStringToIdentifier trimmedTxHash
        = IdentifierOutcome.error (IdentifierError.decode HexError.ErrLength)
      ∧ Validator.Transaction sampleTxHashInvalid ⟨trimmedTxHash⟩
          = TransactionOutcome.returns ZeroID
              (some ⟨failure.NewDescription sampleTxHashInvalid, trimmedTxHash⟩)
      ∧ (Failure.InvalidTransaction
            ⟨failure.NewDescription sampleTxHashInvalid, trimmedTxHash⟩).kind
          = Kind.InvalidTransaction
      ∧ (apiError sampleCodes sampleDefinitions "unable to retrieve transaction"
            (GoError.ofFailure "invalid transaction"
              (Failure.InvalidTransaction
                ⟨failure.NewDescription sampleTxHashInvalid, trimmedTxHash⟩))).Code = 422 := by
  refine ⟨by decide, by decide, rfl, rfl⟩

/-- Witness of C15: the hash `invalidTxHash`, whose last character is `z`. -/
theorem C15_Transaction_non_hex_witness :
    invalidTxHash.length ≤ 64
      ∧ (∃ c ∈ invalidTxHash.toList, isHexDigit c = false)
      ∧ Validator.Transaction sampleTxHashInvalid ⟨invalidTxHash⟩
          = TransactionOutcome.returns ZeroID
              (some ⟨failure.NewDescription sampleTxHashInvalid, invalidTxHash⟩)
      ∧ (apiError sampleCodes sampleDefinitions "unable to retrieve transaction"
            (GoError.ofFailure "invalid transaction"
              (Failure.InvalidTransaction
                ⟨failure.NewDescription sampleTxHashInvalid, invalidTxHash⟩))).Message.detail
            "hash" = some (GoValue.string invalidTxHash) :=
  have h := C15_Transaction_non_hex sampleTxHashInvalid invalidTxHash (by decide) (by decide)
  ⟨by decide, by decide, h.1,
    (h.2 sampleCodes sampleDefinitions "unable to retrieve transaction"
      (GoError.ofFailure "invalid transaction"
        (Failure.InvalidTransaction
          ⟨failure.NewDescription sampleTxHashInvalid, invalidTxHash⟩)) rfl).2.2⟩

/-- Witness of C16: the hash `testTxHash` in upper case comes back in lower
case. -/
theorem C16_Transaction_round_trip_witness :
    upperTxHash.length = 64
      ∧ (∀ c ∈ upperTxHash.toList, isHexDigit c = true)
      ∧ upperTxHash.toLower = testTxHash
      ∧ ∃ id : Identifier,
          Validator.Transaction sampleTxHashInvalid ⟨upperTxHash⟩
              = TransactionOutcome.returns id none
            ∧ id.String = upperTxHash.toLower :=
  match C16_Transaction_round_trip sampleTxHashInvalid upperTxHash (by decide) (by decide) with
  | ⟨id, h1, _, h3⟩ =>
    ⟨by decide, by decide, by rw [String.toLower, String.map_eq]; decide, id, h1, h3⟩

/-- Witness of C17: a withdrawal of 42. -/
theorem C17_EventToOperation_amount_witness :
    sampleWithdrawal.Payload
        = Payload.event [FieldValue.uint64 42, FieldValue.address sampleAddress]
      ∧ 42 < 2 ^ 63
      ∧ sampleWithdrawal.Type_ = sampleConverter.withdrawal
      ∧ sampleWithdrawal.Type_ ≠ sampleConverter.deposit
      ∧ ∃ op : object.Operation,
          Converter.EventToOperation sampleDps sampleConverter sampleWithdrawal
              = Except.ok op
            ∧ op.Amount.Value = FormatInt (-(42 : Nat)) :=
  have h := C17_EventToOperation_amount sampleDps sampleConverter sampleWithdrawal 42
    sampleAddress rfl
    (by decide)
  ⟨rfl, by decide, rfl, by decide, h.2.1 rfl (by decide)⟩

/-- Witness of C19: a withdrawal event with a nil address. -/
theorem C19_EventToOperation_nil_address_witness :
    sampleNilAddress.Payload = Payload.event [FieldValue.uint64 42, FieldValue.nil]
      ∧ Converter.EventToOperation sampleDps sampleConverter sampleNilAddress
          = Except.error EventError.ErrNoAddress :=
  ⟨rfl, C19_EventToOperation_nil_address sampleDps sampleConverter sampleNilAddress 42 rfl⟩

/-- Witness of C20: an event of the type `irrelevant` with an amount and an
address. -/
theorem C20_EventToOperation_unsupported_witness :
    sampleIrrelevant.Payload
        = Payload.event [FieldValue.uint64 42, FieldValue.address sampleAddress]
      ∧ sampleIrrelevant.Type_ ≠ sampleConverter.deposit
      ∧ sampleIrrelevant.Type_ ≠ sampleConverter.withdrawal
      ∧ Converter.EventToOperation sampleDps sampleConverter sampleIrrelevant
          = Except.error EventError.ErrNotSupported :=
  ⟨rfl, by decide, by decide,
    C20_EventToOperation_unsupported sampleDps sampleConverter sampleIrrelevant 42
      sampleAddress rfl (by decide)
      (by decide)⟩

/-- Witness of C21: an event with three fields. -/
theorem C21_EventToOperation_malformed_witness :
    sampleThreeFields.Payload
        = Payload.event [FieldValue.uint64 42, FieldValue.address sampleAddress,
            FieldValue.uint64 42]
      ∧ [FieldValue.uint64 42, FieldValue.address sampleAddress,
            FieldValue.uint64 42].length ≠ 2
      ∧ ∃ err : EventError,
          Converter.EventToOperation sampleDps sampleConverter sampleThreeFields
              = Except.error err
            ∧ err ≠ EventError.ErrNoAddress ∧ err ≠ EventError.ErrNotSupported :=
  ⟨rfl, by decide,
    C21_EventToOperation_malformed sampleDps sampleConverter sampleThreeFields _ rfl
      (Or.inl (by decide))⟩

/-! ## The fields of an operation, `New`, and the frame of `rosettaError` -/

theorem length_hexEncode (bs : List (Fin 256)) : (hexEncode bs).length = 2 * bs.length := by
  induction bs with
  | nil => rfl
  | cons b bs ih =>
    simp only [hexEncode, String.length, List.flatMap_cons, List.length_append,
      List.length_cons, List.length_nil] at ih ⊢
    omega

theorem hexDigit_mem (n : Nat) : hexDigit n ∈ "0123456789abcdef".toList := by
  unfold hexDigit
  by_cases h : n < 16
  · interval_cases n <;> decide
  · rw [List.getD_eq_default _ _ (by simpa using h)]
    decide

theorem hexEncode_lower (bs : List (Fin 256)) :
    ∀ ch ∈ (hexEncode bs).toList, ch ∈ "0123456789abcdef".toList := by
  induction bs with
  | nil => intro ch hch; cases hch
  | cons b bs ih =>
    intro ch hch
    have ih2 : ∀ ch ∈ bs.flatMap (fun b => [hexDigit (b.val / 16), hexDigit (b.val % 16)]),
        ch ∈ "0123456789abcdef".toList := ih
    simp only [hexEncode, String.toList, List.flatMap_cons, List.cons_append,
      List.nil_append, List.mem_cons] at hch
    rcases hch with h1 | h2 | h3
    · rw [h1]; exact hexDigit_mem _
    · rw [h2]; exact hexDigit_mem _
    · exact ih2 ch h3

/-- C22: whenever `EventToOperation` succeeds, the event holds a `uint64`
amount and an address of eight bytes, and the operation has the status
`StatusCompleted`, the type `OperationTransfer`, the currency
(`FlowSymbol`, `FlowDecimals`), a non-nil network index equal to the index of
the event, and as account address the sixteen lower-case hexadecimal digits of
the address bytes, which are `0102030405060708` for the bytes 1 to 8; the
amount and the type of the event do not occur in any of these. -/
theorem C22_EventToOperation_fields (dps : DpsConstants) (c : Converter) (event : Event)
    (op : object.Operation)
    (h : Converter.EventToOperation dps c event = Except.ok op) :
    op.Status = dps.StatusCompleted
      ∧ op.Type_ = dps.OperationTransfer
      ∧ op.Amount.Currency = ⟨dps.FlowSymbol, dps.FlowDecimals⟩
      ∧ op.ID.NetworkIndex = some event.EventIndex
      ∧ (∃ (uAmount : Nat) (bAddress : Address),
          event.Payload
              = Payload.event [FieldValue.uint64 uAmount, FieldValue.address bAddress]
            ∧ op.AccountID.Address = hexEncode bAddress.bytes
            ∧ op.AccountID.Address.length = 16
            ∧ ∀ ch ∈ op.AccountID.Address.toList, ch ∈ "0123456789abcdef".toList)
      ∧ hexEncode [1, 2, 3, 4, 5, 6, 7, 8] = "0102030405060708" := by
  have key : ∃ (uAmount : Nat) (bAddress : Address) (amount : Int),
      event.Payload = Payload.event [FieldValue.uint64 uAmount, FieldValue.address bAddress]
        ∧ op = Converter.operation dps event bAddress amount := by
    unfold Converter.EventToOperation at h
    split at h
    · cases h
    · cases h
    · rename_i Fields hp
      split at h
      · rename_i vAmount vAddress
        split at h
        · rename_i uAmount
          split at h
          · cases h
          · rename_i bAddress
            simp only at h
            split_ifs at h
            · cases h; exact ⟨uAmount, bAddress, _, hp, rfl⟩
            · cases h; exact ⟨uAmount, bAddress, _, hp, rfl⟩
          · cases h
        · cases h
      · cases h
  obtain ⟨uAmount, bAddress, amount, hp, rfl⟩ := key
  refine ⟨rfl, rfl, rfl, rfl, ⟨uAmount, bAddress, hp, rfl, ?_, ?_⟩, by decide⟩
  · show (hexEncode bAddress.bytes).length = 16
    rw [length_hexEncode, bAddress.size]
  · exact hexEncode_lower bAddress.bytes

/-- Witness of C22: the deposit of the tests, to the address with the bytes
1 to 8. -/
theorem C22_EventToOperation_fields_witness :
    Converter.EventToOperation sampleDps sampleConverter sampleDeposit
        = Except.ok (Converter.operation sampleDps sampleDeposit sampleAddress 42)
      ∧ (Converter.operation sampleDps sampleDeposit sampleAddress 42).AccountID.Address
          = "0102030405060708"
      ∧ (Converter.operation sampleDps sampleDeposit sampleAddress 42).Status
          = sampleDps.StatusCompleted :=
  ⟨rfl, by decide,
    (C22_EventToOperation_fields sampleDps sampleConverter sampleDeposit _ rfl).1⟩

/-- C23: for every generator, `New` returns a converter and a nil error
exactly when `TokensDeposited(FlowSymbol)` and `TokensWithdrawn(FlowSymbol)`
both succeed, and the event types of the converter are then the two strings
returned; when either call fails, `New` returns a nil converter and an
error. -/
theorem C23_New (dps : DpsConstants) (gen : converter.Generator) :
    ((∃ c : Converter, New dps gen = Except.ok c)
        ↔ ∃ deposit withdrawal : String,
            gen.TokensDeposited dps.FlowSymbol = Except.ok deposit
              ∧ gen.TokensWithdrawn dps.FlowSymbol = Except.ok withdrawal)
      ∧ (∀ c : Converter, New dps gen = Except.ok c →
          gen.TokensDeposited dps.FlowSymbol = Except.ok c.deposit
            ∧ gen.TokensWithdrawn dps.FlowSymbol = Except.ok c.withdrawal)
      ∧ (∀ deposit withdrawal : String,
          gen.TokensDeposited dps.FlowSymbol = Except.ok deposit →
          gen.TokensWithdrawn dps.FlowSymbol = Except.ok withdrawal →
            New dps gen = Except.ok ⟨deposit, withdrawal⟩)
      ∧ (((∃ cause, gen.TokensDeposited dps.FlowSymbol = Except.error cause)
            ∨ ∃ cause, gen.TokensWithdrawn dps.FlowSymbol = Except.error cause) →
          ∃ err : NewError, New dps gen = Except.error err) := by
  unfold New
  cases hd : gen.TokensDeposited dps.FlowSymbol with
  | error e =>
    refine ⟨⟨?_, ?_⟩, ?_, ?_, ?_⟩
    · rintro ⟨c, hc⟩; cases hc
    · rintro ⟨d, w, h, _⟩; cases h
    · intro c hc; cases hc
    · intro d w h; cases h
    · intro _; exact ⟨_, rfl⟩
  | ok d =>
    cases hw : gen.TokensWithdrawn dps.FlowSymbol with
    | error e =>
      refine ⟨⟨?_, ?_⟩, ?_, ?_, ?_⟩
      · rintro ⟨c, hc⟩; cases hc
      · rintro ⟨d, w, _, h⟩; cases h
      · intro c hc; cases hc
      · intro d w _ h; cases h
      · intro _; exact ⟨_, rfl⟩
    | ok w =>
      refine ⟨⟨?_, ?_⟩, ?_, ?_, ?_⟩
      · intro _; exact ⟨d, w, rfl, rfl⟩
      · intro _; exact ⟨_, rfl⟩
      · intro c hc; cases hc; exact ⟨rfl, rfl⟩
      · intro d2 w2 h1 h2; cases h1; cases h2; rfl
      · rintro (⟨cause, h⟩ | ⟨cause, h⟩) <;> cases h

/-- Witness of C23: the generator of the tests yields the converter of the
tests, and a generator that fails on the withdrawal event type yields an
error. -/
theorem C23_New_witness :
    New sampleDps sampleGenerator = Except.ok sampleConverter
      ∧ ∃ err : NewError, New sampleDps sampleFailingGenerator = Except.error err :=
  ⟨(C23_New sampleDps sampleGenerator).2.2.1 _ _ rfl rfl,
    (C23_New sampleDps sampleFailingGenerator).2.2.2 (Or.inr ⟨"dummy error", rfl⟩)⟩
/-- C27: the ninth test of `apiError` asks `errors.As` for a
`failure.InvalidAccount` and the sixteenth for a `failure.InvalidPayer`, both
already tested for and not found, so neither branch is taken. For every error
and description: when the registry keeps `ErrorInvalidAuthorizers` apart from
the definitions of the other branches, the response does not have the
definition `ErrorInvalidAuthorizers`, and likewise for `ErrorInvalidKey`; and
an error whose only failure is a `failure.InvalidAuthorizers`, or a
`failure.InvalidKey`, gets the response `internal` with the status
`statusInternalServerError`. -/
theorem C27_apiError_unreachable (codes : StatusCodes) (defs : Definitions)
    (description : String) (err : GoError) :
    (defs.authorizersApart →
        (apiError codes defs description err).Message.ErrorDefinition
          ≠ defs.ErrorInvalidAuthorizers)
      ∧ (defs.keyApart →
        (apiError codes defs description err).Message.ErrorDefinition ≠ defs.ErrorInvalidKey)
      ∧ (∀ f : failure.InvalidAuthorizers, err.failures = [Failure.InvalidAuthorizers f] →
        apiError codes defs description err
          = ⟨codes.statusInternalServerError, internal defs description err⟩)
      ∧ (∀ f : failure.InvalidKey, err.failures = [Failure.InvalidKey f] →
        apiError codes defs description err
          = ⟨codes.statusInternalServerError, internal defs description err⟩) := by
  refine ⟨fun hapart => ?_, fun hapart => ?_, fun f h => ?_, fun f h => ?_⟩
  · have hd : ∀ d ∈ [defs.ErrorInternal, defs.ErrorInvalidFormat, defs.ErrorInvalidNetwork,
        defs.ErrorInvalidAccount, defs.ErrorInvalidCurrency, defs.ErrorInvalidBlock,
        defs.ErrorInvalidTransaction, defs.ErrorUnknownCurrency, defs.ErrorUnknownBlock,
        defs.ErrorUnknownTransaction, defs.ErrorInvalidIntent, defs.ErrorInvalidSignatures,
        defs.ErrorInvalidPayer, defs.ErrorInvalidProposer, defs.ErrorInvalidScript,
        defs.ErrorInvalidArguments, defs.ErrorInvalidAmount, defs.ErrorInvalidReceiver,
        defs.ErrorInvalidSignature, defs.ErrorInvalidPayload],
        d ≠ defs.ErrorInvalidAuthorizers := hapart
    simp only [List.forall_mem_cons, List.not_mem_nil, false_implies, implies_true,
      and_true] at hd
    unfold apiError
    repeat' split
    all_goals first
      | (exfalso
         simp_all
         done)
      | (intro h
         simp only [invalidNetwork, invalidBlock, unknownBlock, invalidAccount, invalidCurrency,
           unknownCurrency, invalidTransaction, unknownTransaction, invalidFormat,
           invalidPayer, invalidProposer, invalidSignature, invalidSignatures, invalidIntent,
           invalidScript, invalidArguments, invalidAmount, invalidReceiver,
           invalidPayload, internal, rosettaError, definition_convertError] at h
         simp [h] at hd)
  · have hd : ∀ d ∈ [defs.ErrorInternal, defs.ErrorInvalidFormat, defs.ErrorInvalidNetwork,
        defs.ErrorInvalidAccount, defs.ErrorInvalidCurrency, defs.ErrorInvalidBlock,
        defs.ErrorInvalidTransaction, defs.ErrorUnknownCurrency, defs.ErrorUnknownBlock,
        defs.ErrorUnknownTransaction, defs.ErrorInvalidIntent, defs.ErrorInvalidSignatures,
        defs.ErrorInvalidPayer, defs.ErrorInvalidProposer, defs.ErrorInvalidScript,
        defs.ErrorInvalidArguments, defs.ErrorInvalidAmount, defs.ErrorInvalidReceiver,
        defs.ErrorInvalidSignature, defs.ErrorInvalidPayload],
        d ≠ defs.ErrorInvalidKey := hapart
    simp only [List.forall_mem_cons, List.not_mem_nil, false_implies, implies_true,
      and_true] at hd
    unfold apiError
    repeat' split
    all_goals first
      | (exfalso
         simp_all
         done)
      | (intro h
         simp only [invalidNetwork, invalidBlock, unknownBlock, invalidAccount, invalidCurrency,
           unknownCurrency, invalidTransaction, unknownTransaction, invalidFormat,
           invalidPayer, invalidProposer, invalidSignature, invalidSignatures, invalidIntent,
           invalidScript, invalidArguments, invalidAmount, invalidReceiver,
           invalidPayload, internal, rosettaError, definition_convertError] at h
         simp [h] at hd)
  · simp only [apiError, errorsAs_eq_failures, h]
    rfl
  · simp only [apiError, errorsAs_eq_failures, h]
    rfl

/-- Witness of C27: the registry `sampleDefinitions`, and the errors that are
a single `InvalidAuthorizers` and a single `InvalidKey` failure. -/
theorem C27_apiError_unreachable_witness :
    sampleDefinitions.authorizersApart
      ∧ sampleDefinitions.keyApart
      ∧ (apiError sampleCodes sampleDefinitions "unable to parse transaction"
            sampleAuthorizersError).Message.ErrorDefinition
          ≠ sampleDefinitions.ErrorInvalidAuthorizers
      ∧ (apiError sampleCodes sampleDefinitions "unable to parse transaction"
            sampleKeyError).Message.ErrorDefinition
          ≠ sampleDefinitions.ErrorInvalidKey
      ∧ sampleAuthorizersError.failures = [Failure.InvalidAuthorizers sampleAuthorizers]
      ∧ (apiError sampleCodes sampleDefinitions "unable to parse transaction"
            sampleAuthorizersError).Code = 500
      ∧ sampleKeyError.failures = [Failure.InvalidKey sampleKey]
      ∧ (apiError sampleCodes sampleDefinitions "unable to parse transaction"
            sampleKeyError).Code = 500 :=
  ⟨by decide, by decide,
    (C27_apiError_unreachable sampleCodes sampleDefinitions "unable to parse transaction"
      sampleAuthorizersError).1 (by decide),
    (C27_apiError_unreachable sampleCodes sampleDefinitions "unable to parse transaction"
      sampleKeyError).2.1 (by decide),
    rfl,
    congrArg HTTPError.Code
      ((C27_apiError_unreachable sampleCodes sampleDefinitions "unable to parse transaction"
        sampleAuthorizersError).2.2.1 sampleAuthorizers rfl),
    rfl,
    congrArg HTTPError.Code
      ((C27_apiError_unreachable sampleCodes sampleDefinitions "unable to parse transaction"
        sampleKeyError).2.2.2 sampleKey rfl)⟩

/-- C28: for every definition, description and list of detail functions,
`rosettaError` returns an error with exactly this definition and exactly this
description, whose details are the non-nil map that results from applying the
detail functions in order to an empty map; when the detail functions set
entries, the map holds for every key the value set last. -/
theorem C28_rosettaError_frame (definition : ErrorDefinition) (description : String)
    (details : List detailFunc) :
    (rosettaError definition description details).ErrorDefinition = definition
      ∧ (rosettaError definition description details).Description = description
      ∧ (rosettaError definition description details).Details
          = some (details.foldl (fun dd detail => detail dd) DetailMap.empty)
      ∧ (rosettaError definition description []).Details = some DetailMap.empty
      ∧ (∀ detail : detailFunc,
          (rosettaError definition description (details ++ [detail])).Details
            = (rosettaError definition description details).Details.map detail)
      ∧ (∀ (entries : List (String × GoValue)) (key : String),
          (rosettaError definition description
              (entries.map fun entry => withDetail entry.1 entry.2)).detail key
            = lastField entries key)
      ∧ ∀ (key : String) (first last : GoValue),
          (rosettaError definition description
              [withDetail key first, withDetail key last]).detail key = some last := by
  refine ⟨rfl, rfl, rfl, rfl, fun detail => ?_, fun entries key => ?_, fun key first last => ?_⟩
  · simp [rosettaError, List.foldl_append]
  · simp only [rosettaError, Error.detail, Option.bind, foldl_withDetail]
    cases lastField entries key <;> rfl
  · simp [rosettaError, Error.detail, withDetail, DetailMap.set]

/-- C29: evaluation of `formatError` and `apiError` at errors that are a
single failure. For a `failure.InvalidNetwork` both answer with the status
`statusUnprocessableEntity` and the response `invalidNetwork`. For a
`failure.InvalidBlockchain`, `formatError` answers with the status
`statusUnprocessableEntity` and the response `invalidBlockchain`, whereas
`apiError`, which has no test for this type, answers with the status
`statusInternalServerError` and the response `internal`: with the status
codes 400, 422 and 500 and the registry `sampleDefinitions` the two statuses,
definitions and descriptions differ. -/
theorem C29_network_failures (codes : StatusCodes) (defs : Definitions)
    (description text : String) (inErr : failure.InvalidNetwork)
    (iblErr : failure.InvalidBlockchain) :
    formatError codes defs (GoError.ofFailure text (Failure.InvalidNetwork inErr))
        = ⟨codes.statusUnprocessableEntity, invalidNetwork defs inErr⟩
      ∧ apiError codes defs description
            (GoError.ofFailure text (Failure.InvalidNetwork inErr))
          = ⟨codes.statusUnprocessableEntity, invalidNetwork defs inErr⟩
      ∧ formatError codes defs (GoError.ofFailure text (Failure.InvalidBlockchain iblErr))
          = ⟨codes.statusUnprocessableEntity, invalidBlockchain defs iblErr⟩
      ∧ apiError codes defs description
            (GoError.ofFailure text (Failure.InvalidBlockchain iblErr))
          = ⟨codes.statusInternalServerError,
              internal defs description
                (GoError.ofFailure text (Failure.InvalidBlockchain iblErr))⟩
      ∧ (formatError sampleCodes sampleDefinitions
            (GoError.ofFailure "invalid blockchain"
              (Failure.InvalidBlockchain sampleBlockchain))).Code = 422
      ∧ (apiError sampleCodes sampleDefinitions "unable to retrieve block"
            (GoError.ofFailure "invalid blockchain"
              (Failure.InvalidBlockchain sampleBlockchain))).Code = 500
      ∧ (formatError sampleCodes sampleDefinitions
            (GoError.ofFailure "invalid blockchain"
              (Failure.InvalidBlockchain sampleBlockchain))).Message.ErrorDefinition
          ≠ (apiError sampleCodes sampleDefinitions "unable to retrieve block"
            (GoError.ofFailure "invalid blockchain"
              (Failure.InvalidBlockchain sampleBlockchain))).Message.ErrorDefinition
      ∧ (formatError sampleCodes sampleDefinitions
            (GoError.ofFailure "invalid blockchain"
              (Failure.InvalidBlockchain sampleBlockchain))).Message.Description
          ≠ (apiError sampleCodes sampleDefinitions "unable to retrieve block"
            (GoError.ofFailure "invalid blockchain"
              (Failure.InvalidBlockchain sampleBlockchain))).Message.Description :=
  ⟨rfl, rfl, rfl, rfl, rfl, rfl, by decide, by decide⟩

/-! ## The script of `GetBalance` -/

set_option maxRecDepth 100000 in
theorem Parse_getBalance :
    Parse getBalance
      = some [
        TemplateNode.text
          ("// This script reads the balance field of an account\x27s FlowToken Balance\n\n"
            ++ "import FungibleToken from 0x"),
        TemplateNode.action ".Params.FungibleToken",
        TemplateNode.text "\nimport ",
        TemplateNode.action ".Token.Type",
        TemplateNode.text " from 0x",
        TemplateNode.action ".Token.Address",
        TemplateNode.text
          ("\n\n"
            ++ "pub fun main(account: Address): UFix64 \x7b\n\n"
            ++ "    let vaultRef = getAccount(account)\n"
            ++ "        .getCapability("),
        TemplateNode.action ".Token.Balance",
        TemplateNode.text ")\n        .borrow<&",
        TemplateNode.action ".Token.Type",
        TemplateNode.text
          (".Vault\x7bFungibleToken.Balance\x7d>()\n"
            ++ "        ?? panic(\"Could not borrow Balance reference to the Vault\")\n\n"
            ++ "    return vaultRef.balance\n"
            ++ "\x7d\n")] := by
  decide

set_option maxRecDepth 100000 in
theorem balanceScript_actions :
    balanceScript ⟨"\x7b\x7b.Params.FungibleToken\x7d\x7d", fun _ => none⟩
        ⟨"\x7b\x7b.Token.Address\x7d\x7d", "\x7b\x7b.Token.Type\x7d\x7d",
          "\x7b\x7b.Token.Balance\x7d\x7d"⟩ = getBalance := by
  decide

set_option maxRecDepth 100000 in
theorem Execute_getBalance (nodes : List TemplateNode) (params : dps.Params)
    (token : dps.Token) (h : Parse getBalance = some nodes) :
    Execute nodes "" ⟨params, token⟩ = Except.ok (balanceScript params token) := by
  rw [Parse_getBalance] at h
  cases h
  simp only [Execute, TemplateData.eval, String.reduceEq, ↓reduceIte, balanceScript,
    Except.ok.injEq]
  apply String.ext
  simp [String.data_append]

/-- C26: for every symbol configured in the token parameters, the generator
made by `NewGenerator` returns from `GetBalance` a nil error and the text of
the template `getBalance` in which the action for `Params.FungibleToken`,
the two actions for `Token.Type`, the action for `Token.Address` and the
action for `Token.Balance` are replaced by the configured values, every other
character being kept: the script is `balanceScript`, which gives back
`getBalance` when each action is put in place of itself. The result is
determined by the parameters and the symbol, so two calls return the same
script. -/
theorem C26_GetBalance (templates : ScriptTemplates) (params : dps.Params)
    (symbol : String) (token : dps.Token) (h : params.Tokens symbol = some token) :
    (∃ g : scripts.Generator, NewGenerator templates params = some g
        ∧ g.GetBalance symbol = Except.ok (balanceScript params token)
        ∧ ∀ first second : Except GeneratorError String,
            g.GetBalance symbol = first → g.GetBalance symbol = second → first = second)
      ∧ balanceScript ⟨"\x7b\x7b.Params.FungibleToken\x7d\x7d", fun _ => none⟩
          ⟨"\x7b\x7b.Token.Address\x7d\x7d", "\x7b\x7b.Token.Type\x7d\x7d",
            "\x7b\x7b.Token.Balance\x7d\x7d"⟩ = getBalance := by
  have hparse := Parse_getBalance
  refine ⟨⟨⟨params, _, _, _, _⟩, by rw [NewGenerator, hparse], ?_,
    fun _ _ h1 h2 => h1.symm.trans h2⟩, balanceScript_actions⟩
  simp only [scripts.Generator.GetBalance, scripts.Generator.bytes,
    scripts.Generator.compile, h, Execute_getBalance _ params token hparse]

/-- Witness of C26: the symbol `FLOW` in `sampleParams`. -/
theorem C26_GetBalance_witness :
    sampleParams.Tokens "FLOW" = some sampleToken
      ∧ ∃ g : scripts.Generator, NewGenerator sampleTemplates sampleParams = some g
        ∧ g.GetBalance "FLOW" = Except.ok (balanceScript sampleParams sampleToken)
        ∧ ∀ first second : Except GeneratorError String,
            g.GetBalance "FLOW" = first → g.GetBalance "FLOW" = second → first = second :=
  ⟨rfl, (C26_GetBalance sampleTemplates sampleParams "FLOW" sampleToken rfl).1⟩

/-! ## The match of the pattern and the numbers read by `strconv` -/

theorem beforeLastParen_append (l : List Char) : beforeLastParen (l ++ [')']) = some l := by
  induction l with
  | nil => rfl
  | cons c l ih => simp [beforeLastParen, ih]

theorem matchValue_closed (val : List Char) (hne : val ≠ []) (hline : ∀ c ∈ val, c ≠ '\n') :
    matchValue (val ++ [')']) = some val := by
  have htake : (val ++ [')']).takeWhile (fun c => c ≠ '\n') = val ++ [')'] := by
    rw [List.takeWhile_eq_self_iff]
    intro c hc
    rcases List.mem_append.1 hc with h | h
    · simpa using hline c h
    · simp only [List.mem_singleton] at h
      subst h
      decide
  unfold matchValue
  rw [htake]
  cases val with
  | nil => exact absurd rfl hne
  | cons v vs => simp [beforeLastParen_append]

theorem FindStringSubmatch_typed (typ val : List Char) (htyp : typ ≠ [])
    (hword : ∀ c ∈ typ, isWordChar c = true) (hne : val ≠ [])
    (hline : ∀ c ∈ val, c ≠ '\n') :
    FindStringSubmatch (typ ++ '(' :: (val ++ [')'])) = some (typ, val) := by
  have htake : (typ ++ '(' :: (val ++ [')'])).takeWhile isWordChar = typ := by
    rw [List.takeWhile_append_of_pos hword]
    simp [List.takeWhile, show isWordChar '(' = false from by decide]
  have hdrop : (typ ++ '(' :: (val ++ [')'])).dropWhile isWordChar = '(' :: (val ++ [')']) := by
    rw [List.dropWhile_append_of_pos hword]
    simp [List.dropWhile, show isWordChar '(' = false from by decide]
  have hhere : matchHere (typ ++ '(' :: (val ++ [')'])) = some (typ, val) := by
    unfold matchHere
    rw [htake, hdrop]
    cases typ with
    | nil => exact absurd rfl htyp
    | cons t ts => simp [matchValue_closed val hne hline]
  cases typ with
  | nil => exact absurd rfl htyp
  | cons t ts =>
    simp only [List.cons_append] at hhere ⊢
    simp only [FindStringSubmatch, hhere]

theorem le_foldl_digits (cs : List Char) (n : Nat) :
    n ≤ cs.foldl (fun n c => n * 10 + (c.toNat - 48)) n := by
  induction cs generalizing n with
  | nil => exact Nat.le_refl n
  | cons c cs ih =>
    simp only [List.foldl]
    exact Nat.le_trans (by omega) (ih _)

theorem parseUintLoop_digits (maxVal : Nat) (hmax : maxVal < 2 ^ 64) (cs : List Char) (n : Nat)
    (hd : ∀ c ∈ cs, 48 ≤ c.toNat ∧ c.toNat ≤ 57) (hn : n ≤ maxVal) :
    parseUintLoop maxVal cs n
      = if cs.foldl (fun n c => n * 10 + (c.toNat - 48)) n ≤ maxVal
        then (cs.foldl (fun n c => n * 10 + (c.toNat - 48)) n, none)
        else (maxVal, some NumError.ErrRange) := by
  induction cs generalizing n with
  | nil => simp [parseUintLoop, hn]
  | cons c cs ih =>
    have hc := hd c (List.mem_cons_self _ _)
    have hcs : ∀ c ∈ cs, 48 ≤ c.toNat ∧ c.toNat ≤ 57 :=
      fun d hd2 => hd d (List.mem_cons_of_mem _ hd2)
    have hle := le_foldl_digits cs (n * 10 + (c.toNat - 48))
    simp only [parseUintLoop, digitOf, hc, and_self, if_true, List.foldl]
    by_cases h1 : n ≥ (2 ^ 64 - 1) / 10 + 1
    · rw [if_pos h1, if_neg (by omega)]
    · rw [if_neg h1]
      have e10 : n * 10 % 2 ^ 64 = n * 10 := Nat.mod_eq_of_lt (by omega)
      simp only [e10]
      by_cases h2 : n * 10 + (c.toNat - 48) ≤ maxVal
      · have e1 : (n * 10 + (c.toNat - 48)) % 2 ^ 64 = n * 10 + (c.toNat - 48) :=
          Nat.mod_eq_of_lt (by omega)
        rw [e1, if_neg (by omega), ih _ hcs h2]
      · rw [if_pos (by omega), if_neg (by omega)]

theorem ParseUint_digits (digits : List Char) (bitSize : Nat) (h : isDigits digits)
    (hb : bitSize = 8 ∨ bitSize = 16 ∨ bitSize = 32 ∨ bitSize = 64) :
    ParseUint digits bitSize
      = if decimalValue digits ≤ 2 ^ bitSize - 1 then (decimalValue digits, none)
        else (2 ^ bitSize - 1, some NumError.ErrRange) := by
  unfold ParseUint
  rw [if_neg h.1]
  rcases hb with rfl | rfl | rfl | rfl <;>
    exact parseUintLoop_digits _ (by norm_num) digits 0 h.2 (Nat.zero_le _)
theorem ParseInt_core (neg : Bool) (u bitSize : Nat)
    (hb : bitSize = 8 ∨ bitSize = 16 ∨ bitSize = 32 ∨ bitSize = 64) :
    (match (if u ≤ 2 ^ bitSize - 1 then (u, (none : Option NumError))
        else (2 ^ bitSize - 1, some NumError.ErrRange)) with
      | (_, some NumError.ErrSyntax) => (Except.error NumError.ErrSyntax : Except NumError Int)
      | (un, _) =>
        if neg = false ∧ un ≥ 2 ^ (bitSize - 1) then Except.error NumError.ErrRange
        else if neg = true ∧ un > 2 ^ (bitSize - 1) then Except.error NumError.ErrRange
        else Except.ok (if neg then wrapSigned 64 (-wrapSigned 64 un) else wrapSigned 64 un))
      = if -(2 ^ (bitSize - 1) : Int) ≤ (if neg then -(u : Int) else u)
            ∧ (if neg then -(u : Int) else u) < 2 ^ (bitSize - 1)
        then Except.ok (if neg then -(u : Int) else u)
        else Except.error NumError.ErrRange := by
  rcases hb with rfl | rfl | rfl | rfl
  · cases neg <;> by_cases hle : u ≤ 2 ^ 8 - 1 <;>
      simp only [hle, if_true, if_false, wrapSigned] <;>
      simp <;> split_ifs <;> first | omega | (rw [Except.ok.injEq]; omega) | rfl
  · cases neg <;> by_cases hle : u ≤ 2 ^ 16 - 1 <;>
      simp only [hle, if_true, if_false, wrapSigned] <;>
      simp <;> split_ifs <;> first | omega | (rw [Except.ok.injEq]; omega) | rfl
  · cases neg <;> by_cases hle : u ≤ 2 ^ 32 - 1 <;>
      simp only [hle, if_true, if_false, wrapSigned] <;>
      simp <;> split_ifs <;> first | omega | (rw [Except.ok.injEq]; omega) | rfl
  · cases neg <;> by_cases hle : u ≤ 2 ^ 64 - 1 <;>
      simp only [hle, if_true, if_false, wrapSigned] <;>
      simp <;> split_ifs <;> first | omega | (rw [Except.ok.injEq]; omega) | rfl

theorem ParseInt_literal (sign : Sign) (digits : List Char) (bitSize : Nat)
    (h : isDigits digits)
    (hb : bitSize = 8 ∨ bitSize = 16 ∨ bitSize = 32 ∨ bitSize = 64) :
    ParseInt (sign.chars ++ digits) bitSize
      = if -(2 ^ (bitSize - 1) : Int) ≤ literalValue sign digits
            ∧ literalValue sign digits < 2 ^ (bitSize - 1)
        then Except.ok (literalValue sign digits)
        else Except.error NumError.ErrRange := by
  obtain ⟨c, cs, rfl⟩ : ∃ c cs, digits = c :: cs := by
    cases digits with
    | nil => exact absurd rfl h.1
    | cons c cs => exact ⟨c, cs, rfl⟩
  have hc := h.2 c (List.mem_cons_self _ _)
  have hplus : c ≠ '+' := fun e => by rw [e] at hc; revert hc; decide
  have hminus : c ≠ '-' := fun e => by rw [e] at hc; revert hc; decide
  have hu := ParseUint_digits (c :: cs) bitSize h hb
  have hbz : bitSize ≠ 0 := by omega
  have hcore := fun neg => ParseInt_core neg (decimalValue (c :: cs)) bitSize hb
  cases sign
  · have := hcore false
    simp only [ParseInt, Sign.chars, List.nil_append, hplus, hminus, or_self, if_false, hu,
      hbz, literalValue, decide_False] at this ⊢
    simpa using this
  · have := hcore false
    simp only [ParseInt, Sign.chars, List.cons_append, List.nil_append, true_or, if_true, hu,
      hbz, literalValue, if_false] at this ⊢
    simpa using this
  · have := hcore true
    simp only [ParseInt, Sign.chars, List.cons_append, List.nil_append, or_true, if_true, hu,
      hbz, literalValue, if_false] at this ⊢
    simpa using this
/-! ## The results of `ParseCadenceArgument` -/

theorem FindStringSubmatch_typedLiteral (typ : String) (sign : Sign) (digits : List Char)
    (htyp : typ.toList ≠ []) (hword : ∀ c ∈ typ.toList, isWordChar c = true)
    (h : isDigits digits) :
    FindStringSubmatch (typedLiteral typ sign digits).toList
      = some (typ.toList, sign.chars ++ digits) := by
  have hlist : (typedLiteral typ sign digits).toList
      = typ.toList ++ '(' :: ((sign.chars ++ digits) ++ [')']) := by
    simp [typedLiteral, String.toList]
  rw [hlist]
  apply FindStringSubmatch_typed _ _ htyp hword
  · cases sign <;> simp [Sign.chars, h.1]
  · intro c hc
    rcases List.mem_append.1 hc with hs | hd
    · cases sign <;> simp [Sign.chars] at hs <;> subst hs <;> decide
    · have := h.2 c hd
      intro e
      rw [e] at this
      revert this
      decide

theorem ParseUint_zero (s : List Char) : ParseUint s 0 = ParseUint s 64 := by
  simp [ParseUint, IntSize]

theorem ParseInt_zero (s : List Char) : ParseInt s 0 = ParseInt s 64 := by
  cases s with
  | nil => rfl
  | cons c cs => simp [ParseInt, ParseUint_zero, IntSize]

theorem ParseCadenceArgument_Int (fixed : FixedPoint) (sign : Sign) (digits : List Char)
    (h : isDigits digits) :
    ParseCadenceArgument fixed (typedLiteral "Int" sign digits)
      = if -(2 ^ 63 : Int) ≤ literalValue sign digits ∧ literalValue sign digits < 2 ^ 63
        then Except.ok (cadence.Value.NewInt (literalValue sign digits))
        else Except.error (ParseError.couldNotParseInteger NumError.ErrRange) := by
  have hfind := FindStringSubmatch_typedLiteral "Int" sign digits (by decide) (by decide) h
  have hparse := ParseInt_literal sign digits 64 h (by decide)
  have hmk : String.mk "Int".toList = "Int" := rfl
  simp only [ParseCadenceArgument, hfind, hmk, String.reduceEq, ↓reduceIte]
  rw [ParseInt_zero, hparse]
  by_cases hr : -(2 ^ (64 - 1) : Int) ≤ literalValue sign digits
      ∧ literalValue sign digits < 2 ^ (64 - 1)
  · have hr2 : -(2 ^ 63 : Int) ≤ literalValue sign digits
        ∧ literalValue sign digits < 2 ^ 63 := hr
    rw [if_pos hr, if_pos hr2]
    simp only [Except.ok.injEq, cadence.Value.NewInt.injEq, wrapSigned, IntSize]
    have h1 := hr2.1
    have h2 := hr2.2
    norm_num at h1 h2 ⊢
    omega
  · have hr2 : ¬(-(2 ^ 63 : Int) ≤ literalValue sign digits
        ∧ literalValue sign digits < 2 ^ 63) := hr
    rw [if_neg hr, if_neg hr2]

theorem ParseCadenceArgument_signed (fixed : FixedPoint) (sign : Sign) (digits : List Char)
    (h : isDigits digits) (entry : FixedWidth Int) (hentry : entry ∈ signedTypes) :
    ParseCadenceArgument fixed (typedLiteral entry.name sign digits)
      = if -(2 ^ (entry.bits - 1) : Int) ≤ literalValue sign digits
            ∧ literalValue sign digits < 2 ^ (entry.bits - 1)
        then Except.ok (entry.make (literalValue sign digits))
        else Except.error (ParseError.couldNotParseInteger NumError.ErrRange) := by
  simp only [signedTypes, List.mem_cons, List.mem_singleton, List.not_mem_nil, or_false]
    at hentry
  rcases hentry with rfl | rfl | rfl | rfl
  · have hfind := FindStringSubmatch_typedLiteral "Int8" sign digits (by decide) (by decide) h
    have hparse := ParseInt_literal sign digits 8 h (by decide)
    have hmk : String.mk "Int8".toList = "Int8" := rfl
    simp only [ParseCadenceArgument, hfind, hmk, String.reduceEq, ↓reduceIte]
    rw [hparse]
    split_ifs with hr
    · simp only [Except.ok.injEq, cadence.Value.NewInt8.injEq, wrapSigned]
      have h1 := hr.1
      have h2 := hr.2
      norm_num at h1 h2 ⊢
      omega
    · rfl
  · have hfind := FindStringSubmatch_typedLiteral "Int16" sign digits (by decide) (by decide) h
    have hparse := ParseInt_literal sign digits 16 h (by decide)
    have hmk : String.mk "Int16".toList = "Int16" := rfl
    simp only [ParseCadenceArgument, hfind, hmk, String.reduceEq, ↓reduceIte]
    rw [hparse]
    split_ifs with hr
    · simp only [Except.ok.injEq, cadence.Value.NewInt16.injEq, wrapSigned]
      have h1 := hr.1
      have h2 := hr.2
      norm_num at h1 h2 ⊢
      omega
    · rfl
  · have hfind := FindStringSubmatch_typedLiteral "Int32" sign digits (by decide) (by decide) h
    have hparse := ParseInt_literal sign digits 32 h (by decide)
    have hmk : String.mk "Int32".toList = "Int32" := rfl
    simp only [ParseCadenceArgument, hfind, hmk, String.reduceEq, ↓reduceIte]
    rw [hparse]
    split_ifs with hr
    · simp only [Except.ok.injEq, cadence.Value.NewInt32.injEq, wrapSigned]
      have h1 := hr.1
      have h2 := hr.2
      norm_num at h1 h2 ⊢
      omega
    · rfl
  · have hfind := FindStringSubmatch_typedLiteral "Int64" sign digits (by decide) (by decide) h
    have hparse := ParseInt_literal sign digits 64 h (by decide)
    have hmk : String.mk "Int64".toList = "Int64" := rfl
    simp only [ParseCadenceArgument, hfind, hmk, String.reduceEq, ↓reduceIte]
    rw [hparse]
    split_ifs with hr
    · rfl
    · rfl

theorem ParseUint_signed (sign : Sign) (digits : List Char) (bitSize : Nat)
    (hsign : sign ≠ Sign.none) :
    ParseUint (sign.chars ++ digits) bitSize = (0, some NumError.ErrSyntax) := by
  cases sign with
  | none => exact absurd rfl hsign
  | plus => simp [ParseUint, Sign.chars, parseUintLoop, digitOf]
  | minus => simp [ParseUint, Sign.chars, parseUintLoop, digitOf]

theorem ParseCadenceArgument_unsigned (fixed : FixedPoint) (sign : Sign)
    (digits : List Char) (h : isDigits digits) (entry : FixedWidth Nat)
    (hentry : entry ∈ unsignedTypes) :
    (decimalValue digits < 2 ^ entry.bits →
        ParseCadenceArgument fixed (typedLiteral entry.name Sign.none digits)
          = Except.ok (entry.make (decimalValue digits)))
      ∧ (¬decimalValue digits < 2 ^ entry.bits →
        ∃ err, ParseCadenceArgument fixed (typedLiteral entry.name Sign.none digits)
          = Except.error err)
      ∧ (sign ≠ Sign.none →
        ∃ err, ParseCadenceArgument fixed (typedLiteral entry.name sign digits)
          = Except.error err) := by
  simp only [unsignedTypes, List.mem_cons, List.mem_singleton, List.not_mem_nil, or_false]
    at hentry
  rcases hentry with rfl | rfl | rfl | rfl
  · have hfind := fun sign =>
      FindStringSubmatch_typedLiteral "UInt8" sign digits (by decide) (by decide) h
    have hparse := ParseUint_digits digits 8 h (by decide)
    have hmk : String.mk "UInt8".toList = "UInt8" := rfl
    refine ⟨fun hr => ?_, fun hr => ?_, fun hs => ?_⟩
    · simp only [ParseCadenceArgument, hfind, hmk, String.reduceEq, ↓reduceIte, Sign.chars,
        List.nil_append, hparse]
      rw [if_pos (by norm_num at hr ⊢; omega)]
      simp only [Except.ok.injEq, cadence.Value.NewUInt8.injEq]
      norm_num at hr ⊢
      omega
    · simp only [ParseCadenceArgument, hfind, hmk, String.reduceEq, ↓reduceIte, Sign.chars,
        List.nil_append, hparse]
      rw [if_neg (by norm_num at hr ⊢; omega)]
      exact ⟨_, rfl⟩
    · simp only [ParseCadenceArgument, hfind, hmk, String.reduceEq, ↓reduceIte,
        ParseUint_signed sign digits _ hs]
      exact ⟨_, rfl⟩
  · have hfind := fun sign =>
      FindStringSubmatch_typedLiteral "UInt16" sign digits (by decide) (by decide) h
    have hparse := ParseUint_digits digits 16 h (by decide)
    have hmk : String.mk "UInt16".toList = "UInt16" := rfl
    refine ⟨fun hr => ?_, fun hr => ?_, fun hs => ?_⟩
    · simp only [ParseCadenceArgument, hfind, hmk, String.reduceEq, ↓reduceIte, Sign.chars,
        List.nil_append, hparse]
      rw [if_pos (by norm_num at hr ⊢; omega)]
      simp only [Except.ok.injEq, cadence.Value.NewUInt16.injEq]
      norm_num at hr ⊢
      omega
    · simp only [ParseCadenceArgument, hfind, hmk, String.reduceEq, ↓reduceIte, Sign.chars,
        List.nil_append, hparse]
      rw [if_neg (by norm_num at hr ⊢; omega)]
      exact ⟨_, rfl⟩
    · simp only [ParseCadenceArgument, hfind, hmk, String.reduceEq, ↓reduceIte,
        ParseUint_signed sign digits _ hs]
      exact ⟨_, rfl⟩
  · have hfind := fun sign =>
      FindStringSubmatch_typedLiteral "UInt32" sign digits (by decide) (by decide) h
    have hparse := ParseUint_digits digits 32 h (by decide)
    have hmk : String.mk "UInt32".toList = "UInt32" := rfl
    refine ⟨fun hr => ?_, fun hr => ?_, fun hs => ?_⟩
    · simp only [ParseCadenceArgument, hfind, hmk, String.reduceEq, ↓reduceIte, Sign.chars,
        List.nil_append, hparse]
      rw [if_pos (by norm_num at hr ⊢; omega)]
      simp only [Except.ok.injEq, cadence.Value.NewUInt32.injEq]
      norm_num at hr ⊢
      omega
    · simp only [ParseCadenceArgument, hfind, hmk, String.reduceEq, ↓reduceIte, Sign.chars,
        List.nil_append, hparse]
      rw [if_neg (by norm_num at hr ⊢; omega)]
      exact ⟨_, rfl⟩
    · simp only [ParseCadenceArgument, hfind, hmk, String.reduceEq, ↓reduceIte,
        ParseUint_signed sign digits _ hs]
      exact ⟨_, rfl⟩
  · have hfind := fun sign =>
      FindStringSubmatch_typedLiteral "UInt64" sign digits (by decide) (by decide) h
    have hparse := ParseUint_digits digits 64 h (by decide)
    have hmk : String.mk "UInt64".toList = "UInt64" := rfl
    refine ⟨fun hr => ?_, fun hr => ?_, fun hs => ?_⟩
    · simp only [ParseCadenceArgument, hfind, hmk, String.reduceEq, ↓reduceIte, Sign.chars,
        List.nil_append, hparse]
      rw [if_pos (by norm_num at hr ⊢; omega)]
    · simp only [ParseCadenceArgument, hfind, hmk, String.reduceEq, ↓reduceIte, Sign.chars,
        List.nil_append, hparse]
      rw [if_neg (by norm_num at hr ⊢; omega)]
      exact ⟨_, rfl⟩
    · simp only [ParseCadenceArgument, hfind, hmk, String.reduceEq, ↓reduceIte,
        ParseUint_signed sign digits _ hs]
      exact ⟨_, rfl⟩

/-- C24: evaluation of `ParseCadenceArgument` at parameters that are not of
the form `Type(Value)`. The pattern is searched for anywhere in the
parameter, so characters before the type name and after the closing
parenthesis are passed over: ` Int(5)` and `Int(5) trailing` give the `Int`
5 with a nil error. The parameter `String(a) + String(b)`, which has the
form, gives the string `a) + String(b`, the value being all that stands
before the last closing parenthesis. Parameters in which no part has the
form, such as `Int5` and `Int()`, get the error for an invalid parameter
format. -/
theorem C24_ParseCadenceArgument_unanchored (fixed : FixedPoint) :
    ParseCadenceArgument fixed " Int(5)" = Except.ok (cadence.Value.NewInt 5)
      ∧ ParseCadenceArgument fixed "Int(5) trailing" = Except.ok (cadence.Value.NewInt 5)
      ∧ ParseCadenceArgument fixed "String(a) + String(b)"
          = Except.ok (cadence.Value.NewString "a) + String(b")
      ∧ ParseCadenceArgument fixed "Int5"
          = Except.error (ParseError.invalidParameterFormat "Int5")
      ∧ ParseCadenceArgument fixed "Int()"
          = Except.error (ParseError.invalidParameterFormat "Int()") :=
  ⟨rfl, rfl, rfl, rfl, rfl⟩

/-- C25, amended: for every base-10 integer literal, an optional sign and
then digits, with the value `v`, `ParseCadenceArgument` returns for `Int(v)`
the Cadence `Int` with the value `v` and a nil error exactly when `v` lies
between `-2^63` and `2^63 - 1`; for every other `v` it returns the error of
`strconv.ParseInt` for a number out of range. -/
theorem C25_ParseCadenceArgument_Int (fixed : FixedPoint) (sign : Sign) (digits : List Char)
    (h : isDigits digits) :
    (ParseCadenceArgument fixed (typedLiteral "Int" sign digits)
          = Except.ok (cadence.Value.NewInt (literalValue sign digits))
        ↔ -(2 ^ 63 : Int) ≤ literalValue sign digits ∧ literalValue sign digits < 2 ^ 63)
      ∧ (¬(-(2 ^ 63 : Int) ≤ literalValue sign digits
            ∧ literalValue sign digits < 2 ^ 63) →
        ParseCadenceArgument fixed (typedLiteral "Int" sign digits)
          = Except.error (ParseError.couldNotParseInteger NumError.ErrRange)) := by
  rw [ParseCadenceArgument_Int fixed sign digits h]
  by_cases hr : -(2 ^ 63 : Int) ≤ literalValue sign digits ∧ literalValue sign digits < 2 ^ 63
  · rw [if_pos hr]
    exact ⟨⟨fun _ => hr, fun _ => rfl⟩, fun hn => absurd hr hn⟩
  · rw [if_neg hr]
    refine ⟨⟨fun e => ?_, fun hn => absurd hn hr⟩, fun _ => rfl⟩
    cases e

/-- Witness of C25: the literal `-9223372036854775808`. -/
theorem C25_ParseCadenceArgument_Int_witness :
    isDigits "9223372036854775808".toList
      ∧ ParseCadenceArgument sampleFixed "Int(-9223372036854775808)"
          = Except.ok (cadence.Value.NewInt (-9223372036854775808)) :=
  ⟨by decide,
    (C25_ParseCadenceArgument_Int sampleFixed Sign.minus "9223372036854775808".toList
      (by decide)).1.2 (by decide)⟩

/-- C25 as stated fails: `9223372036854775808` is a base-10 integer literal
with the value `2^63`, and for `Int(9223372036854775808)` the function
returns an error and no value. -/
theorem C25_ParseCadenceArgument_Int_counterexample :
    isDigits "9223372036854775808".toList
      ∧ literalValue Sign.none "9223372036854775808".toList = 2 ^ 63
      ∧ typedLiteral "Int" Sign.none "9223372036854775808".toList
          = "Int(9223372036854775808)"
      ∧ ParseCadenceArgument sampleFixed "Int(9223372036854775808)"
          = Except.error (ParseError.couldNotParseInteger NumError.ErrRange) :=
  ⟨by decide, by decide, by decide, rfl⟩

/-- C30, amended: for every base-10 integer literal, an optional sign and
then digits, with the value `v`. For each of `Int8`, `Int16`, `Int32` and
`Int64`, `ParseCadenceArgument` returns for `T(v)` the value of the type with
the number `v` and a nil error exactly when `v` lies between `-2^(N-1)` and
`2^(N-1) - 1`, and the error for a number out of range otherwise. For each of
`UInt8`, `UInt16`, `UInt32` and `UInt64` and a literal without sign, it
returns the value of the type with the number `v` and a nil error exactly
when `v` is below `2^N`, and an error otherwise; for a literal with a sign it
returns an error, whatever the digits. -/
theorem C30_ParseCadenceArgument_fixed_width (fixed : FixedPoint) (sign : Sign)
    (digits : List Char) (h : isDigits digits) :
    (∀ entry ∈ signedTypes,
        (ParseCadenceArgument fixed (typedLiteral entry.name sign digits)
              = Except.ok (entry.make (literalValue sign digits))
            ↔ -(2 ^ (entry.bits - 1) : Int) ≤ literalValue sign digits
              ∧ literalValue sign digits < 2 ^ (entry.bits - 1))
          ∧ (¬(-(2 ^ (entry.bits - 1) : Int) ≤ literalValue sign digits
                ∧ literalValue sign digits < 2 ^ (entry.bits - 1)) →
            ParseCadenceArgument fixed (typedLiteral entry.name sign digits)
              = Except.error (ParseError.couldNotParseInteger NumError.ErrRange)))
      ∧ (∀ entry ∈ unsignedTypes,
        (ParseCadenceArgument fixed (typedLiteral entry.name Sign.none digits)
              = Except.ok (entry.make (decimalValue digits))
            ↔ decimalValue digits < 2 ^ entry.bits)
          ∧ (¬decimalValue digits < 2 ^ entry.bits →
            ∃ err, ParseCadenceArgument fixed (typedLiteral entry.name Sign.none digits)
              = Except.error err)
          ∧ (sign ≠ Sign.none →
            ∃ err, ParseCadenceArgument fixed (typedLiteral entry.name sign digits)
              = Except.error err)) := by
  constructor
  · intro entry hentry
    rw [ParseCadenceArgument_signed fixed sign digits h entry hentry]
    by_cases hr : -(2 ^ (entry.bits - 1) : Int) ≤ literalValue sign digits
        ∧ literalValue sign digits < 2 ^ (entry.bits - 1)
    · rw [if_pos hr]
      exact ⟨⟨fun _ => hr, fun _ => rfl⟩, fun hn => absurd hr hn⟩
    · rw [if_neg hr]
      refine ⟨⟨fun e => ?_, fun hn => absurd hn hr⟩, fun _ => rfl⟩
      cases e
  · intro entry hentry
    obtain ⟨h1, h2, h3⟩ := ParseCadenceArgument_unsigned fixed sign digits h entry hentry
    refine ⟨⟨fun e => ?_, h1⟩, h2, h3⟩
    by_contra hr
    obtain ⟨err, herr⟩ := h2 hr
    rw [herr] at e
    cases e

/-- Witness of C30: the literal `-128` for `Int8`. -/
theorem C30_ParseCadenceArgument_fixed_width_witness :
    isDigits "128".toList
      ∧ ParseCadenceArgument sampleFixed "Int8(-128)"
          = Except.ok (cadence.Value.NewInt8 (-128))
      ∧ ParseCadenceArgument sampleFixed "UInt8(256)"
          ≠ Except.ok (cadence.Value.NewUInt8 256) :=
  ⟨by decide,
    (((C30_ParseCadenceArgument_fixed_width sampleFixed Sign.minus "128".toList
      (by decide)).1 ⟨"Int8", 8, cadence.Value.NewInt8⟩ (by simp [signedTypes])).1).2
        (by decide),
    fun e => absurd
      ((((C30_ParseCadenceArgument_fixed_width sampleFixed Sign.none "256".toList
        (by decide)).2 ⟨"UInt8", 8, cadence.Value.NewUInt8⟩ (by simp [unsignedTypes])).1).1 e)
      (by decide)⟩

/-- C30 as stated fails: `+5` is a base-10 integer literal with the value 5,
which lies in the range of `UInt8`, and for `UInt8(+5)` the function returns
an error and no value. -/
theorem C30_ParseCadenceArgument_fixed_width_counterexample :
    isDigits "5".toList
      ∧ literalValue Sign.plus "5".toList = 5
      ∧ typedLiteral "UInt8" Sign.plus "5".toList = "UInt8(+5)"
      ∧ ParseCadenceArgument sampleFixed "UInt8(+5)"
          = Except.error (ParseError.couldNotParseUnsignedInteger NumError.ErrSyntax)
      ∧ ParseCadenceArgument sampleFixed "UInt8(5)" = Except.ok (cadence.Value.NewUInt8 5) :=
  ⟨by decide, by decide, by decide, rfl, rfl⟩

/-! ## Strings, and the conversion of ledger paths -/

/-- C31: for every non-empty string `s` without a line feed, whatever
parentheses it holds, `ParseCadenceArgument` returns for `String(s)` the
Cadence string `s` and a nil error; for `String()` it returns the error for
an invalid parameter format. -/
theorem C31_ParseCadenceArgument_String (fixed : FixedPoint) (s : String)
    (hne : s ≠ "") (hline : ∀ c ∈ s.toList, c ≠ '\n') :
    ParseCadenceArgument fixed ("String(" ++ s ++ ")")
        = Except.ok (cadence.Value.NewString s)
      ∧ ParseCadenceArgument fixed "String()"
        = Except.error (ParseError.invalidParameterFormat "String()") := by
  refine ⟨?_, rfl⟩
  have hlist : ("String(" ++ s ++ ")").toList
      = "String".toList ++ '(' :: (s.toList ++ [')']) := by
    simp [String.toList]
  have hval : s.toList ≠ [] := fun e => hne (String.ext e)
  have hfind := FindStringSubmatch_typed "String".toList s.toList (by decide) (by decide)
    hval hline
  have hmk : String.mk "String".toList = "String" := rfl
  have hs : String.mk s.toList = s := rfl
  simp only [ParseCadenceArgument, hlist, hfind, hmk, hs, String.reduceEq, ↓reduceIte]

/-- Witness of C31: a string that holds parentheses. -/
theorem C31_ParseCadenceArgument_String_witness :
    ParseCadenceArgument sampleFixed "String(f(x) and )g()"
        = Except.ok (cadence.Value.NewString "f(x) and )g(")
      ∧ ParseCadenceArgument sampleFixed "String()"
        = Except.error (ParseError.invalidParameterFormat "String()") :=
  C31_ParseCadenceArgument_String sampleFixed "f(x) and )g(" (by decide) (by decide)

theorem foldl_PathsToBytes (paths : List ledger.Path) (bb : List (List (Fin 256))) :
    paths.foldl (fun bb path => bb ++ [path.bytes]) bb
      = bb ++ paths.map fun path => path.bytes := by
  induction paths generalizing bb with
  | nil => simp
  | cons path paths ih => simp [List.foldl, ih]

theorem PathsToBytes_eq_map (paths : List ledger.Path) :
    PathsToBytes paths = paths.map fun path => path.bytes := by
  simp [PathsToBytes, foldl_PathsToBytes]

theorem ToPath_bytes (path : ledger.Path) : ToPath path.bytes = Except.ok path := by
  unfold ToPath
  rw [dif_pos path.size]

theorem loop_PathsToBytes (paths acc : List ledger.Path) :
    BytesToPaths.loop (paths.map fun path => path.bytes) acc = Except.ok (acc ++ paths) := by
  induction paths generalizing acc with
  | nil => simp [BytesToPaths.loop]
  | cons path paths ih =>
    simp only [List.map, BytesToPaths.loop, ToPath_bytes, ih]
    simp

theorem loop_BytesToPaths (bb : List (List (Fin 256))) (acc : List ledger.Path) :
    ((∀ b ∈ bb, b.length = 32)
        ∧ ∃ paths : List ledger.Path,
            BytesToPaths.loop bb acc = Except.ok (acc ++ paths)
              ∧ (paths.map fun path => path.bytes) = bb)
      ∨ ∃ (front : List (List (Fin 256))) (b : List (Fin 256)) (back : List (List (Fin 256))),
          bb = front ++ b :: back ∧ (∀ a ∈ front, a.length = 32) ∧ b.length ≠ 32
            ∧ BytesToPaths.loop bb acc
                = Except.error (PathError.couldNotConvertPath b ⟨b.length⟩) := by
  induction bb generalizing acc with
  | nil => exact Or.inl ⟨by simp, [], by simp [BytesToPaths.loop], rfl⟩
  | cons b bb ih =>
    by_cases hb : b.length = 32
    · have hto : ToPath b = Except.ok ⟨b, hb⟩ := by
        unfold ToPath
        rw [dif_pos hb]
      rcases ih (acc ++ [⟨b, hb⟩]) with
        ⟨hall, paths, hloop, hmap⟩ | ⟨front, c, back, hbb, hfront, hc, hloop⟩
      · refine Or.inl ⟨?_, ⟨b, hb⟩ :: paths, ?_, ?_⟩
        · intro a ha
          rcases List.mem_cons.1 ha with rfl | ha
          · exact hb
          · exact hall a ha
        · simp only [BytesToPaths.loop, hto, hloop]
          simp
        · simp [hmap]
      · refine Or.inr ⟨b :: front, c, back, by simp [hbb], ?_, hc, ?_⟩
        · intro a ha
          rcases List.mem_cons.1 ha with rfl | ha
          · exact hb
          · exact hfront a ha
        · simp only [BytesToPaths.loop, hto, hloop]
    · refine Or.inr ⟨[], b, bb, rfl, by simp, hb, ?_⟩
      have hto : ToPath b = Except.error ⟨b.length⟩ := by
        unfold ToPath
        rw [dif_neg hb]
      simp only [BytesToPaths.loop, hto]

/-- C32: for every list of paths, `PathsToBytes` returns as many slices as
there are paths, the slice at each index holding the 32 bytes of the path at
that index, and `BytesToPaths` returns for these slices the same paths and a
nil error; and whenever `BytesToPaths` returns paths and a nil error for a
list of slices, `PathsToBytes` returns for these paths the same slices. -/
theorem C32_paths_round_trip (paths : List ledger.Path) :
    (PathsToBytes paths).length = paths.length
      ∧ (∀ i : Nat, (PathsToBytes paths)[i]? = paths[i]?.map fun path => path.bytes)
      ∧ (∀ b ∈ PathsToBytes paths, b.length = 32)
      ∧ BytesToPaths (PathsToBytes paths) = Except.ok paths
      ∧ ∀ bb : List (List (Fin 256)), BytesToPaths bb = Except.ok paths →
          PathsToBytes paths = bb := by
  rw [PathsToBytes_eq_map]
  refine ⟨by simp, fun i => by simp, ?_, ?_, ?_⟩
  · intro b hb
    obtain ⟨path, _, rfl⟩ := List.mem_map.1 hb
    exact path.size
  · simpa [BytesToPaths] using loop_PathsToBytes paths []
  · intro bb hbb
    unfold BytesToPaths at hbb
    rcases loop_BytesToPaths bb [] with ⟨_, found, hloop, hmap⟩ | ⟨_, _, _, _, _, _, hloop⟩
    · rw [hloop] at hbb
      simp only [List.nil_append, Except.ok.injEq] at hbb
      rw [← hbb, hmap]
    · rw [hloop] at hbb
      cases hbb

/-- Witness of C32: two paths. -/
theorem C32_paths_round_trip_witness :
    BytesToPaths [samplePath.bytes, sampleZeroPath.bytes]
        = Except.ok [samplePath, sampleZeroPath]
      ∧ PathsToBytes [samplePath, sampleZeroPath]
        = [samplePath.bytes, sampleZeroPath.bytes] :=
  ⟨rfl,
    (C32_paths_round_trip [samplePath, sampleZeroPath]).2.2.2.2
      [samplePath.bytes, sampleZeroPath.bytes] rfl⟩

/-- C33: for every list of slices, `BytesToPaths` returns an error exactly
when some slice does not have 32 bytes; it then returns no paths, and the
error is the one for the first such slice of the list, all slices before it
having 32 bytes; for the empty list it returns no paths and a nil error. -/
theorem C33_BytesToPaths_error (bb : List (List (Fin 256))) :
    ((∃ err, BytesToPaths bb = Except.error err) ↔ ∃ b ∈ bb, b.length ≠ 32)
      ∧ (∀ err, BytesToPaths bb = Except.error err →
          ∃ (front : List (List (Fin 256))) (b : List (Fin 256))
            (back : List (List (Fin 256))),
            bb = front ++ b :: back ∧ (∀ a ∈ front, a.length = 32) ∧ b.length ≠ 32
              ∧ err = PathError.couldNotConvertPath b ⟨b.length⟩)
      ∧ BytesToPaths [] = Except.ok [] := by
  unfold BytesToPaths
  refine ⟨⟨?_, ?_⟩, ?_, rfl⟩
  · rintro ⟨err, herr⟩
    rcases loop_BytesToPaths bb [] with ⟨_, _, hloop, _⟩ | ⟨front, b, back, hbb, _, hb, _⟩
    · rw [hloop] at herr
      cases herr
    · exact ⟨b, by simp [hbb], hb⟩
  · rintro ⟨b, hmem, hb⟩
    rcases loop_BytesToPaths bb [] with ⟨hall, _⟩ | ⟨_, _, _, _, _, _, hloop⟩
    · exact absurd (hall b hmem) hb
    · exact ⟨_, hloop⟩
  · intro err herr
    rcases loop_BytesToPaths bb [] with
      ⟨_, _, hloop, _⟩ | ⟨front, b, back, hbb, hfront, hb, hloop⟩
    · rw [hloop] at herr
      cases herr
    · rw [hloop] at herr
      cases herr
      exact ⟨front, b, back, hbb, hfront, hb, rfl⟩

/-- Witness of C33: a slice of three bytes after a slice of 32 bytes and
before a slice of no bytes. -/
theorem C33_BytesToPaths_error_witness :
    BytesToPaths [samplePath.bytes, [1, 2, 3], []]
        = Except.error (PathError.couldNotConvertPath [1, 2, 3] ⟨3⟩)
      ∧ ∃ (front : List (List (Fin 256))) (b : List (Fin 256))
          (back : List (List (Fin 256))),
          [samplePath.bytes, [1, 2, 3], []] = front ++ b :: back
            ∧ (∀ a ∈ front, a.length = 32) ∧ b.length ≠ 32
            ∧ PathError.couldNotConvertPath [1, 2, 3] ⟨3⟩
              = PathError.couldNotConvertPath b ⟨b.length⟩ :=
  ⟨rfl,
    (C33_BytesToPaths_error [samplePath.bytes, [1, 2, 3], []]).2.1 _ rfl⟩

/-! ## The generator and the token table -/

/-- C34: for every generator and every symbol that is no key of the token
table, the method `compile` returns the error for an invalid token symbol
whatever the template is, and `GetBalance`, `TransferTokens`,
`TokensDeposited` and `TokensWithdrawn` each return this error, wrapped, and
no script. For a symbol of the token table, each of the four methods returns
what the execution of its template gives for the parameters of the generator
and the entry of the table for that symbol. -/
theorem C34_Generator_symbol (g : scripts.Generator) (symbol : String) :
    (g.params.Tokens symbol = none →
        (∀ template : List TemplateNode,
          g.compile template symbol
            = Except.error (CompileError.invalidTokenSymbol symbol))
          ∧ g.GetBalance symbol
            = Except.error
                (GeneratorError.couldNotCompileTemplate
                  (CompileError.invalidTokenSymbol symbol))
          ∧ g.TransferTokens symbol
            = Except.error
                (GeneratorError.couldNotCompileTemplate
                  (CompileError.invalidTokenSymbol symbol))
          ∧ g.TokensDeposited symbol
            = Except.error
                (GeneratorError.couldNotCompileTemplate
                  (CompileError.invalidTokenSymbol symbol))
          ∧ g.TokensWithdrawn symbol
            = Except.error
                (GeneratorError.couldNotCompileTemplate
                  (CompileError.invalidTokenSymbol symbol)))
      ∧ ∀ token : dps.Token, g.params.Tokens symbol = some token →
          g.GetBalance symbol = executed g.params token g.getBalance
            ∧ g.TransferTokens symbol = executed g.params token g.transferTokens
            ∧ g.TokensDeposited symbol = executed g.params token g.tokensDeposited
            ∧ g.TokensWithdrawn symbol = executed g.params token g.tokensWithdrawn := by
  constructor
  · intro h
    have hcompile : ∀ template : List TemplateNode,
        g.compile template symbol
          = Except.error (CompileError.invalidTokenSymbol symbol) := by
      intro template
      simp only [scripts.Generator.compile, h]
    refine ⟨hcompile, ?_, ?_, ?_, ?_⟩
    · rw [scripts.Generator.GetBalance, scripts.Generator.bytes, hcompile]
    · rw [scripts.Generator.TransferTokens, scripts.Generator.bytes, hcompile]
    · rw [scripts.Generator.TokensDeposited, scripts.Generator.string, hcompile]
    · rw [scripts.Generator.TokensWithdrawn, scripts.Generator.string, hcompile]
  · intro token h
    have hcompile : ∀ template : List TemplateNode,
        (match g.compile template symbol with
          | Except.error err => Except.error (GeneratorError.couldNotCompileTemplate err)
          | Except.ok buf => Except.ok buf)
          = executed g.params token template := by
      intro template
      simp only [scripts.Generator.compile, h, executed]
      cases Execute template "" ⟨g.params, token⟩ <;> rfl
    exact ⟨hcompile _, hcompile _, hcompile _, hcompile _⟩

/-- Witness of C34: the symbols `BTC` and `FLOW` with the parameters
`sampleParams`, which configure `FLOW` only. -/
theorem C34_Generator_symbol_witness :
    sampleScripts.params.Tokens "BTC" = none
      ∧ sampleScripts.TokensDeposited "BTC"
          = Except.error
              (GeneratorError.couldNotCompileTemplate (CompileError.invalidTokenSymbol "BTC"))
      ∧ sampleScripts.params.Tokens "FLOW" = some sampleToken
      ∧ sampleScripts.TokensDeposited "FLOW"
          = executed sampleParams sampleToken sampleTemplates.tokensDeposited
      ∧ executed sampleParams sampleToken sampleTemplates.tokensDeposited
          = Except.ok "A.1654653399040a61.FlowToken.TokensDeposited" :=
  ⟨rfl, ((C34_Generator_symbol sampleScripts "BTC").1 rfl).2.2.2.1, rfl,
    ((C34_Generator_symbol sampleScripts "FLOW").2 sampleToken rfl).2.2.1, rfl⟩

/-! ## `Validator.Transaction` on hashes of more than 64 digits -/

theorem hexDecode_append_aborts (size : Nat) (rest : List Nat) :
    ∀ (src : List Nat) (written : List (Fin 256)),
      hexDecode size src written = DecodeOutcome.aborts →
        hexDecode size (src ++ rest) written = DecodeOutcome.aborts
  | [], written, h => by simp [hexDecode] at h
  | [p], written, h => by
    unfold hexDecode at h
    cases hp : fromHexChar p <;> simp [hp] at h
  | p :: q :: src, written, h => by
    unfold hexDecode at h
    simp only [List.cons_append]
    unfold hexDecode
    cases hp : fromHexChar p with
    | none => simp [hp] at h
    | some a =>
      cases hq : fromHexChar q with
      | none => simp [hp, hq] at h
      | some b =>
        simp only [hp, hq] at h ⊢
        split_ifs at h ⊢ with hlt
        · exact hexDecode_append_aborts size rest src _ h
        · rfl

theorem goBytes_append (s t : String) : goBytes (s ++ t) = goBytes s ++ goBytes t := by
  simp [goBytes, String.toList]

/-- C35: evaluation of `Validator.Transaction` at hashes of 64, 65 and more
hexadecimal digits. For `testTxHash`, 64 digits, it returns an identifier and
a nil error, and for `testTxHash` with one more digit it returns `flow.ZeroID`
with a `failure.InvalidTransaction`. For `testTxHash` with two more digits,
`hex.Decode` stores a 33rd byte in the identifier of 32 bytes and the call
aborts, whatever follows these 66 digits. -/
theorem C35_Transaction_aborts (txHashInvalid tail : String) :
    hexDecode 32 (goBytes (testTxHash ++ "aa")) [] = DecodeOutcome.aborts
      ∧ Validator.Transaction txHashInvalid ⟨testTxHash ++ "aa"⟩ = TransactionOutcome.aborts
      ∧ Validator.Transaction txHashInvalid ⟨testTxHash ++ "aa" ++ tail⟩
          = TransactionOutcome.aborts
      ∧ Validator.Transaction txHashInvalid ⟨testTxHash ++ "a"⟩
          = TransactionOutcome.returns ZeroID
              (some ⟨failure.NewDescription txHashInvalid, testTxHash ++ "a"⟩)
      ∧ ∃ id : Identifier,
          Validator.Transaction txHashInvalid ⟨testTxHash⟩
            = TransactionOutcome.returns id none := by
  have h66 : hexDecode 32 (goBytes (testTxHash ++ "aa")) [] = DecodeOutcome.aborts := by
    decide
  have htail : hexDecode 32 (goBytes (testTxHash ++ "aa" ++ tail)) []
      = DecodeOutcome.aborts := by
    rw [goBytes_append]
    exact hexDecode_append_aborts 32 _ _ _ h66
  have h65 : HexStringToIdentifier (testTxHash ++ "a")
      = IdentifierOutcome.error (IdentifierError.decode HexError.ErrLength) := by
    decide
  have h64 : ∃ id : Identifier, HexStringToIdentifier testTxHash = IdentifierOutcome.ok id :=
    ⟨⟨hexBytes testTxHash.toList, by decide⟩, by decide⟩
  refine ⟨h66, ?_, ?_, ?_, ?_⟩
  · simp only [Validator.Transaction, HexStringToIdentifier, h66]
  · simp only [Validator.Transaction, HexStringToIdentifier, htail]
  · simp only [Validator.Transaction, h65]
  · obtain ⟨id, hid⟩ := h64
    exact ⟨id, by simp only [Validator.Transaction, hid]⟩

end Rosetta
